import Mathlib

/-!
# NFTs Shop bot (`src/index.js`): purchase flow, sessions, votes

A shallow embedding of the parts of `src/index.js` that carry the shop's
invariants: the SQLite tables (as lists of rows in insertion order), the
in-memory `shopViews` and `pendingItemUploads` maps, the JavaScript number
conversions used by the buy form and by `toSats`, the ledger client
`processPayment`, and the handlers for the buy form, `/additem`, the file
upload, `/remove`, the vote buttons and the pagination buttons.

Conventions.
* Timestamps (`Date.now()`) are natural numbers of milliseconds.
* SQLite `INTEGER` columns and Discord integer options are `Int` (counters,
  stock and timestamps stay far from 64-bit overflow). The columns that hold
  prices and their sum are `SqlNum`: NULL, a 64-bit `INTEGER` or a `REAL`, with
  the way `node-sqlite3` binds and reads JavaScript numbers and SQLite's `+`
  and column affinity.
* A JavaScript `Map` is a function from keys to optional values.
* The ledger (an HTTP service) and `crypto.randomUUID` are inputs of a handler.
* Store operations are assumed not to fail (the `err` argument of a callback
  is always null), except where a `PRIMARY KEY` makes an `INSERT` fail.
-/

namespace NFTsShop

/-! ## JavaScript numbers

IEEE-754 binary64 values. A finite value is `(-1)^neg * m * 2^e`; the values
produced by `roundRat` are in canonical form: `m = 0 ∧ e = 0` (zero),
`0 < m < 2^52 ∧ e = -1074` (subnormal) or `2^52 ≤ m < 2^53 ∧ -1074 ≤ e ≤ 971`
(normal). -/

/-- A JavaScript number. -/
inductive Num where
  | nan : Num
  | inf (neg : Bool) : Num
  | fin (neg : Bool) (m : Nat) (e : Int) : Num
deriving DecidableEq, Repr

/-- Index of the highest set bit of `n` (`0` for `n ≤ 1`), by structural fuel. -/
def log2Aux : Nat → Nat → Nat
  | 0, _ => 0
  | fuel + 1, n => if 2 ≤ n then log2Aux fuel (n / 2) + 1 else 0

/-- Value `⌊log₂ n⌋` for `n > 0`. -/
def log2 (n : Nat) : Nat := log2Aux n n

/-- Value `⌊log₂ (p / q)⌋` for `p, q > 0`. -/
def floorLog2 (p q : Nat) : Int :=
  if q * 2 ^ log2 p ≤ p * 2 ^ log2 q then (log2 p : Int) - (log2 q : Int)
  else (log2 p : Int) - (log2 q : Int) - 1

/-- Nearest natural number to `num / den`, ties to the even one. -/
def roundHalfEven (num den : Nat) : Nat :=
  if 2 * (num % den) < den then num / den
  else if den < 2 * (num % den) then num / den + 1
  else if (num / den) % 2 = 0 then num / den
  else num / den + 1

/-- Exponent of the unit in the last place of the binary64 value nearest to
`p / q` (`p, q > 0`): `⌊log₂ (p / q)⌋ - 52`, but at least `-1074` (subnormal
range). -/
def roundExp (p q : Nat) : Int := max (floorLog2 p q - 52) (-1074)

/-- Significand of the binary64 value nearest to `p / q`: the quotient
`(p / q) / 2^(roundExp p q)` rounded to the nearest natural number, ties to
even. -/
def roundMant (p q : Nat) : Nat :=
  roundHalfEven (p * 2 ^ (-(roundExp p q)).toNat) (q * 2 ^ (roundExp p q).toNat)

/-- Round the rational `(-1)^neg * p / q` (`q > 0`) to the nearest binary64
value, ties to even; overflow gives an infinity, underflow a zero. -/
def roundRat (neg : Bool) (p q : Nat) : Num :=
  if p = 0 then Num.fin neg 0 0
  else if roundMant p q = 0 then Num.fin neg 0 0
  else if roundMant p q = 2 ^ 53 then
    (if 971 < roundExp p q + 1 then Num.inf neg else Num.fin neg (2 ^ 52) (roundExp p q + 1))
  else if 971 < roundExp p q then Num.inf neg
  else Num.fin neg (roundMant p q) (roundExp p q)

/-- Round the dyadic `(-1)^neg * m * 2^e` to the nearest binary64 value. -/
def roundDyadic (neg : Bool) (m : Nat) (e : Int) : Num :=
  roundRat neg (m * 2 ^ e.toNat) (2 ^ (-e).toNat)

/-- The number value of a natural number (`n` itself when `n < 2^53`). -/
def Num.ofNat (n : Nat) : Num := roundRat false n 1

/-- JavaScript `isNaN` on a number. -/
def isNaN : Num → Bool
  | Num.nan => true
  | _ => false

/-- JavaScript `x * y` on numbers. -/
def Num.mul : Num → Num → Num
  | Num.nan, _ => Num.nan
  | _, Num.nan => Num.nan
  | Num.inf a, Num.inf b => Num.inf (xor a b)
  | Num.inf a, Num.fin b m _ => if m = 0 then Num.nan else Num.inf (xor a b)
  | Num.fin a m _, Num.inf b => if m = 0 then Num.nan else Num.inf (xor a b)
  | Num.fin a m1 e1, Num.fin b m2 e2 => roundDyadic (xor a b) (m1 * m2) (e1 + e2)

/-- JavaScript `x - y` on numbers. -/
def Num.sub : Num → Num → Num
  | Num.nan, _ => Num.nan
  | _, Num.nan => Num.nan
  | Num.inf a, Num.inf b => if a = b then Num.nan else Num.inf a
  | Num.inf a, Num.fin _ _ _ => Num.inf a
  | Num.fin _ _ _, Num.inf b => Num.inf (!b)
  | Num.fin a m1 e1, Num.fin b m2 e2 =>
    let e := min e1 e2
    let x : Int := (if a then -1 else 1) * ((m1 * 2 ^ (e1 - e).toNat : Nat) : Int)
    let y : Int := (if b then -1 else 1) * ((m2 * 2 ^ (e2 - e).toNat : Nat) : Int)
    if x - y = 0 then Num.fin (a && !b) 0 0
    else roundDyadic (decide (x - y < 0)) (x - y).natAbs e

/-- JavaScript `x + y` on numbers (IEEE-754 addition, also the `+` of SQLite on
`REAL` values). -/
def Num.add : Num → Num → Num
  | Num.nan, _ => Num.nan
  | _, Num.nan => Num.nan
  | Num.inf a, Num.inf b => if a = b then Num.inf a else Num.nan
  | Num.inf a, Num.fin _ _ _ => Num.inf a
  | Num.fin _ _ _, Num.inf b => Num.inf b
  | Num.fin a m1 e1, Num.fin b m2 e2 =>
    let e := min e1 e2
    let x : Int := (if a then -1 else 1) * ((m1 * 2 ^ (e1 - e).toNat : Nat) : Int)
    let y : Int := (if b then -1 else 1) * ((m2 * 2 ^ (e2 - e).toNat : Nat) : Int)
    if x + y = 0 then Num.fin (a && b) 0 0
    else roundDyadic (decide (x + y < 0)) (x + y).natAbs e

/-- JavaScript `x / y` on numbers. -/
def Num.div : Num → Num → Num
  | Num.nan, _ => Num.nan
  | _, Num.nan => Num.nan
  | Num.inf _, Num.inf _ => Num.nan
  | Num.inf a, Num.fin b _ _ => Num.inf (xor a b)
  | Num.fin a _ _, Num.inf b => Num.fin (xor a b) 0 0
  | Num.fin a m1 e1, Num.fin b m2 e2 =>
    if m2 = 0 then (if m1 = 0 then Num.nan else Num.inf (xor a b))
    else roundRat (xor a b) (m1 * 2 ^ (e1 - e2).toNat) (m2 * 2 ^ (e2 - e1).toNat)

/-- The number value of an integer (the nearest binary64 value). -/
def Num.ofInt (i : Int) : Num := roundRat (decide (i < 0)) i.natAbs 1

/-- JavaScript `Math.floor`. -/
def Math.floor : Num → Num
  | Num.nan => Num.nan
  | Num.inf a => Num.inf a
  | Num.fin neg m e =>
    if 0 ≤ e then Num.fin neg m e
    else if neg then
      (if m = 0 then Num.fin true 0 0
       else roundRat true ((m + 2 ^ (-e).toNat - 1) / 2 ^ (-e).toNat) 1)
    else roundRat false (m / 2 ^ (-e).toNat) 1

/-- JavaScript `x <= 0`. -/
def Num.leZero : Num → Bool
  | Num.nan => false
  | Num.inf neg => neg
  | Num.fin neg m _ => neg || decide (m = 0)

/-- The integer a number is equal to, if any. -/
def Num.toInt? : Num → Option Int
  | Num.fin neg m e =>
    if 0 ≤ e then some ((if neg then -1 else 1) * ((m * 2 ^ e.toNat : Nat) : Int))
    else if m % 2 ^ (-e).toNat = 0 then
      some ((if neg then -1 else 1) * ((m / 2 ^ (-e).toNat : Nat) : Int))
    else none
  | _ => none

/-- The array index a number denotes as a property key (`xs[x]`): a
non-negative integer (`-0` is the key `"0"`); every other number names no
element of an array. -/
def Num.arrayIndex? (x : Num) : Option Nat :=
  match x.toInt? with
  | some (Int.ofNat k) => some k
  | _ => none

/-! ### `Number(string)` -/

/-- White space and line terminators skipped by `Number` and removed by
`String.prototype.trim`. -/
def isStrWhiteSpaceChar (c : Char) : Bool :=
  c.toNat ∈ [0x09, 0x0A, 0x0B, 0x0C, 0x0D, 0x20, 0xA0, 0x1680, 0x2028, 0x2029, 0x202F,
    0x205F, 0x3000, 0xFEFF] || (0x2000 ≤ c.toNat && c.toNat ≤ 0x200A)

/-- Strip leading and trailing white space. -/
def trimChars (cs : List Char) : List Char :=
  ((cs.dropWhile isStrWhiteSpaceChar).reverse.dropWhile isStrWhiteSpaceChar).reverse

/-- Value of a digit in a base up to 16, if it is one. -/
def digitValue? (c : Char) : Option Nat :=
  if '0' ≤ c ∧ c ≤ '9' then some (c.toNat - '0'.toNat)
  else if 'a' ≤ c ∧ c ≤ 'f' then some (c.toNat - 'a'.toNat + 10)
  else if 'A' ≤ c ∧ c ≤ 'F' then some (c.toNat - 'A'.toNat + 10)
  else none

/-- Value of a non-empty digit string in the given base; `none` when a
character is not a digit of that base. -/
def digitsValue? (base : Nat) (cs : List Char) : Option Nat :=
  if cs = [] then none
  else cs.foldl (fun acc c =>
    match acc, digitValue? c with
    | some a, some d => if d < base then some (a * base + d) else none
    | _, _ => none) (some 0)

/-- The `ExponentPart` of a decimal literal (or nothing). -/
def exponentPart? : List Char → Option Int
  | [] => some 0
  | c :: rest =>
    if c = 'e' ∨ c = 'E' then
      match rest with
      | '+' :: ds => (digitsValue? 10 ds).map Int.ofNat
      | '-' :: ds => (digitsValue? 10 ds).map (fun n => - Int.ofNat n)
      | ds => (digitsValue? 10 ds).map Int.ofNat
    else none

/-- Decimal digits `ip`, fraction digits `fp` and exponent `ex`: the value
`(ip.fp) * 10^ex`, rounded. -/
def decimalValue (neg : Bool) (ip fp : List Char) (ex : Int) : Num :=
  match digitsValue? 10 ('0' :: (ip ++ fp)) with
  | none => Num.nan
  | some d =>
    let e10 : Int := ex - (fp.length : Int)
    roundRat neg (d * 10 ^ e10.toNat) (10 ^ (-e10).toNat)

/-- A `StrUnsignedDecimalLiteral`. -/
def unsignedDecimal (neg : Bool) (cs : List Char) : Num :=
  if cs = "Infinity".toList then Num.inf neg
  else
    let ip := cs.takeWhile Char.isDigit
    let r1 := cs.dropWhile Char.isDigit
    let fp := match r1 with
      | '.' :: r => r.takeWhile Char.isDigit
      | _ => []
    let r2 := match r1 with
      | '.' :: r => r.dropWhile Char.isDigit
      | _ => r1
    if ip = [] ∧ fp = [] then Num.nan
    else
      match exponentPart? r2 with
      | none => Num.nan
      | some ex => decimalValue neg ip fp ex

/-- JavaScript `Number(s)` on a string (StringToNumber). -/
def Number (s : String) : Num :=
  match trimChars s.toList with
  | [] => Num.fin false 0 0
  | '+' :: cs => unsignedDecimal false cs
  | '-' :: cs => unsignedDecimal true cs
  | '0' :: c :: cs =>
    if c = 'x' ∨ c = 'X' then ((digitsValue? 16 cs).map Num.ofNat).getD Num.nan
    else if c = 'o' ∨ c = 'O' then ((digitsValue? 8 cs).map Num.ofNat).getD Num.nan
    else if c = 'b' ∨ c = 'B' then ((digitsValue? 2 cs).map Num.ofNat).getD Num.nan
    else unsignedDecimal false ('0' :: c :: cs)
  | cs => unsignedDecimal false cs

/-- The literal `1e8`. -/
def oneE8 : Num := Num.ofNat 100000000

/-- Source: `const toSats = c => Math.floor(Number(c) * 1e8);`. -/
def toSats (c : String) : Num := Math.floor ((Number c).mul oneE8)

/-! ## Configuration -/

/-- Source: `const SHOP_CONTEXT_TTL = 15 * 60 * 1000;`. -/
def SHOP_CONTEXT_TTL : Nat := 15 * 60 * 1000

/-- Source: `const PAGE_SIZE = 5;` in `renderShop`. -/
def PAGE_SIZE : Nat := 5

/-! ## Tables

One structure per table of `database.db`; a table is the list of its rows in
insertion order. The `cooldowns` table is used by `/panel` only and is left
out. -/

/-- A value of a price column (`items.price_sats`, `purchases.price_sats`,
`shops.total_earned_sats`; declared `INTEGER`, with nothing that forbids NULL):
NULL, a 64-bit `INTEGER` or a `REAL` (a binary64 value that is not NaN). -/
inductive SqlNum where
  | null : SqlNum
  | int (i : Int) : SqlNum
  | real (x : Num) : SqlNum
deriving DecidableEq, Repr

/-- Integer literals are integer values. -/
instance (n : Nat) : OfNat SqlNum n := ⟨SqlNum.int n⟩

/-- What JavaScript gets when `node-sqlite3` reads a column value: `null` (here
`none`) for NULL, the number nearest to an `INTEGER` (exact up to `2^53`), the
number itself for a `REAL`. -/
def SqlNum.toJs : SqlNum → Option Num
  | SqlNum.null => none
  | SqlNum.int i => some (Num.ofInt i)
  | SqlNum.real x => some x

/-- The value `node-sqlite3` binds to a `?` for a JavaScript number: an
`INTEGER` when the number is a 32-bit integer, a `REAL` otherwise; SQLite takes
a NaN as NULL. -/
def SqlNum.param (x : Num) : SqlNum :=
  match x.toInt? with
  | some i => if -2 ^ 31 ≤ i ∧ i < 2 ^ 31 then SqlNum.int i else SqlNum.real x
  | none => if isNaN x then SqlNum.null else SqlNum.real x

/-- The value bound to a `?` for what JavaScript got from a column
(`item.price_sats`): `null` is bound as NULL. -/
def SqlNum.paramJs : Option Num → SqlNum
  | none => SqlNum.null
  | some x => SqlNum.param x

/-- The value bound to a `?` when the program passes on a column value it has
read. -/
def SqlNum.rebound (v : SqlNum) : SqlNum := SqlNum.paramJs v.toJs

/-- The `INTEGER` affinity of the column, applied when a value is written: a
`REAL` that is an integer strictly between `-2^63` and `2^63` becomes that
`INTEGER`; every other value is kept as it is. -/
def SqlNum.store : SqlNum → SqlNum
  | SqlNum.real x =>
    match x.toInt? with
    | some i => if -2 ^ 63 < i ∧ i < 2 ^ 63 then SqlNum.int i else SqlNum.real x
    | none => SqlNum.real x
  | v => v

/-- The value stored in a price column when the JavaScript number `x` is bound
to it. -/
def SqlNum.bind (x : Num) : SqlNum := (SqlNum.param x).store

/-- The result of `REAL` arithmetic: NULL when it is NaN. -/
def SqlNum.ofReal (x : Num) : SqlNum := if isNaN x then SqlNum.null else SqlNum.real x

/-- The SQL operator `+`: NULL if an operand is NULL; 64-bit integer addition on
two `INTEGER`s when the sum fits in 64 bits; `REAL` (binary64) addition
otherwise, an `INTEGER` operand being converted to the nearest `REAL`. -/
def SqlNum.add : SqlNum → SqlNum → SqlNum
  | SqlNum.null, _ => SqlNum.null
  | _, SqlNum.null => SqlNum.null
  | SqlNum.int a, SqlNum.int b =>
    if -2 ^ 63 ≤ a + b ∧ a + b < 2 ^ 63 then SqlNum.int (a + b)
    else SqlNum.ofReal ((Num.ofInt a).add (Num.ofInt b))
  | SqlNum.int a, SqlNum.real y => SqlNum.ofReal ((Num.ofInt a).add y)
  | SqlNum.real x, SqlNum.int b => SqlNum.ofReal (x.add (Num.ofInt b))
  | SqlNum.real x, SqlNum.real y => SqlNum.ofReal (x.add y)

/-- The SQL operator `+` on price columns. -/
instance : Add SqlNum := ⟨SqlNum.add⟩

/-- Row of `users`. -/
structure User where
  user_id : String
  card_code : Option String
  created_at : Nat
deriving DecidableEq, Repr

/-- Row of `shops`. -/
structure Shop where
  user_id : String
  reputation : Int
  total_sales : Int
  total_earned_sats : SqlNum
deriving DecidableEq, Repr

/-- Row of `items`. -/
structure Item where
  id : String
  owner_id : String
  name : String
  original_filename : String
  price_sats : SqlNum
  size_bytes : Nat
  amount : Int
  file : List Nat
  created_at : Nat
deriving DecidableEq, Repr

/-- Row of `purchases`. -/
structure Purchase where
  id : String
  buyer_id : String
  seller_id : String
  item_id : String
  price_sats : SqlNum
  tx_id : Option String
  created_at : Nat
deriving DecidableEq, Repr

/-- Row of `votes`. -/
structure Vote where
  purchase_id : String
  voter_id : String
  vote : Int
deriving DecidableEq, Repr

/-- The database. -/
structure Db where
  users : List User
  shops : List Shop
  items : List Item
  purchases : List Purchase
  votes : List Vote
deriving DecidableEq, Repr

/-! ## SQL statements -/

/-- Statement `SELECT * FROM items WHERE owner_id = ? ORDER BY created_at ASC`
(rows with equal `created_at` keep their insertion order). -/
def selectItemsByOwner (items : List Item) (ownerId : String) : List Item :=
  (items.filter (fun i => i.owner_id = ownerId)).insertionSort
    (fun a b => a.created_at ≤ b.created_at)

/-- Statement `UPDATE items SET amount = amount - 1 WHERE id = ? AND amount > 0`;
the second component is `this.changes`. -/
def updateDecrementStock (items : List Item) (id : String) : List Item × Nat :=
  (items.map (fun i => if i.id = id ∧ 0 < i.amount then { i with amount := i.amount - 1 } else i),
   (items.filter (fun i => i.id = id ∧ 0 < i.amount)).length)

/-- Statement `DELETE FROM items WHERE id = ? AND amount <= 0`. -/
def deleteSoldOut (items : List Item) (id : String) : List Item :=
  items.filter (fun i => ¬ (i.id = id ∧ i.amount ≤ 0))

/-- Statement `DELETE FROM items WHERE id = ? AND owner_id = ?`; the second
component is `this.changes`. -/
def deleteItem (items : List Item) (id ownerId : String) : List Item × Nat :=
  (items.filter (fun i => ¬ (i.id = id ∧ i.owner_id = ownerId)),
   (items.filter (fun i => i.id = id ∧ i.owner_id = ownerId)).length)

/-- Statement `INSERT INTO purchases (...) VALUES (...)`; `id` is the primary
key, so the insert fails (and changes nothing) when the id is taken. -/
def insertPurchase (purchases : List Purchase) (p : Purchase) : List Purchase :=
  if purchases.any (fun q => q.id = p.id) then purchases else purchases ++ [p]

/-- Statement `UPDATE shops SET total_sales = total_sales + 1,
total_earned_sats = total_earned_sats + ? WHERE user_id = ?`, for the value
`price` bound to the first `?`. -/
def updateSales (shops : List Shop) (price : SqlNum) (ownerId : String) : List Shop :=
  shops.map (fun s =>
    if s.user_id = ownerId then
      { s with total_sales := s.total_sales + 1,
               total_earned_sats := (s.total_earned_sats + price).store }
    else s)

/-- The value of `total_earned_sats` after `k` runs of `updateSales` with the
same bound value. -/
def SqlNum.addTimes (total : SqlNum) (k : Nat) (price : SqlNum) : SqlNum :=
  (fun t => (t + price).store)^[k] total

/-- Statement `UPDATE shops SET reputation = MAX(-1000, MIN(1000, reputation + ?))
WHERE user_id = ?`. -/
def updateReputation (shops : List Shop) (delta : Int) (ownerId : String) : List Shop :=
  shops.map (fun s =>
    if s.user_id = ownerId then
      { s with reputation := max (-1000) (min 1000 (s.reputation + delta)) }
    else s)

/-- Statement `SELECT reputation FROM shops WHERE user_id = ?` (`db.get`: the
first row). -/
def selectReputation (shops : List Shop) (ownerId : String) : Option Int :=
  (shops.find? (fun s => s.user_id = ownerId)).map (fun s => s.reputation)

/-- Statement `SELECT card_code FROM users WHERE user_id = ?`, as used by
`r?.card_code` and `row && row.card_code`: a missing row, a NULL and an empty
string are all falsy. -/
def selectCardCode (users : List User) (userId : String) : Option String :=
  match users.find? (fun u => u.user_id = userId) with
  | some u => u.card_code.filter (fun c => c ≠ "")
  | none => none

/-- Statement `SELECT p.id FROM purchases p LEFT JOIN votes v ON v.purchase_id = p.id
WHERE p.buyer_id = ? AND p.seller_id = ? AND v.purchase_id IS NULL
ORDER BY p.created_at DESC LIMIT 1` (among rows with equal `created_at` the
earliest inserted comes first). -/
def selectUnvotedPurchase (purchases : List Purchase) (votes : List Vote)
    (buyerId sellerId : String) : Option Purchase :=
  ((purchases.filter (fun p => p.buyer_id = buyerId ∧ p.seller_id = sellerId ∧
      ¬ votes.any (fun v => v.purchase_id = p.id))).insertionSort
    (fun a b => b.created_at ≤ a.created_at)).head?

/-- Statement `INSERT INTO votes (purchase_id, voter_id, vote) VALUES (?, ?, ?)`;
`purchase_id` is the primary key, so the insert fails (and changes nothing)
when that purchase already has a vote. -/
def insertVote (votes : List Vote) (v : Vote) : List Vote :=
  if votes.any (fun w => w.purchase_id = v.purchase_id) then votes else votes ++ [v]

/-- Source: `ensureUser(id)`: `INSERT OR IGNORE INTO users (user_id, created_at)`
and `INSERT OR IGNORE INTO shops (user_id)` (the other columns take their
defaults: NULL for `card_code`, 0 for the three counters of a shop). -/
def ensureUser (id : String) (now : Nat) (db : Db) : Db :=
  { db with
    users := if db.users.any (fun u => u.user_id = id) then db.users
      else db.users ++ [⟨id, Option.none, now⟩]
    shops := if db.shops.any (fun s => s.user_id = id) then db.shops
      else db.shops ++ [⟨id, 0, 0, 0⟩] }

/-! ## Sessions -/

/-- Value stored in `shopViews`. -/
structure View where
  ownerId : String
  page : Int
  expires : Nat
deriving DecidableEq, Repr

/-- The `shopViews` map, keyed by viewer id. -/
abbrev Views := String → Option View

/-- Method `Map.prototype.set`. -/
def Views.set (m : Views) (k : String) (v : View) : Views :=
  fun k2 => if k2 = k then some v else m k2

/-- Method `Map.prototype.delete`. -/
def Views.delete (m : Views) (k : String) : Views :=
  fun k2 => if k2 = k then none else m k2

/-- The sweep `for (const [userId, view] of shopViews.entries())
if (view.expires < now) shopViews.delete(userId)` (the 60 s timer, and the
start of the `/shop` handler). -/
def sweepViews (m : Views) (now : Nat) : Views :=
  fun k => (m k).filter (fun v => ¬ v.expires < now)

/-- The sweeps of the 60 s timer (or of `/shop` runs) at the given times, in order. -/
def sweepAll (m : Views) (times : List Nat) : Views := times.foldl sweepViews m

/-- The guard `!view || view.expires < Date.now()` negated: the view a handler
goes on with, if any. -/
def liveView (m : Views) (userId : String) (now : Nat) : Option View :=
  (m userId).filter (fun v => ¬ v.expires < now)

/-- State of the bot: the `shopViews` map and the database. -/
structure State where
  shopViews : Views
  db : Db

/-! ## The world outside the program -/

/-- Result of `coinPayByCard` / `processPayment`: `success` and `txId`. -/
structure PayResult where
  success : Bool
  txId : Option String
deriving DecidableEq, Repr

/-- What a handler run gets from outside: the built-in
`String.prototype.toLowerCase`, Discord's `client.users.fetch` (the id of the
user found, if any), the ledger's `/api/card/info` (the `userId` of a card when
`success`), and the outcome of the `n`-th call of `coinPayByCard` in this run
for a card, a destination and an amount in sats. -/
structure Env where
  toLowerCase : String → String
  fetchUser : String → Option String
  cardInfo : String → Option String
  coinPayByCard : Nat → String → String → SqlNum → PayResult

/-- A charge sent to the ledger. -/
structure Charge where
  cardCode : String
  toId : String
  amountSats : SqlNum
  result : PayResult
deriving DecidableEq, Repr

/-- The `n`-th charge of a run: the card, the destination and the amount the
handler passes to `coinPayByCard`, with the ledger's answer. -/
def Env.charge (env : Env) (n : Nat) (cardCode toId : String) (amountSats : SqlNum) :
    Charge :=
  ⟨cardCode, toId, amountSats, env.coinPayByCard n cardCode toId amountSats⟩

/-! ## Replies -/

/-- The embed built by `renderShop`: numbered lines `(number, name, price_sats,
amount)`, the reputation shown, the page of the footer and the disabled flags
of the three buttons. -/
structure ShopEmbed where
  lines : List (Nat × String × SqlNum × Int)
  reputation : Int
  page : Int
  prevDisabled : Bool
  buyDisabled : Bool
  nextDisabled : Bool
deriving DecidableEq, Repr

/-- What a handler sends back. -/
inductive Reply where
  /-- the handler returns without replying -/
  | none
  /-- reply '❌ Shop session expired.' -/
  | sessionExpired
  /-- reply '❌ Shop session expired or not found.' -/
  | sessionNotFound
  /-- reply '❌ Shop owner not found.' -/
  | ownerNotFound
  /-- the shop embed -/
  | shop (embed : ShopEmbed)
  /-- reply '❌ You must buy from this shop before voting.' -/
  | mustBuyFirst
  /-- reply '✅ Positive vote recorded!' or '⚠️ Negative vote recorded.' -/
  | voteRecorded (positive : Bool)
  /-- reply '❌ Please specify an item.' -/
  | specifyItem
  /-- reply '❌ Item not found or out of stock.' -/
  | itemNotFound
  /-- reply '❌ No card available. Provide a card code.' -/
  | noCard
  /-- reply '❌ Payment failed. Check card or balance.' -/
  | paymentFailed
  /-- reply '❌ Item sold out.' -/
  | soldOut
  /-- the receipt, with the file attached under the given name -/
  | purchaseComplete (itemName : String) (price_sats : SqlNum) (txId : Option String)
      (fileName : String) (file : List Nat)
  /-- reply '❌ Invalid item number.' -/
  | invalidNumber
  /-- reply '❌ Your shop is empty.' -/
  | shopEmpty
  /-- reply '❌ Item number not found.' -/
  | numberNotFound
  /-- reply '❌ Failed to remove item.' -/
  | removeFailed
  /-- reply '🗑️ Item removed from your shop.' -/
  | removed (itemName : String)
deriving DecidableEq, Repr

/-- The file a reply delivers, if any. -/
def Reply.file? : Reply → Option (List Nat)
  | Reply.purchaseComplete _ _ _ _ file => some file
  | _ => Option.none

/-! ## `renderShop` -/

/-- Source: `renderShop(interaction, viewerId, isFirstReply)`. -/
def renderShop (s : State) (viewerId : String) : Reply :=
  match s.shopViews viewerId with
  | Option.none => Reply.sessionNotFound
  | some view =>
    let offset : Nat := (view.page * (PAGE_SIZE : Int)).toNat
    let rows := ((selectItemsByOwner s.db.items view.ownerId).drop offset).take PAGE_SIZE
    Reply.shop {
      lines := rows.enum.map (fun r => (offset + r.1 + 1, r.2.name, r.2.price_sats, r.2.amount))
      reputation := (selectReputation s.db.shops view.ownerId).getD 0
      page := view.page + 1
      prevDisabled := decide (view.page = 0)
      buyDisabled := decide (rows.length = 0)
      nextDisabled := decide (rows.length < PAGE_SIZE) }

/-! ## `/shop` and the buttons -/

/-- The `/shop` command: sweep expired views, then store the viewer's view. -/
def shopCommand (viewerId ownerId : String) (now : Nat) (s : State) : State × Reply :=
  let s1 : State :=
    { s with shopViews := (sweepViews s.shopViews now).set viewerId ⟨ownerId, 0, now + SHOP_CONTEXT_TTL⟩ }
  (s1, renderShop s1 viewerId)

/-- A button click: who clicked, the button's `customId`, and `Date.now()`. -/
structure Click where
  userId : String
  customId : String
  now : Nat

/-- The `open_shop_<ownerId>` branch (both listeners that handle it do the same). -/
def openShop (env : Env) (c : Click) (s : State) : State × Reply :=
  match env.fetchUser (String.mk (c.customId.toList.drop 10)) with
  | Option.none => (s, Reply.ownerNotFound)
  | some ownerId =>
    let s1 : State :=
      { s with shopViews := s.shopViews.set c.userId ⟨ownerId, 0, c.now + SHOP_CONTEXT_TTL⟩ }
    (s1, renderShop s1 c.userId)

/-- The listener `client.on('interactionCreate', ...)` for buttons that opens a
shop, turns pages and records votes (the one under "RENDER SHOP (PAGINATED)"). -/
def buttonHandler (env : Env) (c : Click) (s : State) : State × Reply :=
  if "open_shop_".toList.isPrefixOf c.customId.toList then openShop env c s
  else
    match liveView s.shopViews c.userId c.now with
    | Option.none => ({ s with shopViews := s.shopViews.delete c.userId }, Reply.sessionExpired)
    | some view =>
      if c.customId = "shop_prev" then
        let s1 : State :=
          { s with shopViews := s.shopViews.set c.userId ⟨view.ownerId, max 0 (view.page - 1), c.now + SHOP_CONTEXT_TTL⟩ }
        (s1, renderShop s1 c.userId)
      else if c.customId = "shop_next" then
        let s1 : State :=
          { s with shopViews := s.shopViews.set c.userId ⟨view.ownerId, view.page + 1, c.now + SHOP_CONTEXT_TTL⟩ }
        (s1, renderShop s1 c.userId)
      else if c.customId = "vote_up" ∨ c.customId = "vote_down" then
        let delta : Int := if c.customId = "vote_up" then 5 else -5
        match selectUnvotedPurchase s.db.purchases s.db.votes c.userId view.ownerId with
        | Option.none => (s, Reply.mustBuyFirst)
        | some row =>
          ({ s with db := { s.db with
               votes := insertVote s.db.votes
                 { purchase_id := row.id, voter_id := c.userId, vote := delta }
               shops := updateReputation s.db.shops delta view.ownerId } },
           Reply.voteRecorded (decide (0 < delta)))
      else (s, Reply.none)

/-- The listener under "SHOP PAGINATION BUTTONS": it runs for every button. -/
def paginationHandler (c : Click) (s : State) : State × Reply :=
  match liveView s.shopViews c.userId c.now with
  | Option.none => ({ s with shopViews := s.shopViews.delete c.userId }, Reply.sessionExpired)
  | some view =>
    if c.customId = "shop_prev" then
      let s1 : State :=
        { s with shopViews := s.shopViews.set c.userId ⟨view.ownerId, max 0 (view.page - 1), c.now + SHOP_CONTEXT_TTL⟩ }
      (s1, renderShop s1 c.userId)
    else if c.customId = "shop_next" then
      let s1 : State :=
        { s with shopViews := s.shopViews.set c.userId ⟨view.ownerId, view.page + 1, c.now + SHOP_CONTEXT_TTL⟩ }
      (s1, renderShop s1 c.userId)
    else (s, Reply.none)

/-! ## A click as the listeners see it -/

/-- A click on `shop_prev`, `shop_next`, `vote_up` or `vote_down`: of the
listeners registered for `interactionCreate`, the two that act on such a click,
in registration order (the others return at once, as the id is not `shop_buy`
and does not start with `open_shop_`). The result is the state afterwards and
the replies of the two listeners. -/
def buttonClick (env : Env) (c : Click) (s : State) : State × List Reply :=
  ((paginationHandler c (buttonHandler env c s).1).1,
   [(buttonHandler env c s).2, (paginationHandler c (buttonHandler env c s).1).2])

/-- A sequence of clicks, each handled before the next arrives. -/
def runClicks (s : State) : List (Env × Click) → State
  | [] => s
  | a :: rest => runClicks (buttonClick a.1 a.2 s).1 rest

/-! ## `/remove` -/

/-- The `/remove` command. -/
def removeCommand (userId : String) (number : Int) (db : Db) : Db × Reply :=
  if number ≤ 0 then (db, Reply.invalidNumber)
  else
    let items := selectItemsByOwner db.items userId
    if items.length = 0 then (db, Reply.shopEmpty)
    else
      match items[(number - 1).toNat]? with
      | Option.none => (db, Reply.numberNotFound)
      | some item =>
        let r := deleteItem db.items item.id userId
        if r.2 = 0 then ({ db with items := r.1 }, Reply.removeFailed)
        else ({ db with items := r.1 }, Reply.removed item.name)

/-! ## The buy form (`buy_modal`) -/

/-- The buy form as submitted: `itemInput` is
`getTextInputValue('item')?.trim()`, `cardInput` is
`getTextInputValue('card')?.trim()` (the empty string becomes `null`), `now` is
`Date.now()` at the session check, `uuid` and `recordedAt` are `uuid()` and
`Date.now()` when the purchase is recorded. -/
structure BuyForm where
  buyerId : String
  itemInput : String
  cardInput : String
  now : Nat
  uuid : String
  recordedAt : Nat

/-- Array access `items[x]` with a number as the key. -/
def arrayAt (items : List Item) (x : Num) : Option Item :=
  x.arrayIndex?.bind (fun k => items[k]?)

/-- Item resolution of the buy handler:
`const idx = Number(itemInput); const item = !isNaN(idx) ? items[idx - 1]
: items.find(i => i.name.toLowerCase() === itemInput.toLowerCase());`. -/
def resolveItem (env : Env) (items : List Item) (itemInput : String) : Option Item :=
  if !isNaN (Number itemInput) then arrayAt items ((Number itemInput).sub (Num.ofNat 1))
  else items.find? (fun i => env.toLowerCase i.name = env.toLowerCase itemInput)

/-- Source: `getOrCreateCoinUserId(discordUserId)`. -/
def getOrCreateCoinUserId (env : Env) (users : List User) (discordUserId : String) : String :=
  match selectCardCode users discordUserId with
  | some card =>
    match env.cardInfo card with
    | some userId => if userId = "" then discordUserId else userId
    | Option.none => discordUserId
  | Option.none => discordUserId

/-- The fallback of the payment step: charge the buyer's stored card, if there
is one. The result is the charges made so far and the final `payResult`
(`none` when the handler answers 'No card available'). -/
def payWithStoredCard (env : Env) (users : List User) (buyerId sellerCoinId : String)
    (price : SqlNum) (charges : List Charge) : List Charge × Option PayResult :=
  match selectCardCode users buyerId with
  | Option.none => (charges, Option.none)
  | some buyerCard =>
    (charges ++ [⟨buyerCard, sellerCoinId, price,
        env.coinPayByCard charges.length buyerCard sellerCoinId price⟩],
      some (env.coinPayByCard charges.length buyerCard sellerCoinId price))

/-- The payment step: the card of the form first, when there is one; the
stored card when `!payResult?.success`. -/
def selectPayment (env : Env) (users : List User) (buyerId cardInput sellerCoinId : String)
    (price : SqlNum) : List Charge × Option PayResult :=
  if cardInput = "" then payWithStoredCard env users buyerId sellerCoinId price []
  else if (env.coinPayByCard 0 cardInput sellerCoinId price).success then
    ([⟨cardInput, sellerCoinId, price, env.coinPayByCard 0 cardInput sellerCoinId price⟩],
      some (env.coinPayByCard 0 cardInput sellerCoinId price))
  else
    payWithStoredCard env users buyerId sellerCoinId price
      [⟨cardInput, sellerCoinId, price, env.coinPayByCard 0 cardInput sellerCoinId price⟩]

/-- What a purchase attempt holds once the payment went through: the buyer,
`view.ownerId`, the item row read by the `SELECT`, `payResult.txId || null`,
and the `uuid()` and `Date.now()` of the purchase row. -/
structure Sale where
  buyerId : String
  sellerId : String
  item : Item
  txId : Option String
  purchaseId : String
  recordedAt : Nat
deriving DecidableEq, Repr

/-- Next store operation of a paid purchase attempt. -/
inductive Pc where
  | decrement
  | insertPurchase
  | updateShop
  | deleteItem
  | done
deriving DecidableEq, Repr

/-- A paid purchase attempt: its data, its next store operation, and its
reply once the decrement has been observed. -/
structure Attempt where
  sale : Sale
  pc : Pc
  reply : Reply
deriving DecidableEq, Repr

/-- The receipt with the file, named `item.original_filename || item.name`. -/
def receipt (sale : Sale) : Reply :=
  Reply.purchaseComplete sale.item.name sale.item.price_sats sale.txId
    (if sale.item.original_filename = "" then sale.item.name else sale.item.original_filename)
    sale.item.file

/-- The row `[purchaseId, buyerId, view.ownerId, item.id, item.price_sats,
payResult.txId || null, Date.now()]` of the `INSERT INTO purchases`. -/
def purchaseRow (sale : Sale) : Purchase :=
  ⟨sale.purchaseId, sale.buyerId, sale.sellerId, sale.item.id,
    sale.item.price_sats.rebound.store, sale.txId, sale.recordedAt⟩

/-- One store operation of a paid purchase attempt, in the order the handler
issues them: the conditional decrement, whose callback either answers
'Item sold out' or goes on to the `INSERT INTO purchases`, the `UPDATE shops`
and the `DELETE FROM items ... AND amount <= 0`. -/
def commitStep (a : Attempt) (db : Db) : Attempt × Db :=
  match a.pc with
  | Pc.decrement =>
    if (updateDecrementStock db.items a.sale.item.id).2 = 0 then
      ({ a with pc := Pc.done, reply := Reply.soldOut },
       { db with items := (updateDecrementStock db.items a.sale.item.id).1 })
    else
      ({ a with pc := Pc.insertPurchase, reply := receipt a.sale },
       { db with items := (updateDecrementStock db.items a.sale.item.id).1 })
  | Pc.insertPurchase =>
    ({ a with pc := Pc.updateShop },
     { db with purchases := insertPurchase db.purchases (purchaseRow a.sale) })
  | Pc.updateShop =>
    ({ a with pc := Pc.deleteItem },
     { db with shops := updateSales db.shops a.sale.item.price_sats.rebound a.sale.sellerId })
  | Pc.deleteItem =>
    ({ a with pc := Pc.done }, { db with items := deleteSoldOut db.items a.sale.item.id })
  | Pc.done => (a, db)

/-- The commit of one attempt with no other attempt in between: the four
store operations in a row. -/
def commitSale (sale : Sale) (db : Db) : Attempt × Db :=
  let r1 := commitStep ⟨sale, Pc.decrement, Reply.none⟩ db
  let r2 := commitStep r1.1 r1.2
  let r3 := commitStep r2.1 r2.2
  commitStep r3.1 r3.2

/-- Outcome of one run of the buy handler: the state afterwards, the reply
(`editReply`), the direct message sent to the buyer if any, the charges sent to
the ledger, in order, and the sale recorded, if any. -/
structure BuyOutcome where
  state : State
  reply : Reply
  dm : Option Reply
  charges : List Charge
  sale : Option Sale

/-- A run of the buy handler that ends before the commit. -/
def BuyOutcome.fail (s : State) (reply : Reply) (charges : List Charge) : BuyOutcome :=
  ⟨s, reply, Option.none, charges, Option.none⟩

/-- The end of the buy handler once the payment went through: the commit, the
reply, and the direct message with the receipt after a sale. -/
def finishSale (s : State) (sale : Sale) (charges : List Charge) : BuyOutcome :=
  ⟨{ s with db := (commitSale sale s.db).2 }, (commitSale sale s.db).1.reply,
    if (commitSale sale s.db).1.reply = Reply.soldOut then Option.none
    else some (commitSale sale s.db).1.reply,
    charges,
    if (commitSale sale s.db).1.reply = Reply.soldOut then Option.none else some sale⟩

/-- The `buy_modal` listener up to and including the payment: either the run
ends there with a refusal, or the payment went through and the sale is ready
to be committed. -/
def buyPrepare (env : Env) (f : BuyForm) (s : State) : BuyOutcome ⊕ (Sale × List Charge) :=
  match liveView s.shopViews f.buyerId f.now with
  | Option.none =>
    Sum.inl (BuyOutcome.fail { s with shopViews := s.shopViews.delete f.buyerId }
      Reply.sessionExpired [])
  | some view =>
    if f.itemInput = "" then Sum.inl (BuyOutcome.fail s Reply.specifyItem [])
    else if (selectItemsByOwner s.db.items view.ownerId).length = 0 then
      Sum.inl (BuyOutcome.fail s Reply.itemNotFound [])
    else
      match resolveItem env (selectItemsByOwner s.db.items view.ownerId) f.itemInput with
      | Option.none => Sum.inl (BuyOutcome.fail s Reply.itemNotFound [])
      | some item =>
        if item.amount ≤ 0 then Sum.inl (BuyOutcome.fail s Reply.itemNotFound [])
        else
          match selectPayment env s.db.users f.buyerId f.cardInput
              (getOrCreateCoinUserId env s.db.users view.ownerId) item.price_sats with
          | (charges, Option.none) => Sum.inl (BuyOutcome.fail s Reply.noCard charges)
          | (charges, some payResult) =>
            if !payResult.success then Sum.inl (BuyOutcome.fail s Reply.paymentFailed charges)
            else
              Sum.inr (⟨f.buyerId, view.ownerId, item,
                payResult.txId.filter (fun t => t ≠ ""), f.uuid, f.recordedAt⟩, charges)

/-- The `buy_modal` listener, run with no other handler in between. -/
def buyModal (env : Env) (f : BuyForm) (s : State) : BuyOutcome :=
  match buyPrepare env f s with
  | Sum.inl outcome => outcome
  | Sum.inr (sale, charges) => finishSale s sale charges

/-- A sequence of purchase attempts, each run to its end before the next. -/
def runBuys (s : State) : List (Env × BuyForm) → State
  | [] => s
  | a :: rest => runBuys (buyModal a.1 a.2 s).state rest

/-! ## Purchase attempts in flight together -/

/-- State of `N` paid purchase attempts in flight and the database they share. -/
structure Race (N : Nat) where
  attempts : Fin N → Attempt
  db : Db

/-- The attempts right after their payments: each is about to issue its
conditional decrement. -/
def Race.start {N : Nat} (sales : Fin N → Sale) (db : Db) : Race N :=
  ⟨fun k => ⟨sales k, Pc.decrement, Reply.none⟩, db⟩

/-- Attempt `k` performs its next store operation. -/
def Race.step {N : Nat} (r : Race N) (k : Fin N) : Race N :=
  ⟨Function.update r.attempts k (commitStep (r.attempts k) r.db).1,
    (commitStep (r.attempts k) r.db).2⟩

/-- An interleaving: the attempts take their steps in the order of the schedule. -/
def Race.run {N : Nat} (r : Race N) : List (Fin N) → Race N
  | [] => r
  | k :: rest => (r.step k).run rest

/-! ## The ledger client (`processPayment`) -/

/-- The body of a ledger answer (`res.data`, `error.response.data`), as far as
the program reads it: `success === true`, `txId`, `date`, `error`. -/
structure LedgerBody where
  success : Bool
  txId : Option String
  date : Option String
  error : Option String
deriving DecidableEq, Repr

/-- An HTTP response: the status and the body, if there is one. -/
structure HttpResponse where
  status : Nat
  data : Option LedgerBody
deriving DecidableEq, Repr

/-- The error `axios.post` rejects with: `message`, `code` (`'ECONNABORTED'` for
a timeout) and `response` (the answer of the ledger when it sent one; axios
rejects for every status outside 200..299). -/
structure AxiosError where
  message : String
  code : Option String
  response : Option HttpResponse
deriving DecidableEq, Repr

/-- How one `axios.post` ends. -/
inductive Outcome where
  | resolved (res : HttpResponse)
  | rejected (error : AxiosError)
deriving DecidableEq, Repr

/-- What `processPayment` returns: `success`, `txId`, `date`, `method`, `error`,
`raw`, `status` (absent fields are `none`). -/
structure PaymentResult where
  success : Bool
  txId : Option String
  date : Option String
  method : Option String
  error : Option String
  raw : Option LedgerBody
  status : Option Nat
deriving DecidableEq, Repr

/-- What `processPayment` does to the outside: a `POST` to `/api/transfer/card`
with the body `cardCode, toId, amount` and the `timeout` option, or a wait of
`ms` milliseconds. -/
inductive Effect where
  | post (cardCode toId : String) (amount : Num) (timeout : Nat)
  | sleep (ms : Nat)
deriving DecidableEq, Repr

/-- JavaScript `x || d` on an optional text: `undefined`, `null` and the empty
string are falsy. -/
def orText (x : Option String) (d : String) : String := (x.filter (fun t => t ≠ "")).getD d

/-- The retry test of the `catch` branch:
`error.code === 'ECONNABORTED' || !error.response`. -/
def isNetworkError (error : AxiosError) : Bool :=
  error.code = some "ECONNABORTED" || error.response.isNone

/-- A failure the `catch` branch retries: the request was rejected with no
response received, or with a timeout. -/
def Outcome.isNetworkFailure : Outcome → Bool
  | Outcome.resolved _ => false
  | Outcome.rejected error => isNetworkError error

/-- Source: `processPayment(cardCode, toId, amountCoins, retryCount)`. The
argument `ledger` gives the outcomes of the requests of this call, in order
(`ledger 0` for the first one), `isoNow` is `new Date().toISOString()`; the
first argument after the colon is the fuel of the recursion. The result is the
value returned and what was done on the way. -/
def processPayment (isoNow cardCode toId amountCoins : String) :
    Nat → (Nat → Outcome) → Nat → Option (PaymentResult × List Effect)
  | 0, _, _ => none
  | fuel + 1, ledger, retryCount =>
    let amount := (Math.floor ((Number amountCoins).mul oneE8)).div oneE8
    match ledger 0 with
    | Outcome.resolved res =>
      match res.data with
      | some data =>
        if data.success then
          some (⟨true, data.txId, some (orText data.date isoNow), some "api/transfer/card",
            none, none, none⟩, [Effect.post cardCode toId amount 15000])
        else
          some (⟨false, none, none, none, some (orText data.error "Payment failed"), some data,
            none⟩, [Effect.post cardCode toId amount 15000])
      | none =>
        some (⟨false, none, none, none, some "Payment failed", none, none⟩,
          [Effect.post cardCode toId amount 15000])
    | Outcome.rejected error =>
      if retryCount < 2 ∧ isNetworkError error = true then
        (processPayment isoNow cardCode toId amountCoins fuel (fun k => ledger (k + 1))
            (retryCount + 1)).map
          (fun r => (r.1, Effect.post cardCode toId amount 15000 ::
            Effect.sleep (1000 * (retryCount + 1)) :: r.2))
      else if error.response.map (fun r => r.status) = some 404 then
        some (⟨false, none, none, none, some "API endpoint not found. Please contact admin.",
          none, some 404⟩, [Effect.post cardCode toId amount 15000])
      else
        some (⟨false, none, none, none,
          some (orText ((error.response.bind (fun r => r.data)).bind (fun d => d.error))
            (orText (some error.message) "Network error")),
          none, error.response.map (fun r => r.status)⟩,
          [Effect.post cardCode toId amount 15000])

/-- Source: `coinPayByCard(cardCode, toId, amountCoins)`: `processPayment` with
`retryCount = 0`. -/
def coinPayByCard (isoNow cardCode toId amountCoins : String) (fuel : Nat)
    (ledger : Nat → Outcome) : Option (PaymentResult × List Effect) :=
  processPayment isoNow cardCode toId amountCoins fuel ledger 0

/-- The requests among the effects. -/
def Effect.isPost : Effect → Bool
  | Effect.post _ _ _ _ => true
  | Effect.sleep _ => false

/-! ## `/additem` and the file upload -/

/-- Source: `const MAX_FILE_MB = 8;`. -/
def MAX_FILE_MB : Nat := 8

/-- Source: `const MAX_FILE_BYTES = MAX_FILE_MB * 1024 * 1024;`. -/
def MAX_FILE_BYTES : Nat := MAX_FILE_MB * 1024 * 1024

/-- Source: `const ADD_ITEM_TIMEOUT_MS = 5 * 60 * 1000;`. -/
def ADD_ITEM_TIMEOUT_MS : Nat := 5 * 60 * 1000

/-- Value stored in `pendingItemUploads`. -/
structure Pending where
  name : String
  priceSats : Num
  amount : Int
  expires : Nat
deriving DecidableEq, Repr

/-- The `pendingItemUploads` map, keyed by user id. -/
abbrev Uploads := String → Option Pending

/-- Method `Map.prototype.set`. -/
def Uploads.set (m : Uploads) (k : String) (v : Pending) : Uploads :=
  fun k2 => if k2 = k then some v else m k2

/-- Method `Map.prototype.delete`. -/
def Uploads.delete (m : Uploads) (k : String) : Uploads :=
  fun k2 => if k2 = k then none else m k2

/-- The sweep `for (const [userId, pending] of pendingItemUploads.entries())
if (pending.expires < now) pendingItemUploads.delete(userId)` of the 30 s timer. -/
def sweepUploads (m : Uploads) (now : Nat) : Uploads :=
  fun k => (m k).filter (fun v => ¬ v.expires < now)

/-- State of the bot with the `pendingItemUploads` map as well. -/
structure Bot extends State where
  pendingItemUploads : Uploads

/-- What the `/additem` listener answers. -/
inductive AddItemReply where
  /-- reply '❌ Invalid price or amount.' -/
  | invalid
  /-- reply '📤 Send the file now (max 8MB). You have 5 minutes.' -/
  | sendFile
deriving DecidableEq, Repr

/-- The `/additem` listener, for the options `name`, `price` (a string) and
`amount` (an integer) given by user `userId` at time `now`. -/
def additemCommand (userId name priceCoins : String) (amount : Int) (now : Nat) (b : Bot) :
    Bot × AddItemReply :=
  if (toSats priceCoins).leZero || decide (amount ≤ 0) then (b, AddItemReply.invalid)
  else
    ({ b with
        db := ensureUser userId now b.db
        pendingItemUploads := b.pendingItemUploads.set userId
          ⟨name, toSats priceCoins, amount, now + ADD_ITEM_TIMEOUT_MS⟩ },
      AddItemReply.sendFile)

/-- An attachment of a message: `name`, `size`, `url`. -/
structure Attachment where
  name : String
  size : Nat
  url : String
deriving DecidableEq, Repr

/-- A `messageCreate` event as the upload listener sees it: the author, the
attachments, `now()` at the check of the pending upload, what
`axios.get(file.url)` brings back (`none` when it throws), and the `uuid()` and
`now()` of the row. -/
structure Message where
  authorId : String
  authorIsBot : Bool
  attachments : List Attachment
  now : Nat
  download : Option (List Nat)
  uuid : String
  createdAt : Nat
deriving DecidableEq, Repr

/-- What the upload listener answers. -/
inductive UploadReply where
  /-- the listener returns (or throws) without replying -/
  | none
  /-- reply '❌ File too large. Max 8MB.' -/
  | tooLarge
  /-- reply '❌ Failed to save item.' -/
  | failedToSave
  /-- reply '✅ Item added to your shop.' -/
  | added (name : String)
deriving DecidableEq, Repr

/-- Statement `INSERT INTO items (...) VALUES (...)`; `id` is the primary key,
so the insert fails (and changes nothing) when the id is taken. The second
component tells whether the row went in (`err` is null). -/
def insertItem (items : List Item) (i : Item) : List Item × Bool :=
  if items.any (fun j => j.id = i.id) then (items, false) else (items ++ [i], true)

/-- The row the upload listener inserts for a pending upload and a file. -/
def uploadRow (m : Message) (pending : Pending) (file : Attachment) (buffer : List Nat) : Item :=
  ⟨m.uuid, m.authorId, pending.name, file.name, SqlNum.bind pending.priceSats, file.size,
    pending.amount, buffer, m.createdAt⟩

/-- The `messageCreate` listener (file upload), run with no other handler in
between. -/
def uploadHandler (m : Message) (b : Bot) : Bot × UploadReply :=
  if m.authorIsBot ∨ m.attachments.length = 0 then (b, UploadReply.none)
  else
    match b.pendingItemUploads m.authorId, m.attachments.head? with
    | some pending, some file =>
      if pending.expires < m.now then (b, UploadReply.none)
      else if MAX_FILE_BYTES < file.size then (b, UploadReply.tooLarge)
      else
        match m.download with
        | Option.none => (b, UploadReply.none)
        | some buffer =>
          if (insertItem b.db.items (uploadRow m pending file buffer)).2 then
            ({ b with
                db := { b.db with
                  items := (insertItem b.db.items (uploadRow m pending file buffer)).1 }
                pendingItemUploads := b.pendingItemUploads.delete m.authorId },
              UploadReply.added pending.name)
          else (b, UploadReply.failedToSave)
    | _, _ => (b, UploadReply.none)

/-! ## Operations on the store, one after the other -/

/-- An operation run to its end: `/additem`, a file upload, `/remove`, a
purchase attempt, the commit of a purchase attempt whose payment went through
earlier (other operations may have run since), or the sweep of the pending
uploads. -/
inductive Op where
  | additem (userId name priceCoins : String) (amount : Int) (now : Nat)
  | upload (m : Message)
  | remove (userId : String) (number : Int)
  | buy (env : Env) (f : BuyForm)
  | commit (sale : Sale) (charges : List Charge)
  | sweep (now : Nat)

/-- The state after an operation. -/
def Op.run (b : Bot) : Op → Bot
  | Op.additem userId name priceCoins amount now =>
    (additemCommand userId name priceCoins amount now b).1
  | Op.upload m => (uploadHandler m b).1
  | Op.remove userId number => { b with db := (removeCommand userId number b.db).1 }
  | Op.buy env f => { b with toState := (buyModal env f b.toState).state }
  | Op.commit sale charges => { b with toState := (finishSale b.toState sale charges).state }
  | Op.sweep now => { b with pendingItemUploads := sweepUploads b.pendingItemUploads now }

/-- The state after a sequence of operations. -/
def runOps (b : Bot) : List Op → Bot
  | [] => b
  | op :: rest => runOps (Op.run b op) rest

/-! ## A button click as dispatched to every listener -/

/-- What the `shop_buy` listener answers. -/
inductive BuyButtonReply where
  /-- the listener returns at once -/
  | none
  /-- reply '❌ Shop session expired.' -/
  | sessionExpired
  /-- the modal `buy_modal` is shown (or '❌ Failed to open purchase form.' when
  that throws) -/
  | showModal
deriving DecidableEq, Repr

/-- The listener under "SHOP BUY BUTTON - SHOW MODAL". -/
def buyButtonHandler (c : Click) (s : State) : State × BuyButtonReply :=
  if c.customId ≠ "shop_buy" then (s, BuyButtonReply.none)
  else
    match liveView s.shopViews c.userId c.now with
    | Option.none =>
      ({ s with shopViews := s.shopViews.delete c.userId }, BuyButtonReply.sessionExpired)
    | some _ => (s, BuyButtonReply.showModal)

/-- The second listener for the `open_shop_<ownerId>` buttons (the one
registered after `/panel`). -/
def openShopListener (env : Env) (c : Click) (s : State) : State × Reply :=
  if "open_shop_".toList.isPrefixOf c.customId.toList then openShop env c s
  else (s, Reply.none)

/-- The state after a button click has gone through the `interactionCreate`
listeners: of the ten registered, six return at once on a button (they are for
slash commands and for the modal) and four handle buttons, registered in the
order `shop_buy` listener, `buttonHandler`, `openShopListener`,
`paginationHandler`. Each runs up to its first `await` before the next starts:
on an `open_shop_` click the two listeners that open a shop wait for
`users.fetch` and store the view after the pagination listener has run; on every
other click each listener has changed `shopViews` before the next one reads it. -/
def dispatchButton (env : Env) (c : Click) (s : State) : State :=
  if "open_shop_".toList.isPrefixOf c.customId.toList then
    (openShopListener env c
      (buttonHandler env c (paginationHandler c (buyButtonHandler c s).1).1).1).1
  else
    (paginationHandler c
      (openShopListener env c (buttonHandler env c (buyButtonHandler c s).1).1).1).1

/-- A sequence of button clicks, each dispatched before the next arrives. -/
def runButtons (s : State) : List (Env × Click) → State
  | [] => s
  | a :: rest => runButtons (dispatchButton a.1 a.2 s) rest

/-! ## Scenarios -/

/-- Lower-casing of the ASCII letters: what `toLowerCase` does on the strings of
the scenarios. -/
def asciiLower (s : String) : String := String.mk (s.toList.map Char.toLower)

/-- An environment in which every user is found, no card is registered with
the ledger and every charge succeeds with transaction id `tx`. -/
def demoEnv : Env :=
  { toLowerCase := asciiLower
    fetchUser := fun u => some u
    cardInfo := fun _ => Option.none
    coinPayByCard := fun _ _ _ _ => ⟨true, some "tx"⟩ }

/-- The item "Widget" of user `A`: 250000000 sats, 3 in stock. -/
def widget : Item := ⟨"i1", "A", "Widget", "widget.png", 250000000, 3, 3, [1, 2, 3], 100⟩

/-- User `A` sells `widget`; user `B` has opened `A`'s shop at time 1000. -/
def demoState : State :=
  { shopViews := Views.set (fun _ => Option.none) "B" ⟨"A", 0, 1000 + SHOP_CONTEXT_TTL⟩
    db := ⟨[⟨"A", Option.none, 1⟩, ⟨"B", Option.none, 2⟩], [⟨"A", 0, 0, 0⟩, ⟨"B", 0, 0, 0⟩],
      [widget], [], []⟩ }

/-- User `B` asks for "Widget" with card `CARD-B` at time `t`. -/
def demoForm (uuid : String) (t : Nat) : BuyForm := ⟨"B", "Widget", "CARD-B", t, uuid, t⟩

/-- The item "Gadget" of user `A`, with one unit left. -/
def gadget : Item := ⟨"i2", "A", "Gadget", "gadget.zip", 100000000, 4, 1, [7, 7], 200⟩

/-- A database in which `A` sells `widget` and the last `gadget`. -/
def raceDb : Db :=
  ⟨[⟨"A", Option.none, 1⟩], [⟨"A", 0, 0, 0⟩], [widget, gadget], [], []⟩

/-- Three buyers who have each paid for `gadget`. -/
def raceSales : Fin 3 → Sale := fun k =>
  ⟨if k = 0 then "B" else if k = 1 then "C" else "D", "A", gadget, some "tx",
    if k = 0 then "p0" else if k = 1 then "p1" else "p2", 5000⟩

/-- An interleaving in which buyer 1 decrements first. -/
def raceSched : List (Fin 3) := [1, 0, 1, 2, 1, 0, 2, 1, 0, 2, 0, 2]

/-- Buyer `B` has bought twice from `A` (purchases `p1`, `p2`), has voted on
`p1`, and has `A`'s shop open since time 1000. -/
def voteState : State :=
  { shopViews := Views.set (fun _ => Option.none) "B" ⟨"A", 0, 1000 + SHOP_CONTEXT_TTL⟩
    db := ⟨[⟨"A", Option.none, 1⟩, ⟨"B", Option.none, 2⟩], [⟨"A", 5, 2, 500000000⟩],
      [widget], [⟨"p1", "B", "A", "i1", 250000000, some "tx", 2000⟩,
        ⟨"p2", "B", "A", "i1", 250000000, some "tx", 3000⟩], [⟨"p1", "B", 5⟩]⟩ }

/-- Buyer `B` clicks thumbs-down, then thumbs-up twice. -/
def voteClicks : List (Env × Click) :=
  [(demoEnv, ⟨"B", "vote_down", 4000⟩), (demoEnv, ⟨"B", "vote_up", 5000⟩),
    (demoEnv, ⟨"B", "vote_up", 6000⟩)]

/-- A state with no session and an empty database. -/
def emptyState : State :=
  { shopViews := fun _ => Option.none, db := ⟨[], [], [], [], []⟩ }

/-- Buyer `B` has `A`'s shop open since time 1000; `A` sells `widget` and the
last `gadget`. -/
def raceState : State :=
  { shopViews := Views.set (fun _ => Option.none) "B" ⟨"A", 0, 1000 + SHOP_CONTEXT_TTL⟩
    db := raceDb }

/-- Buyer `B` asks for "gadget" with card `CARD-B` at time 2000. -/
def gadgetForm : BuyForm := ⟨"B", "gadget", "CARD-B", 2000, "p7", 2500⟩

/-- The state of `raceState` after buyer `C` has bought the last `gadget`. -/
def raceStateLate : State :=
  { raceState with db := (commitSale (raceSales 1) raceState.db).2 }

/-- A database in which `A` sells three items (inserted out of creation
order) and `Z` sells one. -/
def shelfDb : Db :=
  ⟨[], [],
   [⟨"a2", "A", "Second", "2.png", 200, 1, 5, [2], 20⟩,
    ⟨"z1", "Z", "Other", "z.png", 900, 1, 9, [9], 15⟩,
    ⟨"a1", "A", "First", "1.png", 100, 1, 5, [1], 10⟩,
    ⟨"a3", "A", "Third", "3.png", 300, 1, 5, [3], 30⟩],
   [], []⟩

/-- An environment in which only charges to the card `SAVED-B` succeed. -/
def fallbackEnv : Env :=
  { toLowerCase := asciiLower
    fetchUser := fun u => some u
    cardInfo := fun _ => Option.none
    coinPayByCard := fun _ card _ _ =>
      if card = "SAVED-B" then ⟨true, some "tx2"⟩ else ⟨false, Option.none⟩ }

/-- The state `demoState` with the card `SAVED-B` stored for buyer `B`. -/
def storedCardState : State :=
  { demoState with db := { demoState.db with
      users := [⟨"A", Option.none, 1⟩, ⟨"B", some "SAVED-B", 2⟩] } }

/-- An item named "0" and an item named "Infinity", both in stock. -/
def oddNames : List Item :=
  [⟨"n0", "A", "0", "zero.png", 100, 1, 5, [0], 10⟩,
   ⟨"n1", "A", "Infinity", "inf.png", 100, 1, 5, [8], 20⟩]

/-- A ledger whose first request times out, whose second gets no response and
whose third is answered with `success: true` and the transaction id `tx9`. -/
def flakyLedger : Nat → Outcome := fun k =>
  if k = 0 then Outcome.rejected ⟨"timeout of 15000ms exceeded", some "ECONNABORTED", none⟩
  else if k = 1 then Outcome.rejected ⟨"socket hang up", some "ECONNRESET", none⟩
  else Outcome.resolved ⟨200, some ⟨true, some "tx9", none, none⟩⟩

/-- A state with no session, no pending upload and an empty database. -/
def emptyBot : Bot :=
  { shopViews := fun _ => Option.none, db := ⟨[], [], [], [], []⟩,
    pendingItemUploads := fun _ => Option.none }

/-- User `A` sends the file `w.png` (3 bytes) at time 2000. -/
def widgetUpload : Message :=
  ⟨"A", false, [⟨"w.png", 3, "https://cdn.example/w.png"⟩], 2000, some [1, 2, 3], "i9", 2001⟩

/-- The state `raceState` (user `A` sells `widget` and the last `gadget`, buyer
`B` has the shop open) with no pending upload. -/
def shopBot : Bot := { toState := raceState, pendingItemUploads := fun _ => Option.none }

/-- User `A` announces "Gizmo" (0.5 coins, 2 units) and uploads its file, buyer
`B` buys the last `gadget`, `A` removes the first item of the shop, and `A`
tries to announce an item with no unit. -/
def shopOps : List Op :=
  [Op.additem "A" "Gizmo" "0.5" 2 1500,
   Op.upload ⟨"A", false, [⟨"gizmo.bin", 3, "https://cdn.example/gizmo.bin"⟩], 1600,
     some [4, 5, 6], "i9", 1601⟩,
   Op.buy demoEnv gadgetForm,
   Op.remove "A" 1,
   Op.additem "A" "Nothing" "1" 0 1700]

/-- Buyer `B` clicks next, then previous twice. -/
def pageClicks : List (Env × Click) :=
  [(demoEnv, ⟨"B", "shop_next", 2000⟩), (demoEnv, ⟨"B", "shop_prev", 3000⟩),
    (demoEnv, ⟨"B", "shop_prev", 4000⟩)]

/-- The state `demoState` with buyer `B` on the fourth page (`page = 3`). -/
def pageThreeState : State :=
  { demoState with
    shopViews := Views.set (fun _ => Option.none) "B" ⟨"A", 3, 1000 + SHOP_CONTEXT_TTL⟩ }

/-- The item "Jewel" of user `A`, 4 in stock, priced `2^53 + 2` sats (what
`/additem` stores for the price "90071992.54740994"). -/
def jewel : Item := ⟨"j1", "A", "Jewel", "jewel.png", 9007199254740994, 3, 4, [9], 100⟩

/-- User `A` sells `jewel`; user `B` has opened `A`'s shop at time 1000. -/
def jewelState : State :=
  { shopViews := Views.set (fun _ => Option.none) "B" ⟨"A", 0, 1000 + SHOP_CONTEXT_TTL⟩
    db := ⟨[⟨"A", Option.none, 1⟩, ⟨"B", Option.none, 2⟩], [⟨"A", 0, 0, 0⟩, ⟨"B", 0, 0, 0⟩],
      [jewel], [], []⟩ }

/-- User `B` buys "Jewel" three times with card `CARD-B`. -/
def jewelBuys : List (Env × BuyForm) :=
  [(demoEnv, ⟨"B", "Jewel", "CARD-B", 2000, "q1", 2000⟩),
   (demoEnv, ⟨"B", "Jewel", "CARD-B", 3000, "q2", 3000⟩),
   (demoEnv, ⟨"B", "Jewel", "CARD-B", 4000, "q3", 4000⟩)]

/-! ## Invariants used by the proofs -/

/-- Amounts of the rows with a given id are non-negative. -/
def StockOk (id : String) (db : Db) : Prop := ∀ i ∈ db.items, i.id = id → 0 ≤ i.amount

/-- Number of store operations an attempt has behind it (4 when it is done). -/
def Pc.rank : Pc → Nat
  | Pc.decrement => 0
  | Pc.insertPurchase => 1
  | Pc.updateShop => 2
  | Pc.deleteItem => 3
  | Pc.done => 4

/-- Invariant of the race for an item `id` whose rows all hold one unit: either
nobody has decremented yet, or the stock is gone, one attempt holds the
receipt, and every other attempt still waits or was told 'Item sold out'. -/
def RaceInv {N : Nat} (sales : Fin N → Sale) (id : String) (r : Race N) : Prop :=
  (∀ k, (r.attempts k).sale = sales k) ∧
  (((∃ i ∈ r.db.items, i.id = id) ∧ (∀ i ∈ r.db.items, i.id = id → i.amount = 1) ∧
      ∀ k, (r.attempts k).pc = Pc.decrement ∧ (r.attempts k).reply = Reply.none) ∨
   ((∀ i ∈ r.db.items, i.id = id → i.amount ≤ 0) ∧
      ∃ w, (r.attempts w).pc ≠ Pc.decrement ∧ (r.attempts w).reply = receipt (sales w) ∧
        ∀ j, j ≠ w →
          ((r.attempts j).pc = Pc.decrement ∧ (r.attempts j).reply = Reply.none) ∨
          ((r.attempts j).pc = Pc.done ∧ (r.attempts j).reply = Reply.soldOut)))

/-- Every purchase id has at most one row in `votes`. -/
def VotesOk (db : Db) : Prop :=
  ∀ pid : String, (db.votes.filter (fun v => v.purchase_id = pid)).length ≤ 1

/-- A purchase by `buyerId` from `sellerId` that has no vote yet. -/
def Eligible (db : Db) (buyerId sellerId : String) (p : Purchase) : Prop :=
  p ∈ db.purchases ∧ p.buyer_id = buyerId ∧ p.seller_id = sellerId ∧
    ∀ v ∈ db.votes, v.purchase_id ≠ p.id

/-- Every attempt of the sequence, run in turn, records a sale of the item `id`. -/
def AllSold (id : String) : State → List (Env × BuyForm) → Prop
  | _, [] => True
  | s, a :: rest =>
    (buyModal a.1 a.2 s).sale.map (fun sl => sl.item.id) = some id ∧
    AllSold id (buyModal a.1 a.2 s).state rest

/-- A value in the range of binary64: significand below `2^53`, exponent at
least `-1074`. -/
def Num.IsDouble : Num → Prop
  | Num.fin _ m e => m < 2 ^ 53 ∧ -1074 ≤ e
  | _ => True

/-- Every item row has at least one unit in stock. -/
def StockPositive (db : Db) : Prop := ∀ i ∈ db.items, 1 ≤ i.amount

/-- Every pending upload is for at least one unit. -/
def PendingPositive (m : Uploads) : Prop := ∀ u p, m u = some p → 1 ≤ p.amount

/-- Every click of the sequence is a click of user `u` on `shop_prev` or
`shop_next`, made while the session of `u` is live. -/
def PageClicks (u : String) : State → List (Env × Click) → Prop
  | _, [] => True
  | s, a :: rest =>
    a.2.userId = u ∧ (a.2.customId = "shop_prev" ∨ a.2.customId = "shop_next") ∧
    liveView s.shopViews u a.2.now ≠ none ∧ PageClicks u (dispatchButton a.1 a.2 s) rest

/-- An integer that binary64 holds exactly, as do the sums formed here:
strictly between `-2^53` and `2^53`. -/
def SafeInt (n : Int) : Prop := -2 ^ 53 < n ∧ n < 2 ^ 53

/-- A 32-bit integer: what `node-sqlite3` binds as an `INTEGER`. -/
def IsInt32 (n : Int) : Prop := -2 ^ 31 ≤ n ∧ n < 2 ^ 31

/-- A 64-bit integer: what SQLite adds without leaving the integers. -/
def IsInt64 (n : Int) : Prop := -2 ^ 63 ≤ n ∧ n < 2 ^ 63

/-! # Theorems -/

/-! ## Stock -/

theorem mem_updateDecrementStock {items : List Item} {id : String} {j : Item}
    (h : j ∈ (updateDecrementStock items id).1) :
    ∃ i ∈ items, i.id = j.id ∧
      ((i.id = id ∧ 0 < i.amount ∧ j.amount = i.amount - 1) ∨
       (¬ (i.id = id ∧ 0 < i.amount) ∧ j = i)) := by
  simp only [updateDecrementStock, List.mem_map] at h
  obtain ⟨i, hi, rfl⟩ := h
  refine ⟨i, hi, ?_⟩
  by_cases hc : i.id = id ∧ 0 < i.amount
  · rw [if_pos hc]; exact ⟨rfl, Or.inl ⟨hc.1, hc.2, rfl⟩⟩
  · rw [if_neg hc]; exact ⟨rfl, Or.inr ⟨hc, rfl⟩⟩

theorem mem_deleteSoldOut {items : List Item} {id : String} {j : Item}
    (h : j ∈ deleteSoldOut items id) : j ∈ items := by
  simp only [deleteSoldOut] at h
  exact List.mem_of_mem_filter h

theorem stockOk_commitStep {id : String} (a : Attempt) (db : Db) (h : StockOk id db) :
    StockOk id (commitStep a db).2 := by
  unfold commitStep
  have hdec : ∀ j ∈ (updateDecrementStock db.items a.sale.item.id).1, j.id = id →
      0 ≤ j.amount := by
    intro j hj hid
    obtain ⟨i, hi, hij, hcase⟩ := mem_updateDecrementStock hj
    rcases hcase with ⟨_, hpos, hamt⟩ | ⟨_, rfl⟩
    · omega
    · exact h _ hi hid
  cases a.pc with
  | decrement =>
    dsimp only
    split <;> exact hdec
  | insertPurchase => exact h
  | updateShop => exact h
  | deleteItem => exact fun j hj hid => h j (mem_deleteSoldOut hj) hid
  | done => exact h

theorem stockOk_commitSale {id : String} (sale : Sale) (db : Db) (h : StockOk id db) :
    StockOk id (commitSale sale db).2 := by
  unfold commitSale
  exact stockOk_commitStep _ _ (stockOk_commitStep _ _ (stockOk_commitStep _ _
    (stockOk_commitStep _ _ h)))

/-! ## The buy handler, case by case -/

theorem mem_selectItemsByOwner {items : List Item} {ownerId : String} {i : Item} :
    i ∈ selectItemsByOwner items ownerId ↔ i ∈ items ∧ i.owner_id = ownerId := by
  simp only [selectItemsByOwner, List.mem_insertionSort, List.mem_filter, decide_eq_true_eq]

theorem arrayAt_mem {items : List Item} {x : Num} {i : Item} (h : arrayAt items x = some i) :
    i ∈ items := by
  simp only [arrayAt, Option.bind_eq_some] at h
  obtain ⟨k, _, hk⟩ := h
  exact List.getElem?_mem hk

theorem resolveItem_mem {env : Env} {items : List Item} {token : String} {i : Item}
    (h : resolveItem env items token = some i) : i ∈ items := by
  unfold resolveItem at h
  split at h
  · exact arrayAt_mem h
  · exact List.mem_of_find?_eq_some h

/-- The runs of the buy handler up to the payment: no live session; a refusal
that leaves the state as it was; or a payment for an item that was in the shop
of the session with stock. -/
theorem buyPrepare_cases (env : Env) (f : BuyForm) (s : State) :
    (liveView s.shopViews f.buyerId f.now = none ∧
      buyPrepare env f s = Sum.inl (BuyOutcome.fail
        { s with shopViews := s.shopViews.delete f.buyerId } Reply.sessionExpired [])) ∨
    (∃ view reply charges, liveView s.shopViews f.buyerId f.now = some view ∧
      (reply = Reply.specifyItem ∨ reply = Reply.itemNotFound ∨ reply = Reply.noCard ∨
        reply = Reply.paymentFailed) ∧
      buyPrepare env f s = Sum.inl (BuyOutcome.fail s reply charges)) ∨
    (∃ view item payResult charges, liveView s.shopViews f.buyerId f.now = some view ∧
      item ∈ s.db.items ∧ item.owner_id = view.ownerId ∧ 0 < item.amount ∧
      payResult.success = true ∧
      selectPayment env s.db.users f.buyerId f.cardInput
        (getOrCreateCoinUserId env s.db.users view.ownerId) item.price_sats =
          (charges, some payResult) ∧
      buyPrepare env f s = Sum.inr (⟨f.buyerId, view.ownerId, item,
        payResult.txId.filter (fun t => t ≠ ""), f.uuid, f.recordedAt⟩, charges)) := by
  unfold buyPrepare
  split
  · rename_i h
    exact Or.inl ⟨h, rfl⟩
  · rename_i view hview
    right
    split
    · exact Or.inl ⟨view, _, _, hview, Or.inl rfl, rfl⟩
    · split
      · exact Or.inl ⟨view, _, _, hview, Or.inr (Or.inl rfl), rfl⟩
      · split
        · exact Or.inl ⟨view, _, _, hview, Or.inr (Or.inl rfl), rfl⟩
        · rename_i item hitem
          split
          · exact Or.inl ⟨view, _, _, hview, Or.inr (Or.inl rfl), rfl⟩
          · rename_i hamt
            split
            · exact Or.inl ⟨view, _, _, hview, Or.inr (Or.inr (Or.inl rfl)), rfl⟩
            · rename_i charges payResult hpay
              split
              · exact Or.inl ⟨view, _, _, hview, Or.inr (Or.inr (Or.inr rfl)), rfl⟩
              · rename_i hsucc
                have hmem := mem_selectItemsByOwner.1 (resolveItem_mem hitem)
                refine Or.inr ⟨view, item, payResult, charges, hview, hmem.1, hmem.2,
                  by omega, by simpa using hsucc, hpay, rfl⟩

/-- The runs of the buy handler: no live session; a refusal that leaves the
state as it was; or a payment followed by the commit of an item that was in the
shop of the session with stock. -/
theorem buyModal_cases (env : Env) (f : BuyForm) (s : State) :
    (liveView s.shopViews f.buyerId f.now = none ∧
      buyModal env f s = BuyOutcome.fail { s with shopViews := s.shopViews.delete f.buyerId }
        Reply.sessionExpired []) ∨
    (∃ view reply charges, liveView s.shopViews f.buyerId f.now = some view ∧
      (reply = Reply.specifyItem ∨ reply = Reply.itemNotFound ∨ reply = Reply.noCard ∨
        reply = Reply.paymentFailed) ∧
      buyModal env f s = BuyOutcome.fail s reply charges) ∨
    (∃ view item payResult charges, liveView s.shopViews f.buyerId f.now = some view ∧
      item ∈ s.db.items ∧ item.owner_id = view.ownerId ∧ 0 < item.amount ∧
      payResult.success = true ∧
      selectPayment env s.db.users f.buyerId f.cardInput
        (getOrCreateCoinUserId env s.db.users view.ownerId) item.price_sats =
          (charges, some payResult) ∧
      buyModal env f s = finishSale s ⟨f.buyerId, view.ownerId, item,
        payResult.txId.filter (fun t => t ≠ ""), f.uuid, f.recordedAt⟩ charges) := by
  rcases buyPrepare_cases env f s with ⟨h, heq⟩ | ⟨view, reply, charges, h, hr, heq⟩ |
    ⟨view, item, payResult, charges, h1, h2, h3, h4, h5, h6, heq⟩
  · exact Or.inl ⟨h, by simp only [buyModal, heq]⟩
  · exact Or.inr (Or.inl ⟨view, reply, charges, h, hr, by simp only [buyModal, heq]⟩)
  · exact Or.inr (Or.inr ⟨view, item, payResult, charges, h1, h2, h3, h4, h5, h6,
      by simp only [buyModal, heq]⟩)

theorem stockOk_buyModal {id : String} (env : Env) (f : BuyForm) (s : State)
    (h : StockOk id s.db) : StockOk id (buyModal env f s).state.db := by
  rcases buyModal_cases env f s with ⟨_, heq⟩ | ⟨_, _, _, _, _, heq⟩ |
    ⟨_, _, _, _, _, _, _, _, _, _, heq⟩
  · rw [heq]; exact h
  · rw [heq]; exact h
  · rw [heq]; exact stockOk_commitSale _ _ h

theorem stockOk_runBuys {id : String} (attempts : List (Env × BuyForm)) :
    ∀ s : State, StockOk id s.db → StockOk id (runBuys s attempts).db := by
  induction attempts with
  | nil => intro s h; exact h
  | cons a rest ih => intro s h; exact ih _ (stockOk_buyModal a.1 a.2 s h)

theorem updateDecrementStock_changes (items : List Item) (id : String) :
    (updateDecrementStock items id).2 ≠ 0 ↔ ∃ i ∈ items, i.id = id ∧ 0 < i.amount := by
  simp only [updateDecrementStock, ne_eq, List.length_eq_zero, List.filter_eq_nil_iff,
    decide_eq_true_eq, not_forall, Classical.not_not, exists_prop]

theorem updateDecrementStock_unchanged (items : List Item) (id : String)
    (h : (updateDecrementStock items id).2 = 0) : (updateDecrementStock items id).1 = items := by
  have hno : ¬ ∃ i ∈ items, i.id = id ∧ 0 < i.amount :=
    fun hex => (updateDecrementStock_changes items id).2 hex h
  simp only [updateDecrementStock]
  conv_rhs => rw [← List.map_id items]
  apply List.map_congr_left
  intro i hi
  rw [if_neg (fun hc => hno ⟨i, hi, hc⟩)]
  rfl

/-- C1. Through every sequence of purchase attempts the amount of an item that
starts non-negative stays non-negative; the conditional decrement reports a
change only if a row with that id had `amount > 0` just before, it lowers
exactly those rows by exactly 1 and leaves every other row as it was (the
whole table when it reports no change). -/
theorem stock_never_negative (s : State) (attempts : List (Env × BuyForm)) (id : String)
    (h : ∀ i ∈ s.db.items, i.id = id → 0 ≤ i.amount) :
    (∀ i ∈ (runBuys s attempts).db.items, i.id = id → 0 ≤ i.amount) ∧
    (∀ items : List Item,
      ((updateDecrementStock items id).2 ≠ 0 ↔ ∃ i ∈ items, i.id = id ∧ 0 < i.amount) ∧
      ((updateDecrementStock items id).2 = 0 → (updateDecrementStock items id).1 = items) ∧
      (∀ k : Nat, (updateDecrementStock items id).1[k]? =
        items[k]?.map (fun i =>
          if i.id = id ∧ 0 < i.amount then { i with amount := i.amount - 1 } else i))) := by
  refine ⟨stockOk_runBuys attempts s h, fun items => ⟨updateDecrementStock_changes items id,
    updateDecrementStock_unchanged items id, fun k => ?_⟩⟩
  simp only [updateDecrementStock, List.getElem?_map]

/-- Witness of C1: two purchases of the 3-unit `widget`, by name and by number. -/
theorem stock_never_negative_witness :
    (∀ i ∈ demoState.db.items, i.id = "i1" → 0 ≤ i.amount) ∧
    (∀ i ∈ (runBuys demoState [(demoEnv, demoForm "p1" 2000),
        (demoEnv, ⟨"B", "1", "CARD-B", 3000, "p2", 3000⟩)]).db.items,
      i.id = "i1" → 0 ≤ i.amount) :=
  ⟨by decide, (stock_never_negative demoState _ "i1" (by decide)).1⟩

/-! ## The race for the last unit -/

theorem commitStep_sale (a : Attempt) (db : Db) : (commitStep a db).1.sale = a.sale := by
  obtain ⟨sale, pc, reply⟩ := a
  cases pc
  case decrement => simp only [commitStep]; split <;> rfl
  all_goals rfl

theorem commitStep_rank (a : Attempt) (db : Db) :
    min 4 (a.pc.rank + 1) ≤ (commitStep a db).1.pc.rank := by
  obtain ⟨sale, pc, reply⟩ := a
  cases pc
  case decrement => simp only [commitStep]; split <;> simp [Pc.rank]
  all_goals simp [commitStep, Pc.rank]

theorem Race.step_same {N : Nat} (r : Race N) (k : Fin N) :
    (r.step k).attempts k = (commitStep (r.attempts k) r.db).1 := by
  simp only [Race.step, Function.update_same]

theorem Race.step_other {N : Nat} (r : Race N) {j k : Fin N} (h : k ≠ j) :
    (r.step j).attempts k = r.attempts k := by
  simp only [Race.step, Function.update_noteq h]

theorem Race.rank_run {N : Nat} (sched : List (Fin N)) :
    ∀ (r : Race N) (k : Fin N),
      min 4 ((r.attempts k).pc.rank + sched.count k) ≤ ((r.run sched).attempts k).pc.rank := by
  induction sched with
  | nil => intro r k; simp [Race.run]
  | cons j rest ih =>
    intro r k
    have h := ih (r.step j) k
    simp only [Race.run]
    by_cases hjk : j = k
    · subst hjk
      have h1 := commitStep_rank (r.attempts j) r.db
      rw [Race.step_same] at h
      simp only [List.count_cons_self]
      omega
    · have hkj : k ≠ j := fun h => hjk h.symm
      rw [Race.step_other r hkj] at h
      rw [List.count_cons_of_ne hkj]
      exact h

theorem receipt_ne_none (sale : Sale) : receipt sale ≠ Reply.none := by
  simp [receipt]

theorem receipt_ne_soldOut (sale : Sale) : receipt sale ≠ Reply.soldOut := by
  simp [receipt]

theorem commitStep_decrement_hit (a : Attempt) (db : Db) (hpc : a.pc = Pc.decrement)
    (hex : ∃ i ∈ db.items, i.id = a.sale.item.id ∧ 0 < i.amount) :
    commitStep a db = (⟨a.sale, Pc.insertPurchase, receipt a.sale⟩,
      { db with items := (updateDecrementStock db.items a.sale.item.id).1 }) := by
  obtain ⟨sale, pc, reply⟩ := a
  subst hpc
  have h := (updateDecrementStock_changes db.items sale.item.id).2 hex
  simp only [commitStep, if_neg h]

theorem commitStep_decrement_miss (a : Attempt) (db : Db) (hpc : a.pc = Pc.decrement)
    (hno : ∀ i ∈ db.items, i.id = a.sale.item.id → i.amount ≤ 0) :
    commitStep a db = (⟨a.sale, Pc.done, Reply.soldOut⟩, db) := by
  obtain ⟨sale, pc, reply⟩ := a
  subst hpc
  have h : (updateDecrementStock db.items sale.item.id).2 = 0 := by
    by_contra hne
    obtain ⟨i, hi, hid, hpos⟩ := (updateDecrementStock_changes db.items sale.item.id).1 hne
    have := hno i hi hid
    omega
  simp only [commitStep, if_pos h, updateDecrementStock_unchanged _ _ h]

theorem commitStep_later (a : Attempt) (db : Db) (hpc : a.pc ≠ Pc.decrement) :
    (commitStep a db).1.reply = a.reply ∧ (commitStep a db).1.pc ≠ Pc.decrement ∧
    (a.pc = Pc.done → commitStep a db = (a, db)) ∧
    (∀ i ∈ (commitStep a db).2.items, i ∈ db.items) := by
  obtain ⟨sale, pc, reply⟩ := a
  cases pc
  case decrement => exact absurd rfl hpc
  case deleteItem =>
    refine ⟨rfl, by simp [commitStep], by simp, fun i hi => mem_deleteSoldOut hi⟩
  all_goals simp [commitStep]

theorem RaceInv.step {N : Nat} {sales : Fin N → Sale} {id : String}
    (hid : ∀ k, (sales k).item.id = id) {r : Race N} (h : RaceInv sales id r) (k : Fin N) :
    RaceInv sales id (r.step k) := by
  obtain ⟨hsale, hphase⟩ := h
  have hsalek : (r.attempts k).sale.item.id = id := by rw [hsale k]; exact hid k
  refine ⟨fun j => ?_, ?_⟩
  · by_cases hjk : j = k
    · subst hjk; rw [Race.step_same, commitStep_sale]; exact hsale j
    · rw [Race.step_other r hjk]; exact hsale j
  · rcases hphase with ⟨⟨i0, hi0, hi0id⟩, hone, hall⟩ | ⟨hgone, w, hwpc, hwreply, hothers⟩
    · -- the first decrement wins
      right
      have hex : ∃ i ∈ r.db.items, i.id = (r.attempts k).sale.item.id ∧ 0 < i.amount :=
        ⟨i0, hi0, by rw [hsalek]; exact hi0id, by rw [hone i0 hi0 hi0id]; decide⟩
      have hstep := commitStep_decrement_hit (r.attempts k) r.db (hall k).1 hex
      have hatt : (commitStep (r.attempts k) r.db).1 =
          ⟨(r.attempts k).sale, Pc.insertPurchase, receipt (r.attempts k).sale⟩ := by rw [hstep]
      have hitems : (r.step k).db.items =
          (updateDecrementStock r.db.items (r.attempts k).sale.item.id).1 := by
        simp only [Race.step, hstep]
      refine ⟨?_, k, ?_, ?_, fun j hj => ?_⟩
      · intro j hj hjid
        have hj2 : j ∈ (updateDecrementStock r.db.items (r.attempts k).sale.item.id).1 := by
          rw [← hitems]; exact hj
        obtain ⟨i, hi, hij, hcase⟩ := mem_updateDecrementStock hj2
        rcases hcase with ⟨_, _, hamt⟩ | ⟨hnot, rfl⟩
        · have := hone i hi (hij.trans hjid); omega
        · have := hone j hi hjid
          exact absurd ⟨hjid.trans hsalek.symm, by omega⟩ hnot
      · rw [Race.step_same, hatt]; simp
      · rw [Race.step_same, hatt, hsale k]
      · rw [Race.step_other r hj]; exact Or.inl (hall j)
    · right
      by_cases hkw : k = w
      · -- the winner goes on
        subst hkw
        obtain ⟨hreply, hpc, _, hmem⟩ := commitStep_later (r.attempts k) r.db hwpc
        refine ⟨fun i hi hiid => hgone i (hmem i hi) hiid, k, ?_, ?_, fun j hj => ?_⟩
        · rw [Race.step_same]; exact hpc
        · rw [Race.step_same, hreply]; exact hwreply
        · rw [Race.step_other r hj]; exact hothers j hj
      · rcases hothers k hkw with ⟨hpc, _⟩ | ⟨hpc, hreply⟩
        · -- a late decrement finds nothing
          have hmiss := commitStep_decrement_miss (r.attempts k) r.db hpc
            (fun i hi hiid => hgone i hi (by rw [← hsalek]; exact hiid))
          have hdb : (r.step k).db = r.db := by simp only [Race.step, hmiss]
          refine ⟨by rw [hdb]; exact hgone, w, ?_, ?_, fun j hj => ?_⟩
          · rw [Race.step_other r (Ne.symm hkw)]; exact hwpc
          · rw [Race.step_other r (Ne.symm hkw)]; exact hwreply
          · by_cases hjk : j = k
            · subst hjk; rw [Race.step_same, hmiss]; exact Or.inr ⟨rfl, rfl⟩
            · rw [Race.step_other r hjk]; exact hothers j hj
        · -- a finished attempt does nothing
          have hne : (r.attempts k).pc ≠ Pc.decrement := by rw [hpc]; decide
          obtain ⟨_, _, hsame, _⟩ := commitStep_later (r.attempts k) r.db hne
          have hstep := hsame hpc
          have hdb : (r.step k).db = r.db := by simp only [Race.step, hstep]
          refine ⟨by rw [hdb]; exact hgone, w, ?_, ?_, fun j hj => ?_⟩
          · rw [Race.step_other r (Ne.symm hkw)]; exact hwpc
          · rw [Race.step_other r (Ne.symm hkw)]; exact hwreply
          · by_cases hjk : j = k
            · subst hjk; rw [Race.step_same, hstep]; exact Or.inr ⟨hpc, hreply⟩
            · rw [Race.step_other r hjk]; exact hothers j hj

theorem RaceInv.run {N : Nat} {sales : Fin N → Sale} {id : String}
    (hid : ∀ k, (sales k).item.id = id) (sched : List (Fin N)) :
    ∀ r : Race N, RaceInv sales id r → RaceInv sales id (r.run sched) := by
  induction sched with
  | nil => intro r h; exact h
  | cons k rest ih => intro r h; exact ih _ (h.step hid k)

/-- C2. `N ≥ 1` paid attempts for an item whose row holds one unit, all about
to decrement, take their store operations in any interleaving: at every moment
at most one attempt holds a receipt; once each attempt has been given four
turns all are done; and whenever all are done exactly one attempt holds the
receipt and every other one was answered 'Item sold out'. -/
theorem last_unit_sold_once {N : Nat} (sales : Fin N → Sale) (db : Db) (id : String)
    (sched : List (Fin N)) (hN : 1 ≤ N) (hid : ∀ k, (sales k).item.id = id)
    (hrow : ∃ i ∈ db.items, i.id = id) (hone : ∀ i ∈ db.items, i.id = id → i.amount = 1) :
    (∀ j k, (((Race.start sales db).run sched).attempts j).reply = receipt (sales j) →
      (((Race.start sales db).run sched).attempts k).reply = receipt (sales k) → j = k) ∧
    ((∀ k, 4 ≤ sched.count k) →
      ∀ k, (((Race.start sales db).run sched).attempts k).pc = Pc.done) ∧
    ((∀ k, (((Race.start sales db).run sched).attempts k).pc = Pc.done) →
      ∃ w, ((Race.start sales db).run sched).attempts w =
          ⟨sales w, Pc.done, receipt (sales w)⟩ ∧
        ∀ j, j ≠ w → ((Race.start sales db).run sched).attempts j =
          ⟨sales j, Pc.done, Reply.soldOut⟩) := by
  have hstart : RaceInv sales id (Race.start sales db) :=
    ⟨fun _ => rfl, Or.inl ⟨hrow, hone, fun _ => ⟨rfl, rfl⟩⟩⟩
  obtain ⟨hsale, hphase⟩ := RaceInv.run hid sched _ hstart
  refine ⟨fun j k hj hk => ?_, fun hfair k => ?_, fun hdone => ?_⟩
  · rcases hphase with ⟨_, _, hall⟩ | ⟨_, w, _, _, hothers⟩
    · rw [(hall j).2] at hj
      exact absurd hj.symm (receipt_ne_none _)
    · have key : ∀ x, (((Race.start sales db).run sched).attempts x).reply = receipt (sales x) →
          x = w := by
        intro x hx
        by_contra hxw
        rcases hothers x hxw with ⟨_, h⟩ | ⟨_, h⟩
        · rw [h] at hx; exact receipt_ne_none _ hx.symm
        · rw [h] at hx; exact receipt_ne_soldOut _ hx.symm
      rw [key j hj, key k hk]
  · have h := Race.rank_run sched (Race.start sales db) k
    have hk := hfair k
    have h4 : 4 ≤ (((Race.start sales db).run sched).attempts k).pc.rank := by
      simp only [Race.start, Pc.rank] at h ⊢
      omega
    revert h4
    cases (((Race.start sales db).run sched).attempts k).pc <;> simp [Pc.rank]
  · rcases hphase with ⟨_, _, hall⟩ | ⟨_, w, _, hwreply, hothers⟩
    · have h0 := hdone ⟨0, hN⟩
      rw [(hall ⟨0, hN⟩).1] at h0
      exact absurd h0 (by decide)
    · refine ⟨w, ?_, fun j hj => ?_⟩
      · have h1 := hsale w
        have h2 := hdone w
        revert h1 h2 hwreply
        cases ((Race.start sales db).run sched).attempts w
        simp only [Attempt.mk.injEq]
        intro h1 h2 h3
        exact ⟨h2, h3, h1⟩
      · have h1 := hsale j
        have h2 := hdone j
        rcases hothers j hj with ⟨hpc, _⟩ | ⟨_, hreply⟩
        · rw [hpc] at h2; exact absurd h2 (by decide)
        · revert h1 h2 hreply
          cases ((Race.start sales db).run sched).attempts j
          simp only [Attempt.mk.injEq]
          intro h1 h2 h3
          exact ⟨h1, h2, h3⟩

/-- Witness of C2: three buyers race for the last `gadget`. -/
theorem last_unit_sold_once_witness :
    (1 ≤ 3 ∧ (∀ k, (raceSales k).item.id = "i2") ∧ (∃ i ∈ raceDb.items, i.id = "i2") ∧
      (∀ i ∈ raceDb.items, i.id = "i2" → i.amount = 1) ∧ (∀ k, 4 ≤ raceSched.count k)) ∧
    ((∀ k, 4 ≤ raceSched.count k) →
      ∀ k, (((Race.start raceSales raceDb).run raceSched).attempts k).pc = Pc.done) ∧
    ((∀ k, (((Race.start raceSales raceDb).run raceSched).attempts k).pc = Pc.done) →
      ∃ w, ((Race.start raceSales raceDb).run raceSched).attempts w =
          ⟨raceSales w, Pc.done, receipt (raceSales w)⟩ ∧
        ∀ j, j ≠ w → ((Race.start raceSales raceDb).run raceSched).attempts j =
          ⟨raceSales j, Pc.done, Reply.soldOut⟩) :=
  ⟨⟨by decide, by decide, by decide, by decide, by decide⟩,
    (last_unit_sold_once raceSales raceDb "i2" raceSched (by decide) (by decide) (by decide)
      (by decide)).2⟩

/-! ## Votes -/

theorem selectUnvotedPurchase_some {purchases : List Purchase} {votes : List Vote}
    {buyerId sellerId : String} {p : Purchase}
    (h : selectUnvotedPurchase purchases votes buyerId sellerId = some p) :
    p ∈ purchases ∧ p.buyer_id = buyerId ∧ p.seller_id = sellerId ∧
      ∀ v ∈ votes, v.purchase_id ≠ p.id := by
  unfold selectUnvotedPurchase at h
  have hmem := (List.mem_insertionSort _).1 (List.mem_of_mem_head? h)
  simp only [List.mem_filter, decide_eq_true_eq, List.any_eq_true, not_exists, not_and] at hmem
  exact ⟨hmem.1, hmem.2.1, hmem.2.2.1, fun v hv => hmem.2.2.2 v hv⟩

theorem selectUnvotedPurchase_none {purchases : List Purchase} {votes : List Vote}
    {buyerId sellerId : String}
    (h : selectUnvotedPurchase purchases votes buyerId sellerId = none) (p : Purchase) :
    ¬ (p ∈ purchases ∧ p.buyer_id = buyerId ∧ p.seller_id = sellerId ∧
      ∀ v ∈ votes, v.purchase_id ≠ p.id) := by
  unfold selectUnvotedPurchase at h
  rw [List.head?_eq_none_iff] at h
  intro hp
  have hmem : p ∈ (purchases.filter (fun p => p.buyer_id = buyerId ∧ p.seller_id = sellerId ∧
      ¬ votes.any (fun v => v.purchase_id = p.id))).insertionSort
        (fun a b => b.created_at ≤ a.created_at) := by
    rw [List.mem_insertionSort]
    simp only [List.mem_filter, decide_eq_true_eq, List.any_eq_true, not_exists, not_and]
    exact ⟨hp.1, hp.2.1, hp.2.2.1, fun v hv => hp.2.2.2 v hv⟩
  rw [h] at hmem
  exact List.not_mem_nil _ hmem

theorem insertVote_eq (votes : List Vote) (v : Vote)
    (h : ∀ w ∈ votes, w.purchase_id ≠ v.purchase_id) : insertVote votes v = votes ++ [v] := by
  unfold insertVote
  rw [if_neg]
  simp only [List.any_eq_true, decide_eq_true_eq, not_exists, not_and]
  exact h

theorem votesOk_insertVote (db : Db) (v : Vote) (shops : List Shop) (h : VotesOk db) :
    VotesOk { db with votes := insertVote db.votes v, shops := shops } := by
  intro pid
  simp only [insertVote]
  by_cases hany : db.votes.any (fun w => w.purchase_id = v.purchase_id) = true
  · rw [if_pos hany]; exact h pid
  · rw [if_neg hany, List.filter_append, List.length_append]
    by_cases hpid : v.purchase_id = pid
    · have hnil : db.votes.filter (fun w => w.purchase_id = pid) = [] := by
        rw [List.filter_eq_nil_iff]
        intro w hw hwp
        apply hany
        rw [List.any_eq_true]
        exact ⟨w, hw, by simpa [hpid] using hwp⟩
      rw [hnil]
      simp [List.filter, hpid]
    · have := h pid
      simp only [List.filter, hpid, decide_False, List.length_nil, Nat.add_zero]
      exact this

/-- What `buttonHandler` can do to the database: nothing, or, on a vote
button with a live session and an unvoted purchase, one vote and one
reputation update. -/
theorem buttonHandler_db (env : Env) (c : Click) (s : State) :
    (buttonHandler env c s).1.db = s.db ∨
    ∃ view row, (c.customId = "vote_up" ∨ c.customId = "vote_down") ∧
      liveView s.shopViews c.userId c.now = some view ∧
      selectUnvotedPurchase s.db.purchases s.db.votes c.userId view.ownerId = some row ∧
      (buttonHandler env c s).1.db = { s.db with
        votes := insertVote s.db.votes
          ⟨row.id, c.userId, if c.customId = "vote_up" then 5 else -5⟩
        shops := updateReputation s.db.shops (if c.customId = "vote_up" then 5 else -5)
          view.ownerId } := by
  unfold buttonHandler
  split
  · left; unfold openShop; split <;> rfl
  · split
    · left; rfl
    · rename_i view hview
      split
      · left; rfl
      · split
        · left; rfl
        · split
          · rename_i hvote
            dsimp only
            split
            · left; rfl
            · rename_i row hrow
              right
              exact ⟨view, row, hvote, hview, hrow, rfl⟩
          · left; rfl

theorem paginationHandler_db (c : Click) (s : State) : (paginationHandler c s).1.db = s.db := by
  unfold paginationHandler
  repeat' split
  all_goals rfl

theorem buttonClick_db (env : Env) (c : Click) (s : State) :
    (buttonClick env c s).1.db = (buttonHandler env c s).1.db := by
  simp only [buttonClick, paginationHandler_db]

theorem votesOk_buttonClick (env : Env) (c : Click) (s : State) (h : VotesOk s.db) :
    VotesOk (buttonClick env c s).1.db := by
  rw [buttonClick_db]
  rcases buttonHandler_db env c s with heq | ⟨view, row, _, _, _, heq⟩
  · rw [heq]; exact h
  · rw [heq]; exact votesOk_insertVote _ _ _ h

theorem votesOk_runClicks (clicks : List (Env × Click)) :
    ∀ s : State, VotesOk s.db → VotesOk (runClicks s clicks).db := by
  induction clicks with
  | nil => intro s h; exact h
  | cons a rest ih => intro s h; exact ih _ (votesOk_buttonClick a.1 a.2 s h)

/-- C3. Through every sequence of vote clicks each purchase keeps at most one
vote row. A vote click changes the `votes` table only if the clicker has a live
session and a purchase by the clicker from the shop of that session had no vote
before the click, and then it adds one vote for such a purchase; when there is
no live session or no such purchase, neither `votes` nor `shops` (so no
reputation) changes. -/
theorem one_vote_per_purchase (s : State) (clicks : List (Env × Click))
    (hkey : VotesOk s.db)
    (_hclicks : ∀ a ∈ clicks, a.2.customId = "vote_up" ∨ a.2.customId = "vote_down") :
    VotesOk (runClicks s clicks).db ∧
    ∀ (env : Env) (c : Click) (t : State), c.customId = "vote_up" ∨ c.customId = "vote_down" →
      ((buttonClick env c t).1.db.votes ≠ t.db.votes →
        ∃ view p, liveView t.shopViews c.userId c.now = some view ∧
          Eligible t.db c.userId view.ownerId p ∧
          (buttonClick env c t).1.db.votes =
            t.db.votes ++ [⟨p.id, c.userId, if c.customId = "vote_up" then 5 else -5⟩]) ∧
      ((∀ view, liveView t.shopViews c.userId c.now = some view →
          ∀ p, ¬ Eligible t.db c.userId view.ownerId p) →
        (buttonClick env c t).1.db.votes = t.db.votes ∧
        (buttonClick env c t).1.db.shops = t.db.shops) := by
  refine ⟨votesOk_runClicks clicks s hkey, fun env c t _ => ⟨fun hne => ?_, fun hno => ?_⟩⟩
  · rw [buttonClick_db] at hne ⊢
    rcases buttonHandler_db env c t with heq | ⟨view, row, _, hview, hrow, heq⟩
    · rw [heq] at hne; exact absurd rfl hne
    · have hel := selectUnvotedPurchase_some hrow
      refine ⟨view, row, hview, hel, ?_⟩
      rw [heq]
      exact insertVote_eq _ _ hel.2.2.2
  · rw [buttonClick_db]
    rcases buttonHandler_db env c t with heq | ⟨view, row, _, hview, hrow, _⟩
    · rw [heq]; exact ⟨rfl, rfl⟩
    · exact absurd (selectUnvotedPurchase_some hrow) (hno view hview row)

/-- Witness of C3: after a vote on `p2` a further click finds nothing to vote on. -/
theorem one_vote_per_purchase_witness :
    (VotesOk voteState.db ∧
      ∀ a ∈ voteClicks, a.2.customId = "vote_up" ∨ a.2.customId = "vote_down") ∧
    VotesOk (runClicks voteState voteClicks).db :=
  ⟨⟨fun pid => by
      by_cases h : "p1" = pid <;> simp [voteState, List.filter, h],
    by decide⟩,
   (one_vote_per_purchase voteState voteClicks
    (fun pid => by
      by_cases h : "p1" = pid <;> simp [voteState, List.filter, h])
    (by decide)).1⟩

/-! ## Reputation -/

theorem selectReputation_updateReputation (shops : List Shop) (delta : Int)
    (ownerId shopId : String) :
    selectReputation (updateReputation shops delta ownerId) shopId =
      (selectReputation shops shopId).map (fun r =>
        if shopId = ownerId then max (-1000) (min 1000 (r + delta)) else r) := by
  unfold selectReputation updateReputation
  induction shops with
  | nil => rfl
  | cons sh rest ih =>
    have hid : (if sh.user_id = ownerId then
        ({ sh with reputation := max (-1000) (min 1000 (sh.reputation + delta)) } : Shop)
        else sh).user_id = sh.user_id := by
      split <;> rfl
    simp only [List.map_cons, List.find?_cons, hid]
    by_cases hs : sh.user_id = shopId
    · simp only [hs, decide_True, Option.map_some']
      by_cases ho : shopId = ownerId
      · simp only [if_pos ho]
      · simp only [if_neg ho]
    · simp only [hs, decide_False]
      exact ih

theorem buttonHandler_vote (env : Env) (c : Click) (s : State) (view : View) (row : Purchase)
    (hvote : c.customId = "vote_up" ∨ c.customId = "vote_down")
    (hview : liveView s.shopViews c.userId c.now = some view)
    (hrow : selectUnvotedPurchase s.db.purchases s.db.votes c.userId view.ownerId = some row) :
    buttonHandler env c s =
      ({ s with db := { s.db with
          votes := insertVote s.db.votes
            ⟨row.id, c.userId, if c.customId = "vote_up" then 5 else -5⟩
          shops := updateReputation s.db.shops (if c.customId = "vote_up" then 5 else -5)
            view.ownerId } },
        Reply.voteRecorded (decide (c.customId = "vote_up"))) := by
  obtain ⟨userId, customId, now⟩ := c
  rcases hvote with h | h <;> simp only at h <;> subst h
  · simp only [buttonHandler, hview, hrow]
    simp
  · simp only [buttonHandler, hview, hrow]
    simp

/-- Reputation of a shop, if it has a row, is within `[-1000, 1000]`. -/
theorem reputation_range_runClicks (clicks : List (Env × Click)) (shopId : String) :
    ∀ s : State,
      (∃ r, selectReputation s.db.shops shopId = some r ∧ -1000 ≤ r ∧ r ≤ 1000) →
      ∃ r, selectReputation (runClicks s clicks).db.shops shopId = some r ∧
        -1000 ≤ r ∧ r ≤ 1000 := by
  induction clicks with
  | nil => intro s h; exact h
  | cons a rest ih =>
    intro s h
    apply ih
    simp only [buttonClick_db]
    rcases buttonHandler_db a.1 a.2 s with heq | ⟨view, row, _, _, _, heq⟩
    · rw [heq]; exact h
    · obtain ⟨r, hr, hlo, hhi⟩ := h
      rw [heq]
      simp only [selectReputation_updateReputation, hr, Option.map_some']
      by_cases ho : shopId = view.ownerId
      · rw [if_pos ho]
        exact ⟨_, rfl, le_max_left _ _, max_le (by decide) (min_le_left _ _)⟩
      · rw [if_neg ho]
        exact ⟨r, rfl, hlo, hhi⟩

/-- C4. A shop row is created with reputation 0. A vote click that is accepted
(live session on the shop, an unvoted purchase by the clicker from it) sets the
shop's reputation to `max(-1000, min(1000, previous + delta))` with `delta`
+5 or -5; and a reputation that starts within `[-1000, 1000]` is still within
`[-1000, 1000]` after every sequence of vote clicks. -/
theorem reputation_stays_clamped (s : State) (clicks : List (Env × Click)) (shopId : String)
    (r : Int) (hrep : selectReputation s.db.shops shopId = some r)
    (hlo : -1000 ≤ r) (hhi : r ≤ 1000)
    (_hclicks : ∀ a ∈ clicks, a.2.customId = "vote_up" ∨ a.2.customId = "vote_down") :
    (∃ r1, selectReputation (runClicks s clicks).db.shops shopId = some r1 ∧
      -1000 ≤ r1 ∧ r1 ≤ 1000) ∧
    (∀ (env : Env) (c : Click) (t : State) (view : View) (p : Purchase) (q : Int),
      c.customId = "vote_up" ∨ c.customId = "vote_down" →
      liveView t.shopViews c.userId c.now = some view → view.ownerId = shopId →
      Eligible t.db c.userId shopId p → selectReputation t.db.shops shopId = some q →
      selectReputation (buttonClick env c t).1.db.shops shopId =
        some (max (-1000) (min 1000 (q + (if c.customId = "vote_up" then 5 else -5))))) ∧
    (∀ (now : Nat) (db : Db), (∀ sh ∈ db.shops, sh.user_id ≠ shopId) →
      selectReputation (ensureUser shopId now db).shops shopId = some 0) := by
  refine ⟨reputation_range_runClicks clicks shopId s ⟨r, hrep, hlo, hhi⟩, ?_, ?_⟩
  · intro env c t view p q hvote hview howner hel hq
    subst howner
    cases hrow : selectUnvotedPurchase t.db.purchases t.db.votes c.userId view.ownerId with
    | none => exact absurd hel (selectUnvotedPurchase_none hrow p)
    | some row =>
      rw [buttonClick_db, buttonHandler_vote env c t view row hvote hview hrow]
      simp only [selectReputation_updateReputation, hq, Option.map_some', if_true]
  · intro now db hnew
    have hany : db.shops.any (fun s => s.user_id = shopId) = false := by
      rw [List.any_eq_false]
      intro sh hsh
      simpa using hnew sh hsh
    have hfind : db.shops.find? (fun s => s.user_id = shopId) = none := by
      rw [List.find?_eq_none]
      intro sh hsh
      simpa using hnew sh hsh
    simp [ensureUser, hany, selectReputation, List.find?_append, hfind]

/-- Witness of C4: the shop of `A` at reputation 5 gets a thumbs-down. -/
theorem reputation_stays_clamped_witness :
    (selectReputation voteState.db.shops "A" = some 5 ∧ (-1000 : Int) ≤ 5 ∧ (5 : Int) ≤ 1000 ∧
      ∀ a ∈ voteClicks, a.2.customId = "vote_up" ∨ a.2.customId = "vote_down") ∧
    ∃ r1, selectReputation (runClicks voteState voteClicks).db.shops "A" = some r1 ∧
      -1000 ≤ r1 ∧ r1 ≤ 1000 :=
  ⟨⟨by decide, by decide, by decide, by decide⟩,
   (reputation_stays_clamped voteState voteClicks "A" 5 (by decide) (by decide) (by decide)
    (by decide)).1⟩

/-! ## Session lifetime -/

theorem sweepAll_keep (times : List Nat) :
    ∀ (m : Views) (k : String) (v : View), m k = some v → (∀ x ∈ times, x ≤ v.expires) →
      sweepAll m times k = some v := by
  induction times with
  | nil => intro m k v h _; exact h
  | cons x rest ih =>
    intro m k v h hx
    simp only [sweepAll, List.foldl_cons]
    apply ih (sweepViews m x) k v
    · have hle : x ≤ v.expires := hx x (List.mem_cons_self _ _)
      simp only [sweepViews, h, Option.filter, not_lt, decide_eq_true_eq, hle, if_true]
    · exact fun y hy => hx y (List.mem_cons_of_mem _ hy)

theorem sweepAll_sub (times : List Nat) :
    ∀ (m : Views) (k : String) (v : View), sweepAll m times k = some v → m k = some v := by
  induction times with
  | nil => intro m k v h; exact h
  | cons x rest ih =>
    intro m k v h
    simp only [sweepAll, List.foldl_cons] at h
    have h1 := ih (sweepViews m x) k v h
    simp only [sweepViews] at h1
    cases hm : m k with
    | none => rw [hm] at h1; simp [Option.filter] at h1
    | some w =>
      rw [hm] at h1
      simp only [Option.filter] at h1
      split at h1
      · exact h1
      · exact absurd h1 (by simp)

theorem liveView_expired (m : Views) (k : String) (v : View) (times : List Nat) (t : Nat)
    (h : m k = some v) (ht : v.expires < t) : liveView (sweepAll m times) k t = none := by
  unfold liveView
  cases hs : sweepAll m times k with
  | none => rfl
  | some w =>
    have hw := sweepAll_sub times m k w hs
    rw [h] at hw
    cases hw
    simp [Option.filter, ht]

theorem liveView_live (m : Views) (k : String) (v : View) (times : List Nat) (t : Nat)
    (h : m k = some v) (ht : t ≤ v.expires) (hx : ∀ x ∈ times, x ≤ t) :
    liveView (sweepAll m times) k t = some v := by
  unfold liveView
  rw [sweepAll_keep times m k v h (fun x hxm => le_trans (hx x hxm) ht)]
  simp [Option.filter, ht]

theorem commitSale_hit (sale : Sale) (db : Db)
    (h : ∃ i ∈ db.items, i.id = sale.item.id ∧ 0 < i.amount) :
    commitSale sale db = (⟨sale, Pc.done, receipt sale⟩,
      { db with
        items := deleteSoldOut (updateDecrementStock db.items sale.item.id).1 sale.item.id
        purchases := insertPurchase db.purchases (purchaseRow sale)
        shops := updateSales db.shops sale.item.price_sats.rebound sale.sellerId }) := by
  have h1 := commitStep_decrement_hit ⟨sale, Pc.decrement, Reply.none⟩ db rfl h
  unfold commitSale
  simp only [h1]
  rfl

theorem commitSale_miss (sale : Sale) (db : Db)
    (h : ¬ ∃ i ∈ db.items, i.id = sale.item.id ∧ 0 < i.amount) :
    commitSale sale db = (⟨sale, Pc.done, Reply.soldOut⟩, db) := by
  have h1 := commitStep_decrement_miss ⟨sale, Pc.decrement, Reply.none⟩ db rfl
    (fun i hi hid => by
      by_contra hpos
      exact h ⟨i, hi, hid, by omega⟩)
  unfold commitSale
  simp only [h1]
  rfl

theorem commitSale_reply (sale : Sale) (db : Db) :
    (commitSale sale db).1.reply = Reply.soldOut ∨ (commitSale sale db).1.reply = receipt sale := by
  by_cases h : ∃ i ∈ db.items, i.id = sale.item.id ∧ 0 < i.amount
  · right; rw [commitSale_hit sale db h]
  · left; rw [commitSale_miss sale db h]

theorem finishSale_reply (s : State) (sale : Sale) (charges : List Charge) :
    (finishSale s sale charges).reply = Reply.soldOut ∨
    (finishSale s sale charges).reply = receipt sale :=
  commitSale_reply sale s.db

theorem buyModal_live (env : Env) (f : BuyForm) (s : State) (v : View)
    (h : liveView s.shopViews f.buyerId f.now = some v) :
    (buyModal env f s).reply ≠ Reply.sessionExpired ∧
    (buyModal env f s).state.shopViews = s.shopViews := by
  rcases buyModal_cases env f s with ⟨hnone, _⟩ | ⟨_, reply, _, _, hr, heq⟩ |
    ⟨_, _, _, _, _, _, _, _, _, _, heq⟩
  · rw [h] at hnone; exact absurd hnone (by simp)
  · rw [heq]
    refine ⟨?_, rfl⟩
    rcases hr with hr | hr | hr | hr <;> rw [hr] <;> simp [BuyOutcome.fail]
  · rw [heq]
    refine ⟨?_, rfl⟩
    rcases finishSale_reply _ _ _ with hr | hr <;> rw [hr] <;> simp [receipt]

theorem buyModal_expired (env : Env) (f : BuyForm) (s : State)
    (h : liveView s.shopViews f.buyerId f.now = none) :
    buyModal env f s =
      BuyOutcome.fail { s with shopViews := s.shopViews.delete f.buyerId }
        Reply.sessionExpired [] := by
  rcases buyModal_cases env f s with ⟨_, heq⟩ | ⟨_, _, _, hv, _, _⟩ |
    ⟨_, _, _, _, hv, _⟩
  · exact heq
  · rw [h] at hv; exact absurd hv (by simp)
  · rw [h] at hv; exact absurd hv (by simp)

theorem Views.delete_self (m : Views) (k : String) : (m.delete k) k = none := by
  simp [Views.delete]

theorem Views.set_self (m : Views) (k : String) (v : View) : (m.set k v) k = some v := by
  simp [Views.set]

theorem renderShop_ne_expired (s : State) (viewerId : String) :
    renderShop s viewerId ≠ Reply.sessionExpired := by
  unfold renderShop
  split <;> simp

theorem paginationHandler_live (c : Click) (s : State) (v : View)
    (h : liveView s.shopViews c.userId c.now = some v) :
    (paginationHandler c s).2 ≠ Reply.sessionExpired := by
  unfold paginationHandler
  rw [h]
  dsimp only
  repeat' split
  all_goals first
    | exact renderShop_ne_expired _ _
    | simp

theorem paginationHandler_expired (c : Click) (s : State)
    (h : liveView s.shopViews c.userId c.now = none) :
    paginationHandler c s =
      ({ s with shopViews := s.shopViews.delete c.userId }, Reply.sessionExpired) := by
  unfold paginationHandler
  rw [h]

theorem buttonHandler_live (env : Env) (c : Click) (s : State) (v : View)
    (h : liveView s.shopViews c.userId c.now = some v) :
    (buttonHandler env c s).2 ≠ Reply.sessionExpired := by
  unfold buttonHandler openShop
  rw [h]
  dsimp only
  repeat' split
  all_goals first
    | exact renderShop_ne_expired _ _
    | simp

theorem buttonHandler_expired (env : Env) (c : Click) (s : State)
    (hid : c.customId = "shop_prev" ∨ c.customId = "shop_next" ∨ c.customId = "vote_up" ∨
      c.customId = "vote_down")
    (h : liveView s.shopViews c.userId c.now = none) :
    buttonHandler env c s =
      ({ s with shopViews := s.shopViews.delete c.userId }, Reply.sessionExpired) := by
  have hp : ("open_shop_".toList.isPrefixOf c.customId.toList) = false := by
    rcases hid with h | h | h | h <;> rw [h] <;> decide
  unfold buttonHandler
  rw [h]
  simp only [hp, Bool.false_eq_true, if_false]

theorem openShop_creates (env : Env) (c : Click) (s : State) (ownerId : String)
    (hid : "open_shop_".toList.isPrefixOf c.customId.toList = true)
    (hfetch : env.fetchUser (String.mk (c.customId.toList.drop 10)) = some ownerId) :
    (buttonHandler env c s).1.shopViews c.userId =
      some ⟨ownerId, 0, c.now + SHOP_CONTEXT_TTL⟩ := by
  unfold buttonHandler openShop
  rw [if_pos hid, hfetch]
  exact Views.set_self _ _ _

/-- C5. `/shop` and an `open_shop_` click at time `T` store a session that
expires at `T + 15 min`. While such a session is in the map unrefreshed, and
whatever sweeps ran before, at every time `t ≤ T + 15 min` the buy form, the
pagination listener and the vote/pagination listener find it and do not answer
'Shop session expired'; at every time `t > T + 15 min` each of them answers
'Shop session expired' and leaves no session for the viewer. -/
theorem session_lifetime (env : Env) (s : State) (viewerId ownerId : String) (page : Int)
    (T t : Nat) (times : List Nat)
    (hview : s.shopViews viewerId = some ⟨ownerId, page, T + 15 * 60 * 1000⟩) :
    (∀ s0 : State, (shopCommand viewerId ownerId T s0).1.shopViews viewerId =
        some ⟨ownerId, 0, T + 15 * 60 * 1000⟩) ∧
    (∀ (s0 : State) (c : Click), c.userId = viewerId → c.now = T →
        "open_shop_".toList.isPrefixOf c.customId.toList = true →
        env.fetchUser (String.mk (c.customId.toList.drop 10)) = some ownerId →
        (buttonHandler env c s0).1.shopViews viewerId = some ⟨ownerId, 0, T + 15 * 60 * 1000⟩) ∧
    (t ≤ T + 15 * 60 * 1000 → (∀ x ∈ times, x ≤ t) →
      liveView (sweepAll s.shopViews times) viewerId t =
        some ⟨ownerId, page, T + 15 * 60 * 1000⟩ ∧
      (∀ f : BuyForm, f.buyerId = viewerId → f.now = t →
        (buyModal env f { s with shopViews := sweepAll s.shopViews times }).reply ≠
          Reply.sessionExpired) ∧
      (∀ c : Click, c.userId = viewerId → c.now = t →
        (paginationHandler c { s with shopViews := sweepAll s.shopViews times }).2 ≠
          Reply.sessionExpired ∧
        (buttonHandler env c { s with shopViews := sweepAll s.shopViews times }).2 ≠
          Reply.sessionExpired)) ∧
    (T + 15 * 60 * 1000 < t →
      (∀ f : BuyForm, f.buyerId = viewerId → f.now = t →
        (buyModal env f { s with shopViews := sweepAll s.shopViews times }).reply =
          Reply.sessionExpired ∧
        (buyModal env f { s with shopViews := sweepAll s.shopViews times }).state.shopViews
          viewerId = none) ∧
      (∀ c : Click, c.userId = viewerId → c.now = t →
        ((paginationHandler c { s with shopViews := sweepAll s.shopViews times }).2 =
          Reply.sessionExpired ∧
         (paginationHandler c { s with shopViews := sweepAll s.shopViews times }).1.shopViews
          viewerId = none) ∧
        (c.customId = "shop_prev" ∨ c.customId = "shop_next" ∨ c.customId = "vote_up" ∨
            c.customId = "vote_down" →
          (buttonHandler env c { s with shopViews := sweepAll s.shopViews times }).2 =
            Reply.sessionExpired ∧
          (buttonHandler env c { s with shopViews := sweepAll s.shopViews times }).1.shopViews
            viewerId = none))) := by
  refine ⟨fun s0 => ?_, fun s0 c hu hn hid hfetch => ?_, fun ht hx => ?_, fun ht => ?_⟩
  · exact Views.set_self _ _ _
  · subst hu hn
    exact openShop_creates env c s0 ownerId hid hfetch
  · have hlive := liveView_live s.shopViews viewerId _ times t hview ht hx
    refine ⟨hlive, fun f hb hn => ?_, fun c hu hn => ?_⟩
    · subst hb hn
      exact (buyModal_live env f _ _ hlive).1
    · subst hu hn
      exact ⟨paginationHandler_live c _ _ hlive, buttonHandler_live env c _ _ hlive⟩
  · have hdead := liveView_expired s.shopViews viewerId _ times t hview ht
    refine ⟨fun f hb hn => ?_, fun c hu hn => ⟨?_, fun hid => ?_⟩⟩
    · subst hb hn
      rw [buyModal_expired env f _ hdead]
      exact ⟨rfl, Views.delete_self _ _⟩
    · subst hu hn
      rw [paginationHandler_expired c _ hdead]
      exact ⟨rfl, Views.delete_self _ _⟩
    · subst hu hn
      rw [buttonHandler_expired env c _ hid hdead]
      exact ⟨rfl, Views.delete_self _ _⟩

/-- Witness of C5: a session opened at time 1000, used at the last live
millisecond after a sweep. -/
theorem session_lifetime_witness :
    (shopCommand "B" "A" 1000 emptyState).1.shopViews "B" =
        some ⟨"A", 0, 1000 + 15 * 60 * 1000⟩ ∧
    (901000 ≤ 1000 + 15 * 60 * 1000 ∧ ∀ x ∈ [60000, 120000], x ≤ 901000) ∧
    liveView (sweepAll (shopCommand "B" "A" 1000 emptyState).1.shopViews [60000, 120000]) "B"
      901000 = some ⟨"A", 0, 1000 + 15 * 60 * 1000⟩ :=
  ⟨by decide, ⟨by decide, by decide⟩,
   ((session_lifetime demoEnv (shopCommand "B" "A" 1000 emptyState).1 "B" "A" 0 1000 901000
      [60000, 120000] (by decide)).2.2.1 (by decide) (by decide)).1⟩

/-! ## Successful purchases -/

theorem eq_of_id_eq {items : List Item} (hpk : (items.map (fun i => i.id)).Nodup)
    {a b : Item} (ha : a ∈ items) (hb : b ∈ items) (h : a.id = b.id) : a = b :=
  List.inj_on_of_nodup_map hpk ha hb h

theorem map_lower_ids (items : List Item) (id : String) (k : Int) :
    (items.map (fun i => if i.id = id then { i with amount := i.amount - k } else i)).map
      (fun i => i.id) = items.map (fun i => i.id) := by
  rw [List.map_map]
  apply List.map_congr_left
  intro i _
  simp only [Function.comp]
  split <;> rfl

/-- With `id` a key and more than one unit in stock, the decrement followed by
the delete lowers the row of the item by one and removes nothing. -/
theorem decrement_then_delete (items : List Item) (item : Item)
    (hpk : (items.map (fun i => i.id)).Nodup) (hitem : item ∈ items) (hamt : 1 < item.amount) :
    deleteSoldOut (updateDecrementStock items item.id).1 item.id =
      items.map (fun i => if i.id = item.id then { i with amount := i.amount - 1 } else i) := by
  have hmap : (updateDecrementStock items item.id).1 =
      items.map (fun i => if i.id = item.id then { i with amount := i.amount - 1 } else i) := by
    simp only [updateDecrementStock]
    apply List.map_congr_left
    intro i hi
    by_cases hid : i.id = item.id
    · have hi2 : i = item := eq_of_id_eq hpk hi hitem hid
      subst hi2
      rw [if_pos ⟨rfl, by omega⟩, if_pos rfl]
    · rw [if_neg (fun hc => hid hc.1), if_neg hid]
  rw [hmap]
  simp only [deleteSoldOut]
  rw [List.filter_eq_self]
  intro j hj
  simp only [List.mem_map] at hj
  obtain ⟨i, hi, rfl⟩ := hj
  by_cases hid : i.id = item.id
  · have hi2 : i = item := eq_of_id_eq hpk hi hitem hid
    subst hi2
    simp only [if_true, decide_eq_true_eq, not_and, not_le]
    intro _
    omega
  · simp only [hid, if_false, false_and, not_false_eq_true, decide_True]

theorem insertPurchase_fresh (purchases : List Purchase) (p : Purchase)
    (h : ∀ q ∈ purchases, q.id ≠ p.id) : insertPurchase purchases p = purchases ++ [p] := by
  unfold insertPurchase
  rw [if_neg]
  simp only [List.any_eq_true, decide_eq_true_eq, not_exists, not_and]
  exact h

/-- One successful purchase of an item with more than one unit in stock. -/
theorem sold_step (env : Env) (f : BuyForm) (s : State) (item : Item)
    (hpk : (s.db.items.map (fun i => i.id)).Nodup) (hitem : item ∈ s.db.items)
    (hamt : 1 < item.amount)
    (hsold : (buyModal env f s).sale.map (fun sl => sl.item.id) = some item.id)
    (hfresh : ∀ q ∈ s.db.purchases, q.id ≠ f.uuid) :
    ∃ row : Purchase, row.id = f.uuid ∧ row.price_sats = item.price_sats.rebound.store ∧
      row.item_id = item.id ∧ row.seller_id = item.owner_id ∧ row.buyer_id = f.buyerId ∧
      (buyModal env f s).state.db = { s.db with
        items := s.db.items.map
          (fun i => if i.id = item.id then { i with amount := i.amount - 1 } else i)
        purchases := s.db.purchases ++ [row]
        shops := updateSales s.db.shops item.price_sats.rebound item.owner_id } := by
  rcases buyModal_cases env f s with ⟨_, heq⟩ | ⟨_, _, _, _, _, heq⟩ |
    ⟨view, item0, payResult, charges, _, hmem0, howner0, hpos0, _, _, heq⟩
  · rw [heq] at hsold; simp [BuyOutcome.fail] at hsold
  · rw [heq] at hsold; simp [BuyOutcome.fail] at hsold
  · have hhit := commitSale_hit ⟨f.buyerId, view.ownerId, item0,
      payResult.txId.filter (fun t => t ≠ ""), f.uuid, f.recordedAt⟩ s.db
      ⟨item0, hmem0, rfl, hpos0⟩
    rw [heq] at hsold ⊢
    simp only [finishSale, hhit, receipt_ne_soldOut, if_false, Option.map_some',
      Option.some.injEq] at hsold ⊢
    have h0 : item0 = item := eq_of_id_eq hpk hmem0 hitem hsold
    subst h0
    refine ⟨purchaseRow ⟨f.buyerId, view.ownerId, item0,
      payResult.txId.filter (fun t => t ≠ ""), f.uuid, f.recordedAt⟩, rfl, rfl, rfl,
      howner0.symm, rfl, ?_⟩
    rw [decrement_then_delete _ _ hpk hitem hamt, insertPurchase_fresh _ _ hfresh, howner0]

theorem sold_run (attempts : List (Env × BuyForm)) :
    ∀ (s : State) (item : Item), (s.db.items.map (fun i => i.id)).Nodup → item ∈ s.db.items →
      (attempts.length : Int) < item.amount → AllSold item.id s attempts →
      (s.db.purchases.map (fun q => q.id) ++ attempts.map (fun a => a.2.uuid)).Nodup →
      (runBuys s attempts).db.items = s.db.items.map
        (fun i => if i.id = item.id then { i with amount := i.amount - attempts.length }
          else i) ∧
      (∃ rows : List Purchase, (runBuys s attempts).db.purchases = s.db.purchases ++ rows ∧
        rows.map (fun q => q.id) = attempts.map (fun a => a.2.uuid) ∧
        ∀ r ∈ rows, r.price_sats = item.price_sats.rebound.store ∧ r.item_id = item.id ∧
          r.seller_id = item.owner_id) ∧
      (runBuys s attempts).db.shops = s.db.shops.map
        (fun sh => if sh.user_id = item.owner_id then
          { sh with total_sales := sh.total_sales + attempts.length,
                    total_earned_sats :=
                      sh.total_earned_sats.addTimes attempts.length item.price_sats.rebound }
          else sh) := by
  induction attempts with
  | nil =>
    intro s item _ _ _ _ _
    refine ⟨?_, ⟨[], by simp [runBuys], rfl, by simp⟩, ?_⟩
    · simp only [runBuys, List.length_nil, Nat.cast_zero, sub_zero]
      conv_lhs => rw [← List.map_id s.db.items]
      apply List.map_congr_left
      intro i _
      split <;> rfl
    · simp only [runBuys, List.length_nil, Nat.cast_zero, add_zero, SqlNum.addTimes,
        Function.iterate_zero, id_eq]
      conv_lhs => rw [← List.map_id s.db.shops]
      apply List.map_congr_left
      intro i _
      split <;> rfl
  | cons a rest ih =>
    intro s item hpk hitem hk hsold hfresh
    simp only [List.length_cons, Nat.cast_add, Nat.cast_one] at hk
    have hlen : (0 : Int) ≤ rest.length := Int.ofNat_nonneg _
    have hfresh1 : ∀ q ∈ s.db.purchases, q.id ≠ a.2.uuid := by
      intro q hq heq
      have hdis := List.disjoint_of_nodup_append hfresh
      exact hdis (List.mem_map.2 ⟨q, hq, rfl⟩) (by simp [heq])
    obtain ⟨row, hrid, hrp, hri, hrs, _, hdb⟩ :=
      sold_step a.1 a.2 s item hpk hitem (by omega) hsold.1 hfresh1
    have hitem1 : ({ item with amount := item.amount - 1 } : Item) ∈
        (buyModal a.1 a.2 s).state.db.items := by
      rw [hdb]
      exact List.mem_map.2 ⟨item, hitem, by simp⟩
    have hpk1 : ((buyModal a.1 a.2 s).state.db.items.map (fun i => i.id)).Nodup := by
      rw [hdb]
      simp only [map_lower_ids]
      exact hpk
    have hfresh2 : ((buyModal a.1 a.2 s).state.db.purchases.map (fun q => q.id) ++
        rest.map (fun a => a.2.uuid)).Nodup := by
      rw [hdb]
      simpa [hrid] using hfresh
    obtain ⟨hitems, ⟨rows, hrows, hids, hall⟩, hshops⟩ :=
      ih (buyModal a.1 a.2 s).state { item with amount := item.amount - 1 } hpk1 hitem1
        (by simp only; omega) hsold.2 hfresh2
    refine ⟨?_, ⟨row :: rows, ?_, ?_, ?_⟩, ?_⟩
    · simp only [runBuys, hitems]
      rw [hdb]
      simp only [List.map_map]
      apply List.map_congr_left
      intro i _
      simp only [Function.comp, List.length_cons, Nat.cast_add, Nat.cast_one]
      by_cases hid : i.id = item.id
      · simp only [hid, if_true, Item.mk.injEq, true_and, and_true]
        omega
      · simp only [hid, if_false]
    · simp only [runBuys, hrows]
      rw [hdb]
      simp
    · simp only [List.map_cons, hids, hrid]
    · intro r hr
      rcases List.mem_cons.1 hr with rfl | hr
      · exact ⟨hrp, hri, hrs⟩
      · exact hall r hr
    · simp only [runBuys, hshops]
      rw [hdb]
      simp only [updateSales, List.map_map]
      apply List.map_congr_left
      intro sh _
      simp only [Function.comp, List.length_cons, Nat.cast_add, Nat.cast_one]
      by_cases hid : sh.user_id = item.owner_id
      · simp only [hid, if_true, Shop.mk.injEq, true_and, SqlNum.addTimes,
          Function.iterate_succ_apply, and_true]
        omega
      · simp only [hid, if_false]

/-! ## Payment and sold out -/

/-- The payment step, case by case. -/
theorem selectPayment_cases (env : Env) (users : List User)
    (buyerId cardInput sellerCoinId : String) (price : SqlNum) :
    (cardInput ≠ "" ∧ (env.coinPayByCard 0 cardInput sellerCoinId price).success = true ∧
      selectPayment env users buyerId cardInput sellerCoinId price =
        ([⟨cardInput, sellerCoinId, price, env.coinPayByCard 0 cardInput sellerCoinId price⟩],
          some (env.coinPayByCard 0 cardInput sellerCoinId price))) ∨
    (cardInput ≠ "" ∧ (env.coinPayByCard 0 cardInput sellerCoinId price).success = false ∧
      selectCardCode users buyerId = none ∧
      selectPayment env users buyerId cardInput sellerCoinId price =
        ([⟨cardInput, sellerCoinId, price, env.coinPayByCard 0 cardInput sellerCoinId price⟩],
          none)) ∨
    (∃ buyerCard, cardInput ≠ "" ∧
      (env.coinPayByCard 0 cardInput sellerCoinId price).success = false ∧
      selectCardCode users buyerId = some buyerCard ∧
      selectPayment env users buyerId cardInput sellerCoinId price =
        ([⟨cardInput, sellerCoinId, price, env.coinPayByCard 0 cardInput sellerCoinId price⟩,
          ⟨buyerCard, sellerCoinId, price, env.coinPayByCard 1 buyerCard sellerCoinId price⟩],
          some (env.coinPayByCard 1 buyerCard sellerCoinId price))) ∨
    (cardInput = "" ∧ selectCardCode users buyerId = none ∧
      selectPayment env users buyerId cardInput sellerCoinId price = ([], none)) ∨
    (∃ buyerCard, cardInput = "" ∧ selectCardCode users buyerId = some buyerCard ∧
      selectPayment env users buyerId cardInput sellerCoinId price =
        ([⟨buyerCard, sellerCoinId, price, env.coinPayByCard 0 buyerCard sellerCoinId price⟩],
          some (env.coinPayByCard 0 buyerCard sellerCoinId price))) := by
  unfold selectPayment payWithStoredCard
  by_cases hc : cardInput = ""
  · rw [if_pos hc]
    cases hs : selectCardCode users buyerId with
    | none => exact Or.inr (Or.inr (Or.inr (Or.inl ⟨hc, rfl, rfl⟩)))
    | some card => exact Or.inr (Or.inr (Or.inr (Or.inr ⟨card, hc, rfl, rfl⟩)))
  · rw [if_neg hc]
    by_cases hp : (env.coinPayByCard 0 cardInput sellerCoinId price).success = true
    · rw [if_pos hp]
      exact Or.inl ⟨hc, hp, rfl⟩
    · rw [if_neg hp]
      have hp2 : (env.coinPayByCard 0 cardInput sellerCoinId price).success = false := by
        simpa using hp
      cases hs : selectCardCode users buyerId with
      | none => exact Or.inr (Or.inl ⟨hc, hp2, rfl, rfl⟩)
      | some card => exact Or.inr (Or.inr (Or.inl ⟨card, hc, hp2, rfl, rfl⟩))

/-- The `payResult` the handler goes on with is the result of the last charge. -/
theorem selectPayment_last (env : Env) (users : List User)
    (buyerId cardInput sellerCoinId : String) (price : SqlNum) (charges : List Charge)
    (r : PayResult)
    (h : selectPayment env users buyerId cardInput sellerCoinId price = (charges, some r)) :
    ∃ c, charges.getLast? = some c ∧ c.result = r := by
  rcases selectPayment_cases env users buyerId cardInput sellerCoinId price with
    ⟨_, _, heq⟩ | ⟨_, _, _, heq⟩ | ⟨card, _, _, _, heq⟩ | ⟨_, _, heq⟩ | ⟨card, _, _, heq⟩
  all_goals
    rw [heq] at h
    simp only [Prod.mk.injEq, Option.some.injEq] at h
  · obtain ⟨rfl, rfl⟩ := h; exact ⟨_, rfl, rfl⟩
  · exact absurd h.2 (by simp)
  · obtain ⟨rfl, rfl⟩ := h; exact ⟨_, rfl, rfl⟩
  · exact absurd h.2 (by simp)
  · obtain ⟨rfl, rfl⟩ := h; exact ⟨_, rfl, rfl⟩

/-- C7. A purchase attempt that has paid (the last charge succeeded) and whose
conditional decrement, run in whatever state the store is in by then, changes
no row, is answered 'Item sold out'; the state is left exactly as it was (no
purchase row, no change to `shops` or `items`), no receipt is sent by direct
message, no file is delivered and no sale is recorded. -/
theorem sold_out_after_payment (env : Env) (f : BuyForm) (s late : State) (sale : Sale)
    (charges : List Charge) (hpaid : buyPrepare env f s = Sum.inr (sale, charges))
    (hmiss : (updateDecrementStock late.db.items sale.item.id).2 = 0) :
    (∃ c, charges.getLast? = some c ∧ c.result.success = true) ∧
    (finishSale late sale charges).reply = Reply.soldOut ∧
    (finishSale late sale charges).state.db = late.db ∧
    (finishSale late sale charges).state.shopViews = late.shopViews ∧
    (finishSale late sale charges).dm = none ∧
    (finishSale late sale charges).reply.file? = none ∧
    (finishSale late sale charges).sale = none := by
  have hno : ¬ ∃ i ∈ late.db.items, i.id = sale.item.id ∧ 0 < i.amount :=
    fun hex => (updateDecrementStock_changes _ _).2 hex hmiss
  have hcommit := commitSale_miss sale late.db hno
  refine ⟨?_, ?_⟩
  · rcases buyPrepare_cases env f s with ⟨_, heq⟩ | ⟨_, _, _, _, _, heq⟩ |
      ⟨view, item, payResult, ch, _, _, _, _, hsucc, hpay, heq⟩
    · rw [heq] at hpaid; exact absurd hpaid (by simp)
    · rw [heq] at hpaid; exact absurd hpaid (by simp)
    · rw [heq] at hpaid
      simp only [Sum.inr.injEq, Prod.mk.injEq] at hpaid
      obtain ⟨c, hc, hres⟩ := selectPayment_last _ _ _ _ _ _ _ _ hpay
      rw [← hpaid.2]
      exact ⟨c, hc, by rw [hres]; exact hsucc⟩
  · simp only [finishSale, hcommit, if_true, Reply.file?, and_self]

/-- Witness of C7: buyer `B` pays for the last `gadget` after buyer `C` took it. -/
theorem sold_out_after_payment_witness :
    (buyPrepare demoEnv gadgetForm raceState =
        Sum.inr (⟨"B", "A", gadget, some "tx", "p7", 2500⟩,
          [⟨"CARD-B", "A", 100000000, ⟨true, some "tx"⟩⟩]) ∧
      (updateDecrementStock raceStateLate.db.items gadget.id).2 = 0) ∧
    (finishSale raceStateLate ⟨"B", "A", gadget, some "tx", "p7", 2500⟩
      [⟨"CARD-B", "A", 100000000, ⟨true, some "tx"⟩⟩]).reply = Reply.soldOut :=
  ⟨⟨by rfl, by decide⟩,
   (sold_out_after_payment demoEnv gadgetForm raceState raceStateLate
      ⟨"B", "A", gadget, some "tx", "p7", 2500⟩ [⟨"CARD-B", "A", 100000000, ⟨true, some "tx"⟩⟩]
      (by rfl) (by decide)).2.1⟩

/-! ## `/remove` -/

theorem orderedInsert_cons_of_forall {α : Type} (r : α → α → Prop) [DecidableRel r] (a : α) :
    ∀ l : List α, (∀ c ∈ l, r a c) → List.orderedInsert r a l = a :: l := by
  intro l h
  cases l with
  | nil => rfl
  | cons b rest => exact List.orderedInsert_of_le r rest (h b (List.mem_cons_self _ _))

/-- Filtering commutes with the insertion into a sorted list. -/
theorem orderedInsert_filter {α : Type} (r : α → α → Prop) [DecidableRel r] [IsTrans α r]
    (p : α → Bool) (a : α) :
    ∀ l : List α, List.Sorted r l →
      (List.orderedInsert r a l).filter p =
        if p a then List.orderedInsert r a (l.filter p) else l.filter p := by
  intro l
  induction l with
  | nil => intro _; cases hp : p a <;> simp [List.filter, hp]
  | cons b rest ih =>
    intro hs
    have hs' : List.Sorted r rest := List.Sorted.of_cons hs
    have hb : ∀ c ∈ rest, r b c := List.rel_of_sorted_cons hs
    by_cases hab : r a b
    · rw [List.orderedInsert_of_le r rest hab]
      cases hp : p a
      · simp [List.filter_cons, hp]
      · have hall : ∀ c ∈ (b :: rest).filter p, r a c := by
          intro c hc
          rcases List.mem_cons.1 (List.mem_of_mem_filter hc) with rfl | hc'
          · exact hab
          · exact IsTrans.trans _ _ _ hab (hb c hc')
        rw [if_pos rfl, orderedInsert_cons_of_forall r a _ hall]
        simp [List.filter_cons, hp]
    · have hins : List.orderedInsert r a (b :: rest) = b :: List.orderedInsert r a rest := by
        simp [List.orderedInsert, hab]
      rw [hins, List.filter_cons, ih hs']
      cases hpa : p a <;> cases hpb : p b <;> simp [List.filter_cons, hpb, List.orderedInsert, hab]

/-- Filtering commutes with the stable sort. -/
theorem insertionSort_filter {α : Type} (r : α → α → Prop) [DecidableRel r] [IsTotal α r]
    [IsTrans α r] (p : α → Bool) :
    ∀ l : List α, List.insertionSort r (l.filter p) = (List.insertionSort r l).filter p := by
  intro l
  induction l with
  | nil => rfl
  | cons a rest ih =>
    rw [List.insertionSort, orderedInsert_filter r p a _ (List.sorted_insertionSort r rest), ← ih]
    cases hp : p a <;> simp [List.filter_cons, hp, List.insertionSort]

theorem selectItemsByOwner_filter (items : List Item) (ownerId : String) (p : Item → Bool) :
    selectItemsByOwner (items.filter p) ownerId = (selectItemsByOwner items ownerId).filter p := by
  haveI : IsTotal Item (fun a b => a.created_at ≤ b.created_at) := ⟨fun a b => le_total _ _⟩
  haveI : IsTrans Item (fun a b => a.created_at ≤ b.created_at) :=
    ⟨fun _ _ _ h1 h2 => le_trans h1 h2⟩
  unfold selectItemsByOwner
  rw [← insertionSort_filter, List.filter_filter, List.filter_filter]
  congr 1
  apply List.filter_congr
  intro i _
  exact Bool.and_comm _ _

theorem nodup_selectItemsByOwner (items : List Item) (ownerId : String)
    (hpk : (items.map (fun i => i.id)).Nodup) : (selectItemsByOwner items ownerId).Nodup := by
  unfold selectItemsByOwner
  rw [(List.perm_insertionSort _ _).nodup_iff]
  exact (List.Nodup.of_map _ hpk).filter _

theorem deleteItem_eq (items : List Item) (item : Item) (ownerId : String)
    (hpk : (items.map (fun i => i.id)).Nodup) (hmem : item ∈ items)
    (howner : item.owner_id = ownerId) :
    (deleteItem items item.id ownerId).1 = items.filter (fun i => i ≠ item) ∧
    (deleteItem items item.id ownerId).2 ≠ 0 := by
  constructor
  · simp only [deleteItem]
    apply List.filter_congr
    intro i hi
    by_cases h : i = item
    · subst h; simp [howner]
    · have : ¬ (i.id = item.id ∧ i.owner_id = ownerId) :=
        fun hc => h (eq_of_id_eq hpk hi hmem hc.1)
      simp [this, h]
  · simp only [deleteItem, ne_eq, List.length_eq_zero, List.filter_eq_nil_iff,
      decide_eq_true_eq, not_forall, Classical.not_not, exists_prop]
    exact ⟨item, hmem, rfl, howner⟩

/-- C8. With `id` the key of `items` and `L` the owner's listing in creation
order: for `1 ≤ number ≤ length L`, `/remove number` deletes exactly the item
at that position of `L` and nothing else, the owner's listing becomes `L` with
that position erased and every other owner's listing stays as it was; for
`number ≤ 0` or `number > length L` the command fails and the database is
unchanged. -/
theorem remove_by_position (db : Db) (userId : String) (number : Int)
    (hpk : (db.items.map (fun i => i.id)).Nodup) :
    (1 ≤ number → number ≤ (selectItemsByOwner db.items userId).length →
      ∃ item, (selectItemsByOwner db.items userId)[(number - 1).toNat]? = some item ∧
        removeCommand userId number db =
          ({ db with items := db.items.filter (fun i => i ≠ item) },
            Reply.removed item.name) ∧
        selectItemsByOwner (db.items.filter (fun i => i ≠ item)) userId =
          (selectItemsByOwner db.items userId).eraseIdx (number - 1).toNat ∧
        ∀ other, other ≠ userId →
          selectItemsByOwner (db.items.filter (fun i => i ≠ item)) other =
            selectItemsByOwner db.items other) ∧
    (number ≤ 0 ∨ ((selectItemsByOwner db.items userId).length : Int) < number →
      (removeCommand userId number db).1 = db ∧
      ((removeCommand userId number db).2 = Reply.invalidNumber ∨
       (removeCommand userId number db).2 = Reply.shopEmpty ∨
       (removeCommand userId number db).2 = Reply.numberNotFound)) := by
  constructor
  · intro h1 h2
    have hn : (number - 1).toNat < (selectItemsByOwner db.items userId).length := by omega
    have hget : (selectItemsByOwner db.items userId)[(number - 1).toNat]? =
        some ((selectItemsByOwner db.items userId)[(number - 1).toNat]) :=
      List.getElem?_eq_getElem hn
    have hmem := mem_selectItemsByOwner.1 (List.getElem?_mem hget)
    obtain ⟨hdel, hchanges⟩ := deleteItem_eq db.items _ userId hpk hmem.1 hmem.2
    have hnodup := nodup_selectItemsByOwner db.items userId hpk
    refine ⟨_, hget, ?_, ?_, fun other hother => ?_⟩
    · have hlen : (selectItemsByOwner db.items userId).length ≠ 0 := by omega
      simp only [removeCommand, if_neg (not_le.2 (by omega : 0 < number)), if_neg hlen, hget,
        if_neg hchanges, hdel]
    · rw [selectItemsByOwner_filter, ← List.Nodup.erase_getElem hnodup _ hn,
        List.Nodup.erase_eq_filter hnodup]
      apply List.filter_congr
      intro i _
      simp only [ne_eq, decide_not]
      rfl
    · rw [selectItemsByOwner_filter, List.filter_eq_self]
      intro i hi
      have hio := (mem_selectItemsByOwner.1 hi).2
      have : i ≠ (selectItemsByOwner db.items userId)[(number - 1).toNat] := by
        intro heq
        rw [heq] at hio
        exact hother (hio.symm.trans hmem.2)
      simpa using this
  · intro h
    unfold removeCommand
    by_cases h0 : number ≤ 0
    · rw [if_pos h0]; exact ⟨rfl, Or.inl rfl⟩
    · rw [if_neg h0]
      by_cases hlen : (selectItemsByOwner db.items userId).length = 0
      · rw [if_pos hlen]; exact ⟨rfl, Or.inr (Or.inl rfl)⟩
      · have hnone : (selectItemsByOwner db.items userId)[(number - 1).toNat]? = none := by
          rw [List.getElem?_eq_none_iff]
          omega
        rw [if_neg hlen, hnone]
        exact ⟨rfl, Or.inr (Or.inr rfl)⟩

/-- Witness of C8: `/remove 2` in the three-item shop of `A`. -/
theorem remove_by_position_witness :
    (shelfDb.items.map (fun i => i.id)).Nodup ∧
    ((1 : Int) ≤ 2 ∧ (2 : Int) ≤ (selectItemsByOwner shelfDb.items "A").length) ∧
    (removeCommand "A" 2 shelfDb).1.items =
      [⟨"z1", "Z", "Other", "z.png", 900, 1, 9, [9], 15⟩,
       ⟨"a1", "A", "First", "1.png", 100, 1, 5, [1], 10⟩,
       ⟨"a3", "A", "Third", "3.png", 300, 1, 5, [3], 30⟩] ∧
    selectItemsByOwner (removeCommand "A" 2 shelfDb).1.items "A" =
      [⟨"a1", "A", "First", "1.png", 100, 1, 5, [1], 10⟩,
       ⟨"a3", "A", "Third", "3.png", 300, 1, 5, [3], 30⟩] ∧
    ∃ item, (selectItemsByOwner shelfDb.items "A")[((2 : Int) - 1).toNat]? = some item ∧
      removeCommand "A" 2 shelfDb =
        ({ shelfDb with items := shelfDb.items.filter (fun i => i ≠ item) },
          Reply.removed item.name) ∧
      selectItemsByOwner (shelfDb.items.filter (fun i => i ≠ item)) "A" =
        (selectItemsByOwner shelfDb.items "A").eraseIdx ((2 : Int) - 1).toNat ∧
      ∀ other, other ≠ "A" →
        selectItemsByOwner (shelfDb.items.filter (fun i => i ≠ item)) other =
          selectItemsByOwner shelfDb.items other :=
  ⟨by decide, ⟨by decide, by decide⟩, by decide, by decide,
    (remove_by_position shelfDb "A" 2 (by decide)).1 (by decide) (by decide)⟩

/-! ## Payment source -/

/-- The buy handler from the payment step on, for a run that gets there. -/
theorem buyModal_at_payment (env : Env) (f : BuyForm) (s : State) (view : View) (item : Item)
    (hview : liveView s.shopViews f.buyerId f.now = some view) (htoken : f.itemInput ≠ "")
    (hlen : (selectItemsByOwner s.db.items view.ownerId).length ≠ 0)
    (hres : resolveItem env (selectItemsByOwner s.db.items view.ownerId) f.itemInput = some item)
    (hamt : 0 < item.amount) :
    buyModal env f s =
      match selectPayment env s.db.users f.buyerId f.cardInput
          (getOrCreateCoinUserId env s.db.users view.ownerId) item.price_sats with
      | (charges, Option.none) => BuyOutcome.fail s Reply.noCard charges
      | (charges, some payResult) =>
        if !payResult.success then BuyOutcome.fail s Reply.paymentFailed charges
        else finishSale s ⟨f.buyerId, view.ownerId, item,
          payResult.txId.filter (fun t => t ≠ ""), f.uuid, f.recordedAt⟩ charges := by
  rcases hp : selectPayment env s.db.users f.buyerId f.cardInput
    (getOrCreateCoinUserId env s.db.users view.ownerId) item.price_sats with ⟨charges, res⟩
  cases res with
  | none =>
    simp only [buyModal, buyPrepare, hview, if_neg htoken, if_neg hlen, hres,
      if_neg (not_le.2 hamt), hp]
  | some payResult =>
    have hne : selectItemsByOwner s.db.items view.ownerId ≠ [] := by
      intro h
      rw [h] at hlen
      exact hlen rfl
    cases hs : payResult.success <;>
      simp [buyModal, buyPrepare, hview, if_neg htoken, hne, hres,
        if_neg (not_le.2 hamt), hp, hs]

theorem finishSale_reply_ne (s : State) (sale : Sale) (charges : List Charge) :
    (finishSale s sale charges).reply ≠ Reply.noCard ∧
    (finishSale s sale charges).reply ≠ Reply.paymentFailed := by
  rcases finishSale_reply s sale charges with h | h <;> rw [h] <;> simp [receipt]

/-- C10, as the code has it. For a run of the buy handler that reaches the
payment step (live session, item resolved, in stock), with `seller` the
destination account and `p` the item's price: a supplied card is charged first, and alone if that
charge succeeds; the stored card is charged exactly when no card was supplied
or the supplied card's charge failed, and a stored card exists; when the
fallback finds no stored card the reply is 'No card available'; otherwise, when
the last charge failed, the reply is 'Payment failed'; at most one charge of the
run succeeds; and with either of these two replies the state is as before, no
sale is recorded and nothing is sent by direct message. -/
theorem payment_source (env : Env) (f : BuyForm) (s : State) (view : View) (item : Item)
    (seller : String) (hseller : seller = getOrCreateCoinUserId env s.db.users view.ownerId)
    (hview : liveView s.shopViews f.buyerId f.now = some view) (htoken : f.itemInput ≠ "")
    (hlen : (selectItemsByOwner s.db.items view.ownerId).length ≠ 0)
    (hres : resolveItem env (selectItemsByOwner s.db.items view.ownerId) f.itemInput = some item)
    (hamt : 0 < item.amount) :
    (f.cardInput ≠ "" →
      (buyModal env f s).charges.head? =
        some (env.charge 0 f.cardInput seller item.price_sats)) ∧
    (f.cardInput ≠ "" →
      (env.coinPayByCard 0 f.cardInput seller item.price_sats).success = true →
      (buyModal env f s).charges = [env.charge 0 f.cardInput seller item.price_sats]) ∧
    (f.cardInput ≠ "" →
      (env.coinPayByCard 0 f.cardInput seller item.price_sats).success = false →
      ∀ card, selectCardCode s.db.users f.buyerId = some card →
        (buyModal env f s).charges = [env.charge 0 f.cardInput seller item.price_sats,
          env.charge 1 card seller item.price_sats]) ∧
    (f.cardInput = "" → ∀ card, selectCardCode s.db.users f.buyerId = some card →
      (buyModal env f s).charges = [env.charge 0 card seller item.price_sats]) ∧
    (f.cardInput = "" ∨
        (env.coinPayByCard 0 f.cardInput seller item.price_sats).success = false →
      selectCardCode s.db.users f.buyerId = none →
      (buyModal env f s).reply = Reply.noCard) ∧
    ((buyModal env f s).reply ≠ Reply.noCard →
      ∀ c, (buyModal env f s).charges.getLast? = some c → c.result.success = false →
        (buyModal env f s).reply = Reply.paymentFailed) ∧
    ((buyModal env f s).charges.filter (fun c => c.result.success)).length ≤ 1 ∧
    ((buyModal env f s).reply = Reply.noCard ∨
        (buyModal env f s).reply = Reply.paymentFailed →
      (buyModal env f s).state.db = s.db ∧ (buyModal env f s).state.shopViews = s.shopViews ∧
      (buyModal env f s).sale = none ∧ (buyModal env f s).dm = none) := by
  subst hseller
  have heq := buyModal_at_payment env f s view item hview htoken hlen hres hamt
  rcases selectPayment_cases env s.db.users f.buyerId f.cardInput
      (getOrCreateCoinUserId env s.db.users view.ownerId) item.price_sats with
    ⟨hc, hp, hsel⟩ | ⟨hc, hp, hst, hsel⟩ | ⟨card, hc, hp, hst, hsel⟩ | ⟨hc, hst, hsel⟩ |
    ⟨card, hc, hst, hsel⟩
  · -- supplied card, charge succeeded
    rw [hsel] at heq
    simp only [hp, Bool.not_true, Bool.false_eq_true, if_false] at heq
    have hne := finishSale_reply_ne s ⟨f.buyerId, view.ownerId, item,
      (env.coinPayByCard 0 f.cardInput (getOrCreateCoinUserId env s.db.users view.ownerId)
        item.price_sats).txId.filter (fun t => t ≠ ""), f.uuid, f.recordedAt⟩
      [⟨f.cardInput, getOrCreateCoinUserId env s.db.users view.ownerId, item.price_sats,
        env.coinPayByCard 0 f.cardInput (getOrCreateCoinUserId env s.db.users view.ownerId)
          item.price_sats⟩]
    rw [← heq] at hne
    have hch : (buyModal env f s).charges =
        [env.charge 0 f.cardInput (getOrCreateCoinUserId env s.db.users view.ownerId)
          item.price_sats] := by rw [heq]; rfl
    refine ⟨fun _ => by rw [hch]; rfl, fun _ _ => hch, fun _ hf => ?_, fun h => absurd h hc,
      fun h _ => ?_, fun _ c hlast hfail => ?_, ?_, fun h => ?_⟩
    · rw [hp] at hf; exact absurd hf (by simp)
    · rcases h with h | h
      · exact absurd h hc
      · rw [hp] at h; exact absurd h (by simp)
    · rw [hch] at hlast
      simp only [List.getLast?_singleton, Option.some.injEq] at hlast
      rw [← hlast] at hfail
      simp only [Env.charge, hp] at hfail
      exact absurd hfail (by simp)
    · rw [hch]; simp [Env.charge, hp]
    · rcases h with h | h
      · exact absurd h hne.1
      · exact absurd h hne.2
  · -- supplied card failed, no stored card
    rw [hsel] at heq
    simp only at heq
    rw [heq]
    refine ⟨fun _ => rfl, fun _ hs => ?_, fun _ _ card hcard => ?_, fun h => absurd h hc,
      fun _ _ => rfl, fun h => absurd rfl h, ?_, fun _ => ⟨rfl, rfl, rfl, rfl⟩⟩
    · rw [hp] at hs; exact absurd hs (by simp)
    · rw [hst] at hcard; exact absurd hcard (by simp)
    · simp [BuyOutcome.fail, hp]
  · -- supplied card failed, stored card charged
    rw [hsel] at heq
    cases hp2 : (env.coinPayByCard 1 card (getOrCreateCoinUserId env s.db.users view.ownerId)
      item.price_sats).success
    · simp only [hp2, Bool.not_false, if_true] at heq
      rw [heq]
      refine ⟨fun _ => rfl, fun _ hs => ?_, fun _ _ card2 hcard => ?_, fun h => absurd h hc,
        fun _ hnone => ?_, fun _ _ _ _ => rfl, ?_, fun _ => ⟨rfl, rfl, rfl, rfl⟩⟩
      · rw [hp] at hs; exact absurd hs (by simp)
      · rw [hst] at hcard
        simp only [Option.some.injEq] at hcard
        subst hcard
        rfl
      · rw [hst] at hnone; exact absurd hnone (by simp)
      · simp [BuyOutcome.fail, hp, hp2]
    · simp only [hp2, Bool.not_true, Bool.false_eq_true, if_false] at heq
      have hne := finishSale_reply_ne s ⟨f.buyerId, view.ownerId, item,
        (env.coinPayByCard 1 card (getOrCreateCoinUserId env s.db.users view.ownerId)
          item.price_sats).txId.filter (fun t => t ≠ ""), f.uuid, f.recordedAt⟩
        [⟨f.cardInput, getOrCreateCoinUserId env s.db.users view.ownerId, item.price_sats,
          env.coinPayByCard 0 f.cardInput (getOrCreateCoinUserId env s.db.users view.ownerId)
            item.price_sats⟩,
         ⟨card, getOrCreateCoinUserId env s.db.users view.ownerId, item.price_sats,
          env.coinPayByCard 1 card (getOrCreateCoinUserId env s.db.users view.ownerId)
            item.price_sats⟩]
      rw [← heq] at hne
      have hch : (buyModal env f s).charges =
          [env.charge 0 f.cardInput (getOrCreateCoinUserId env s.db.users view.ownerId)
            item.price_sats,
           env.charge 1 card (getOrCreateCoinUserId env s.db.users view.ownerId)
            item.price_sats] := by rw [heq]; rfl
      refine ⟨fun _ => by rw [hch]; rfl, fun _ hs => ?_, fun _ _ card2 hcard => ?_,
        fun h => absurd h hc, fun _ hnone => ?_, fun _ c hlast hfail => ?_, ?_, fun h => ?_⟩
      · rw [hp] at hs; exact absurd hs (by simp)
      · rw [hst] at hcard
        simp only [Option.some.injEq] at hcard
        subst hcard
        exact hch
      · rw [hst] at hnone; exact absurd hnone (by simp)
      · rw [hch] at hlast
        simp only [List.getLast?_cons_cons, List.getLast?_singleton, Option.some.injEq] at hlast
        rw [← hlast] at hfail
        simp only [Env.charge, hp2] at hfail
        exact absurd hfail (by simp)
      · rw [hch]; simp [Env.charge, hp, hp2]
      · rcases h with h | h
        · exact absurd h hne.1
        · exact absurd h hne.2
  · -- no card supplied, no stored card
    rw [hsel] at heq
    simp only at heq
    rw [heq]
    exact ⟨fun h => absurd hc h, fun h => absurd hc h, fun h => absurd hc h,
      fun _ card hcard => by rw [hst] at hcard; exact absurd hcard (by simp),
      fun _ _ => rfl, fun h => absurd rfl h, by simp [BuyOutcome.fail],
      fun _ => ⟨rfl, rfl, rfl, rfl⟩⟩
  · -- no card supplied, stored card charged
    rw [hsel] at heq
    cases hp2 : (env.coinPayByCard 0 card (getOrCreateCoinUserId env s.db.users view.ownerId)
      item.price_sats).success
    · simp only [hp2, Bool.not_false, if_true] at heq
      rw [heq]
      refine ⟨fun h => absurd hc h, fun h => absurd hc h, fun h => absurd hc h,
        fun _ card2 hcard => ?_, fun _ hnone => ?_, fun _ _ _ _ => rfl, ?_,
        fun _ => ⟨rfl, rfl, rfl, rfl⟩⟩
      · rw [hst] at hcard
        simp only [Option.some.injEq] at hcard
        subst hcard
        rfl
      · rw [hst] at hnone; exact absurd hnone (by simp)
      · simp [BuyOutcome.fail, hp2]
    · simp only [hp2, Bool.not_true, Bool.false_eq_true, if_false] at heq
      have hne := finishSale_reply_ne s ⟨f.buyerId, view.ownerId, item,
        (env.coinPayByCard 0 card (getOrCreateCoinUserId env s.db.users view.ownerId)
          item.price_sats).txId.filter (fun t => t ≠ ""), f.uuid, f.recordedAt⟩
        [⟨card, getOrCreateCoinUserId env s.db.users view.ownerId, item.price_sats,
          env.coinPayByCard 0 card (getOrCreateCoinUserId env s.db.users view.ownerId)
            item.price_sats⟩]
      rw [← heq] at hne
      have hch : (buyModal env f s).charges =
          [env.charge 0 card (getOrCreateCoinUserId env s.db.users view.ownerId)
            item.price_sats] := by rw [heq]; rfl
      refine ⟨fun h => absurd hc h, fun h => absurd hc h, fun h => absurd hc h,
        fun _ card2 hcard => ?_, fun _ hnone => ?_, fun _ c hlast hfail => ?_, ?_, fun h => ?_⟩
      · rw [hst] at hcard
        simp only [Option.some.injEq] at hcard
        subst hcard
        exact hch
      · rw [hst] at hnone; exact absurd hnone (by simp)
      · rw [hch] at hlast
        simp only [List.getLast?_singleton, Option.some.injEq] at hlast
        rw [← hlast] at hfail
        simp only [Env.charge, hp2] at hfail
        exact absurd hfail (by simp)
      · rw [hch]; simp [Env.charge, hp2]
      · rcases h with h | h
        · exact absurd h hne.1
        · exact absurd h hne.2

/-- Witness of C10: the card of the form is refused, the stored card pays. -/
theorem payment_source_witness :
    ("A" = getOrCreateCoinUserId fallbackEnv storedCardState.db.users "A" ∧
      liveView storedCardState.shopViews (demoForm "p1" 2000).buyerId (demoForm "p1" 2000).now =
        some ⟨"A", 0, 1000 + SHOP_CONTEXT_TTL⟩ ∧
      (demoForm "p1" 2000).itemInput ≠ "" ∧
      (selectItemsByOwner storedCardState.db.items "A").length ≠ 0 ∧
      resolveItem fallbackEnv (selectItemsByOwner storedCardState.db.items "A")
        (demoForm "p1" 2000).itemInput = some widget ∧
      0 < widget.amount) ∧
    (buyModal fallbackEnv (demoForm "p1" 2000) storedCardState).charges =
      [fallbackEnv.charge 0 (demoForm "p1" 2000).cardInput "A" widget.price_sats,
        fallbackEnv.charge 1 "SAVED-B" "A" widget.price_sats] ∧
    ((buyModal fallbackEnv (demoForm "p1" 2000) storedCardState).charges.filter
      (fun c => c.result.success)).length ≤ 1 :=
  ⟨⟨by decide, by decide, by decide, by decide, by decide, by decide⟩,
   (payment_source fallbackEnv (demoForm "p1" 2000) storedCardState
      ⟨"A", 0, 1000 + SHOP_CONTEXT_TTL⟩ widget "A" (by decide) (by decide) (by decide)
      (by decide) (by decide) (by decide)).2.2.1 (by decide) (by decide) "SAVED-B" (by decide),
   (payment_source fallbackEnv (demoForm "p1" 2000) storedCardState
      ⟨"A", 0, 1000 + SHOP_CONTEXT_TTL⟩ widget "A" (by decide) (by decide) (by decide)
      (by decide) (by decide) (by decide)).2.2.2.2.2.2.1⟩

/-- C10 as stated fails when the supplied card is refused and the buyer has no
stored card: the attempt reaches the payment step, its only (hence last) charge
fails, and the reply is 'No card available', not 'Payment failed'. -/
theorem no_card_after_refusal_counterexample :
    (liveView demoState.shopViews (demoForm "p1" 2000).buyerId (demoForm "p1" 2000).now =
        some ⟨"A", 0, 1000 + SHOP_CONTEXT_TTL⟩ ∧
      resolveItem fallbackEnv (selectItemsByOwner demoState.db.items "A")
        (demoForm "p1" 2000).itemInput = some widget ∧
      0 < widget.amount ∧ (demoForm "p1" 2000).cardInput = "CARD-B" ∧
      selectCardCode demoState.db.users "B" = none) ∧
    (buyModal fallbackEnv (demoForm "p1" 2000) demoState).charges =
      [⟨"CARD-B", "A", widget.price_sats, ⟨false, none⟩⟩] ∧
    (buyModal fallbackEnv (demoForm "p1" 2000) demoState).charges.getLast?.map
      (fun c => c.result.success) = some false ∧
    (buyModal fallbackEnv (demoForm "p1" 2000) demoState).reply = Reply.noCard ∧
    (buyModal fallbackEnv (demoForm "p1" 2000) demoState).reply ≠ Reply.paymentFailed :=
  ⟨⟨by decide, by decide, by decide, by decide, by decide⟩, by decide, by decide, by decide,
    by decide⟩

/-! ## Rounding to binary64 -/

theorem log2Aux_spec : ∀ (fuel n : Nat), n ≤ fuel → 1 ≤ n →
    2 ^ log2Aux fuel n ≤ n ∧ n < 2 ^ (log2Aux fuel n + 1) := by
  intro fuel
  induction fuel with
  | zero => intro n h1 h2; omega
  | succ fuel ih =>
    intro n hle hpos
    unfold log2Aux
    by_cases h2 : 2 ≤ n
    · rw [if_pos h2]
      have hdiv : n / 2 ≤ fuel := by omega
      have hpos2 : 1 ≤ n / 2 := by omega
      obtain ⟨hlo, hhi⟩ := ih (n / 2) hdiv hpos2
      constructor
      · rw [pow_succ]; omega
      · rw [pow_succ]; omega
    · rw [if_neg h2]
      have : n = 1 := by omega
      subst this
      simp

theorem log2_spec (n : Nat) (h : 1 ≤ n) : 2 ^ log2 n ≤ n ∧ n < 2 ^ (log2 n + 1) :=
  log2Aux_spec n n (le_refl n) h

/-- The exponent found by `floorLog2` is a difference `A - B` of naturals with
`2^A / 2^B ≤ p / q < 2^(A+1) / 2^B`. -/
theorem floorLog2_spec (p q : Nat) (hp : 1 ≤ p) (hq : 1 ≤ q) :
    ∃ A B : Nat, floorLog2 p q = (A : Int) - (B : Int) ∧
      q * 2 ^ A ≤ p * 2 ^ B ∧ p * 2 ^ B < q * 2 ^ (A + 1) := by
  obtain ⟨hplo, hphi⟩ := log2_spec p hp
  obtain ⟨hqlo, hqhi⟩ := log2_spec q hq
  unfold floorLog2
  by_cases h : q * 2 ^ log2 p ≤ p * 2 ^ log2 q
  · rw [if_pos h]
    refine ⟨log2 p, log2 q, rfl, h, ?_⟩
    calc p * 2 ^ log2 q < 2 ^ (log2 p + 1) * 2 ^ log2 q :=
          Nat.mul_lt_mul_of_pos_right hphi (by positivity)
      _ = 2 ^ log2 q * 2 ^ (log2 p + 1) := Nat.mul_comm _ _
      _ ≤ q * 2 ^ (log2 p + 1) := Nat.mul_le_mul_right _ hqlo
  · rw [if_neg h]
    refine ⟨log2 p, log2 q + 1, by push_cast; ring, ?_, ?_⟩
    · calc q * 2 ^ log2 p ≤ 2 ^ (log2 q + 1) * 2 ^ log2 p :=
            Nat.mul_le_mul_right _ (le_of_lt hqhi)
        _ = 2 ^ log2 p * 2 ^ (log2 q + 1) := Nat.mul_comm _ _
        _ ≤ p * 2 ^ (log2 q + 1) := Nat.mul_le_mul_right _ hplo
    · have h' : p * 2 ^ log2 q < q * 2 ^ log2 p := not_le.1 h
      calc p * 2 ^ (log2 q + 1) = (p * 2 ^ log2 q) * 2 := by rw [pow_succ]; ring
        _ < (q * 2 ^ log2 p) * 2 := Nat.mul_lt_mul_of_pos_right h' (by decide)
        _ = q * 2 ^ (log2 p + 1) := by rw [pow_succ]; ring

theorem roundExp_ge (p q : Nat) : -1074 ≤ roundExp p q := le_max_right _ _

/-- The scaled quotient is below `2^53`, and at least `2^52` outside the
subnormal range. -/
theorem scaled_bounds (p q : Nat) (hp : 1 ≤ p) (hq : 1 ≤ q) :
    p * 2 ^ (-(roundExp p q)).toNat < 2 ^ 53 * (q * 2 ^ (roundExp p q).toNat) ∧
    (-1074 < roundExp p q →
      2 ^ 52 * (q * 2 ^ (roundExp p q).toNat) ≤ p * 2 ^ (-(roundExp p q)).toNat) := by
  obtain ⟨A, B, hAB, hlo, hhi⟩ := floorLog2_spec p q hp hq
  have he : roundExp p q = max ((A : Int) - B - 52) (-1074) := by
    unfold roundExp; rw [hAB]
  generalize roundExp p q = e at he
  have hts : ((e.toNat : Int) - ((-e).toNat : Int)) = e := by omega
  have hge : (A : Int) - B - 52 ≤ e := by rw [he]; exact le_max_left _ _
  constructor
  · have hexp : A + 1 + (-e).toNat ≤ 53 + e.toNat + B := by omega
    have h1 : p * 2 ^ (-e).toNat * 2 ^ B < 2 ^ 53 * (q * 2 ^ e.toNat) * 2 ^ B := by
      calc p * 2 ^ (-e).toNat * 2 ^ B = (p * 2 ^ B) * 2 ^ (-e).toNat := by ring
        _ < (q * 2 ^ (A + 1)) * 2 ^ (-e).toNat :=
            Nat.mul_lt_mul_of_pos_right hhi (by positivity)
        _ = q * 2 ^ (A + 1 + (-e).toNat) := by rw [pow_add]; ring
        _ ≤ q * 2 ^ (53 + e.toNat + B) :=
            Nat.mul_le_mul_left _ (Nat.pow_le_pow_right (by decide) hexp)
        _ = 2 ^ 53 * (q * 2 ^ e.toNat) * 2 ^ B := by rw [pow_add, pow_add]; ring
    exact Nat.lt_of_mul_lt_mul_right h1
  · intro hnorm
    have heq : e = (A : Int) - B - 52 := by
      rw [he] at hnorm ⊢
      rcases max_cases ((A : Int) - B - 52) (-1074) with ⟨h, _⟩ | ⟨h, _⟩
      · exact h
      · rw [h] at hnorm; exact absurd hnorm (lt_irrefl _)
    have hexp : 52 + e.toNat + B = A + (-e).toNat := by omega
    have h1 : 2 ^ 52 * (q * 2 ^ e.toNat) * 2 ^ B ≤ p * 2 ^ (-e).toNat * 2 ^ B := by
      calc 2 ^ 52 * (q * 2 ^ e.toNat) * 2 ^ B = q * 2 ^ (52 + e.toNat + B) := by
            rw [pow_add, pow_add]; ring
        _ = q * 2 ^ (A + (-e).toNat) := by rw [hexp]
        _ = (q * 2 ^ A) * 2 ^ (-e).toNat := by rw [pow_add]; ring
        _ ≤ (p * 2 ^ B) * 2 ^ (-e).toNat := Nat.mul_le_mul_right _ hlo
        _ = p * 2 ^ (-e).toNat * 2 ^ B := by ring
    exact Nat.le_of_mul_le_mul_right h1 (by positivity)

theorem roundHalfEven_bounds (num den : Nat) :
    num / den ≤ roundHalfEven num den ∧ roundHalfEven num den ≤ num / den + 1 := by
  unfold roundHalfEven
  repeat' split
  all_goals omega

theorem roundHalfEven_exact (k den : Nat) (hden : 0 < den) :
    roundHalfEven (k * den) den = k := by
  unfold roundHalfEven
  rw [Nat.mul_mod_left, Nat.mul_div_cancel _ hden, if_pos (by omega)]

/-- The significand found is at most `2^53`, and at least `2^52` outside the
subnormal range. -/
theorem roundMant_bounds (p q : Nat) (hp : 1 ≤ p) (hq : 1 ≤ q) :
    roundMant p q ≤ 2 ^ 53 ∧ (-1074 < roundExp p q → 2 ^ 52 ≤ roundMant p q) := by
  obtain ⟨hU, hL⟩ := scaled_bounds p q hp hq
  have hQ : 0 < q * 2 ^ (roundExp p q).toNat := by positivity
  obtain ⟨hlo, hhi⟩ := roundHalfEven_bounds (p * 2 ^ (-(roundExp p q)).toNat)
    (q * 2 ^ (roundExp p q).toNat)
  constructor
  · have : p * 2 ^ (-(roundExp p q)).toNat / (q * 2 ^ (roundExp p q).toNat) < 2 ^ 53 :=
      (Nat.div_lt_iff_lt_mul hQ).2 hU
    unfold roundMant
    omega
  · intro hn
    have : 2 ^ 52 ≤ p * 2 ^ (-(roundExp p q)).toNat / (q * 2 ^ (roundExp p q).toNat) :=
      (Nat.le_div_iff_mul_le hQ).2 (hL hn)
    unfold roundMant
    omega

theorem roundRat_isDouble (neg : Bool) (p q : Nat) (hq : 1 ≤ q) :
    (roundRat neg p q).IsDouble := by
  unfold roundRat
  by_cases hp : p = 0
  · rw [if_pos hp]; exact ⟨by decide, by decide⟩
  · rw [if_neg hp]
    have hb := (roundMant_bounds p q (by omega) hq).1
    have he := roundExp_ge p q
    repeat' split
    all_goals first
      | trivial
      | exact ⟨by decide, by decide⟩
      | exact ⟨by decide, by omega⟩
      | exact ⟨by omega, he⟩

/-- Exactness: a quotient equal to `k / 2^j` with `k < 2^53` and `j ≤ 1074` is
not changed by the rounding. -/
theorem roundRat_exact (neg : Bool) (p q k j : Nat) (hq : 1 ≤ q) (hk : 1 ≤ k)
    (hk53 : k < 2 ^ 53) (hj : j ≤ 1074) (hval : p * 2 ^ j = k * q) :
    ∃ (M : Nat) (E : Int), roundRat neg p q = Num.fin neg M E ∧ E ≤ 0 ∧ 1 ≤ M ∧
      M * 2 ^ j = k * 2 ^ (-E).toNat := by
  have hp : 1 ≤ p := by
    rcases Nat.eq_zero_or_pos p with h | h
    · rw [h, Nat.zero_mul] at hval
      have : 0 < k * q := Nat.mul_pos hk hq
      omega
    · exact h
  obtain ⟨hU, hL⟩ := scaled_bounds p q hp hq
  have hge := roundExp_ge p q
  have hmant : roundMant p q = roundHalfEven (p * 2 ^ (-(roundExp p q)).toNat)
      (q * 2 ^ (roundExp p q).toNat) := rfl
  have hrr : roundRat neg p q = if roundMant p q = 0 then Num.fin neg 0 0
      else if roundMant p q = 2 ^ 53 then
        (if 971 < roundExp p q + 1 then Num.inf neg
          else Num.fin neg (2 ^ 52) (roundExp p q + 1))
      else if 971 < roundExp p q then Num.inf neg
      else Num.fin neg (roundMant p q) (roundExp p q) := by
    unfold roundRat
    rw [if_neg (by omega)]
  generalize roundExp p q = E at hU hL hge hmant hrr
  have h2j : 1 ≤ 2 ^ j := Nat.one_le_two_pow
  have hpq : p < 2 ^ 53 * q := by
    have h1 : p * 1 ≤ p * 2 ^ j := Nat.mul_le_mul_left _ h2j
    have h2 : k * q < 2 ^ 53 * q := Nat.mul_lt_mul_of_pos_right hk53 (by omega)
    omega
  -- the exponent is not positive
  have hE0 : E ≤ 0 := by
    by_contra hpos
    have hpos : 0 < E := not_le.1 hpos
    have h1 := hL (by omega)
    have hs : (-E).toNat = 0 := by omega
    rw [hs, pow_zero, Nat.mul_one] at h1
    have h2 : 2 ≤ 2 ^ E.toNat := by
      have : 1 ≤ E.toNat := by omega
      calc 2 = 2 ^ 1 := rfl
        _ ≤ 2 ^ E.toNat := Nat.pow_le_pow_right (by decide) this
    have h3 : 2 ^ 52 * (q * 2) ≤ 2 ^ 52 * (q * 2 ^ E.toNat) :=
      Nat.mul_le_mul_left _ (Nat.mul_le_mul_left _ h2)
    have h4 : 2 ^ 52 * (q * 2) = 2 ^ 53 * q := by rw [pow_succ]; ring
    omega
  have ht : E.toNat = 0 := by omega
  rw [ht, pow_zero, Nat.mul_one] at hU hL hmant
  -- the unit in the last place is fine enough
  have hsj : j ≤ (-E).toNat := by
    by_contra hlt
    have hlt : (-E).toNat < j := not_le.1 hlt
    have h1 := hL (by omega)
    have h2 : 2 ^ j = 2 ^ (-E).toNat * 2 ^ (j - (-E).toNat) := by
      rw [← pow_add]; congr 1; omega
    have h3 : 2 ≤ 2 ^ (j - (-E).toNat) := by
      have : 1 ≤ j - (-E).toNat := by omega
      calc 2 = 2 ^ 1 := rfl
        _ ≤ 2 ^ (j - (-E).toNat) := Nat.pow_le_pow_right (by decide) this
    have h4 : 2 ^ 52 * q * 2 ≤ p * 2 ^ (-E).toNat * 2 ^ (j - (-E).toNat) :=
      Nat.mul_le_mul h1 h3
    have h5 : p * 2 ^ (-E).toNat * 2 ^ (j - (-E).toNat) = k * q := by
      rw [← hval, h2]; ring
    have h6 : k * q < 2 ^ 53 * q := Nat.mul_lt_mul_of_pos_right hk53 (by omega)
    have h7 : 2 ^ 52 * q * 2 = 2 ^ 53 * q := by rw [pow_succ]; ring
    omega
  have hsplit : 2 ^ (-E).toNat = 2 ^ j * 2 ^ ((-E).toNat - j) := by
    rw [← pow_add]; congr 1; omega
  have hP : p * 2 ^ (-E).toNat = (k * 2 ^ ((-E).toNat - j)) * q := by
    rw [hsplit]
    calc p * (2 ^ j * 2 ^ ((-E).toNat - j)) = (p * 2 ^ j) * 2 ^ ((-E).toNat - j) := by ring
      _ = (k * q) * 2 ^ ((-E).toNat - j) := by rw [hval]
      _ = (k * 2 ^ ((-E).toNat - j)) * q := by ring
  have hM : roundMant p q = k * 2 ^ ((-E).toNat - j) := by
    rw [hmant, hP, roundHalfEven_exact _ _ (by omega)]
  have hMpos : 1 ≤ k * 2 ^ ((-E).toNat - j) := Nat.mul_pos hk (by positivity)
  have hMlt : k * 2 ^ ((-E).toNat - j) < 2 ^ 53 := by
    rw [hP] at hU
    exact Nat.lt_of_mul_lt_mul_right hU
  refine ⟨k * 2 ^ ((-E).toNat - j), E, ?_, hE0, hMpos, ?_⟩
  · rw [hrr, hM, if_neg (by omega), if_neg (by omega), if_neg (by omega)]
  · rw [hsplit]; ring

theorem arrayIndex?_of_toInt?_none {x : Num} (h : x.toInt? = none) : x.arrayIndex? = none := by
  simp only [Num.arrayIndex?, h]

theorem arrayIndex?_of_toInt?_nat {x : Num} {k : Nat} (h : x.toInt? = some (k : Int)) :
    x.arrayIndex? = some k := by
  simp only [Num.arrayIndex?, h]

theorem arrayIndex?_of_toInt?_neg {x : Num} {z : Int} (h : x.toInt? = some z) (hz : z < 0) :
    x.arrayIndex? = none := by
  simp only [Num.arrayIndex?, h]
  cases z with
  | ofNat k => exact absurd hz (by simp)
  | negSucc k => rfl

/-- The integer, if any, of a value `M * 2^E = k / 2^j` with `E ≤ 0`. -/
theorem toInt?_of_value (neg : Bool) (M k j : Nat) (E : Int) (hE : E ≤ 0)
    (hval : M * 2 ^ j = k * 2 ^ (-E).toNat) :
    (Num.fin neg M E).toInt? =
      if k % 2 ^ j = 0 then some ((if neg then -1 else 1) * ((k / 2 ^ j : Nat) : Int))
      else none := by
  have hjpos : 0 < 2 ^ j := by positivity
  have hspos : 0 < 2 ^ (-E).toNat := by positivity
  have hiff : M % 2 ^ (-E).toNat = 0 ↔ k % 2 ^ j = 0 := by
    constructor
    · intro h
      obtain ⟨c, hc⟩ := Nat.dvd_of_mod_eq_zero h
      apply Nat.mod_eq_zero_of_dvd
      refine ⟨c, ?_⟩
      have : k * 2 ^ (-E).toNat = (2 ^ j * c) * 2 ^ (-E).toNat := by
        rw [← hval, hc]; ring
      exact Nat.eq_of_mul_eq_mul_right hspos this
    · intro h
      obtain ⟨c, hc⟩ := Nat.dvd_of_mod_eq_zero h
      apply Nat.mod_eq_zero_of_dvd
      refine ⟨c, ?_⟩
      have : M * 2 ^ j = (2 ^ (-E).toNat * c) * 2 ^ j := by
        rw [hval, hc]; ring
      exact Nat.eq_of_mul_eq_mul_right hjpos this
  have hdiv : k % 2 ^ j = 0 → M / 2 ^ (-E).toNat = k / 2 ^ j := by
    intro h
    obtain ⟨c, hc⟩ := Nat.dvd_of_mod_eq_zero h
    have hM : M = 2 ^ (-E).toNat * c := by
      have : M * 2 ^ j = (2 ^ (-E).toNat * c) * 2 ^ j := by
        rw [hval, hc]; ring
      exact Nat.eq_of_mul_eq_mul_right hjpos this
    rw [hM, hc, Nat.mul_div_cancel_left _ hspos, Nat.mul_div_cancel_left _ hjpos]
  simp only [Num.toInt?]
  by_cases h0 : 0 ≤ E
  · have hE0 : E = 0 := le_antisymm hE h0
    subst hE0
    simp only [Int.toNat_zero, pow_zero, Nat.mul_one, neg_zero, Nat.mod_one, true_iff,
      Nat.div_one] at hval hiff hdiv
    rw [if_pos (le_refl _), if_pos hiff, ← hdiv hiff]
    simp
  · rw [if_neg h0]
    by_cases hk : k % 2 ^ j = 0
    · rw [if_pos (hiff.2 hk), if_pos hk, hdiv hk]
    · rw [if_neg (fun h => hk (hiff.1 h)), if_neg hk]

/-- A negative difference of magnitude at least `2^-1074` rounds to no array
index. -/
theorem roundRat_neg_arrayIndex (p q : Nat) (hp : 1 ≤ p) (hq : 1 ≤ q) (hmin : q ≤ p * 2 ^ 1074) :
    (roundRat true p q).arrayIndex? = none := by
  obtain ⟨hU, hL⟩ := scaled_bounds p q hp hq
  obtain ⟨hM53, hM52⟩ := roundMant_bounds p q hp hq
  have hge := roundExp_ge p q
  have hlo := (roundHalfEven_bounds (p * 2 ^ (-(roundExp p q)).toNat)
    (q * 2 ^ (roundExp p q).toNat)).1
  have hMpos : 1 ≤ roundMant p q := by
    by_cases hn : -1074 < roundExp p q
    · have := hM52 hn
      have h52 : 1 ≤ 2 ^ 52 := Nat.one_le_two_pow
      omega
    · have hE : roundExp p q = -1074 := by omega
      unfold roundMant
      rw [hE] at hlo ⊢
      have h1 : (-(-1074 : Int)).toNat = 1074 := by decide
      have h2 : ((-1074 : Int)).toNat = 0 := by decide
      rw [h1, h2, pow_zero, Nat.mul_one] at hlo ⊢
      have : 1 ≤ p * 2 ^ 1074 / q := (Nat.le_div_iff_mul_le (by omega)).2 (by omega)
      omega
  have key : ∀ (M : Nat) (E : Int), 1 ≤ M → (Num.fin true M E).arrayIndex? = none := by
    intro M E hM
    by_cases h0 : 0 ≤ E
    · have hpos : 0 < M * 2 ^ E.toNat := Nat.mul_pos hM (by positivity)
      apply arrayIndex?_of_toInt?_neg (z := -1 * ((M * 2 ^ E.toNat : Nat) : Int))
      · simp only [Num.toInt?, if_pos h0, if_true]
      · omega
    · by_cases hd : M % 2 ^ (-E).toNat = 0
      · have hpos : 0 < M / 2 ^ (-E).toNat := by
          obtain ⟨c, hc⟩ := Nat.dvd_of_mod_eq_zero hd
          have hspos : 0 < 2 ^ (-E).toNat := by positivity
          rw [hc, Nat.mul_div_cancel_left _ hspos]
          rcases Nat.eq_zero_or_pos c with h | h
          · rw [h, Nat.mul_zero] at hc; omega
          · exact h
        apply arrayIndex?_of_toInt?_neg (z := -1 * ((M / 2 ^ (-E).toNat : Nat) : Int))
        · simp only [Num.toInt?, if_neg h0, if_pos hd, if_true]
        · omega
      · apply arrayIndex?_of_toInt?_none
        simp only [Num.toInt?, if_neg h0, if_neg hd]
  unfold roundRat
  rw [if_neg (by omega), if_neg (by omega)]
  repeat' split
  all_goals first
    | rfl
    | exact key _ _ (by decide)
    | exact key _ _ hMpos

/-- A quotient of at least `2^53` rounds to an infinity or to an integer of at
least `2^53`. -/
theorem roundRat_large_arrayIndex (p q : Nat) (hq : 1 ≤ q) (hbig : 2 ^ 53 * q ≤ p) :
    (roundRat false p q).arrayIndex? = none ∨
    ∃ K, (roundRat false p q).arrayIndex? = some K ∧ 2 ^ 53 ≤ K := by
  have hp : 1 ≤ p := by
    have : 1 ≤ 2 ^ 53 * q := Nat.mul_pos (by positivity) hq
    omega
  obtain ⟨hU, hL⟩ := scaled_bounds p q hp hq
  obtain ⟨hM53, hM52⟩ := roundMant_bounds p q hp hq
  have hE : 1 ≤ roundExp p q := by
    by_contra hle
    have hle : roundExp p q ≤ 0 := by omega
    have ht : (roundExp p q).toNat = 0 := by omega
    rw [ht, pow_zero, Nat.mul_one] at hU
    have : p * 1 ≤ p * 2 ^ (-(roundExp p q)).toNat :=
      Nat.mul_le_mul_left _ Nat.one_le_two_pow
    omega
  have hM := hM52 (by omega)
  have key : ∀ (M : Nat) (E : Int), 2 ^ 52 ≤ M → 1 ≤ E →
      ∃ K, (Num.fin false M E).arrayIndex? = some K ∧ 2 ^ 53 ≤ K := by
    intro M E hM hE
    refine ⟨M * 2 ^ E.toNat, ?_, ?_⟩
    · apply arrayIndex?_of_toInt?_nat
      simp only [Num.toInt?, if_pos (by omega : (0 : Int) ≤ E)]
      simp
    · have h2 : 2 ≤ 2 ^ E.toNat := by
        have : 1 ≤ E.toNat := by omega
        calc 2 = 2 ^ 1 := rfl
          _ ≤ 2 ^ E.toNat := Nat.pow_le_pow_right (by decide) this
      calc 2 ^ 53 = 2 ^ 52 * 2 := by rw [pow_succ]
        _ ≤ M * 2 ^ E.toNat := Nat.mul_le_mul hM h2
  unfold roundRat
  rw [if_neg (by omega)]
  have h52 : 1 ≤ 2 ^ 52 := Nat.one_le_two_pow
  rw [if_neg (by omega)]
  repeat' split
  all_goals first
    | exact Or.inl rfl
    | exact Or.inr (key _ _ (le_refl _) (by omega))
    | exact Or.inr (key _ _ hM hE)

theorem ofNat_one : Num.ofNat 1 = Num.fin false (2 ^ 52) (-52) := by decide

/-- The value `idx - 1` for a finite `idx = (-1)^a * m * 2^e`, in units of
`2^-j` with `j = max (-e) 52`: the difference `±m * 2^d - 2^j`, rounded. -/
theorem sub_one_eq (a : Bool) (m : Nat) (e : Int) (j d : Nat)
    (hj : (j : Int) = -(min e (-52))) (hd : (d : Int) = e + j) :
    (Num.fin a m e).sub (Num.ofNat 1) =
      if (if a then -1 else 1) * ((m * 2 ^ d : Nat) : Int) - ((2 ^ j : Nat) : Int) = 0 then
        Num.fin a 0 0
      else roundRat
        (decide ((if a then -1 else 1) * ((m * 2 ^ d : Nat) : Int) - ((2 ^ j : Nat) : Int) < 0))
        ((if a then -1 else 1) * ((m * 2 ^ d : Nat) : Int) - ((2 ^ j : Nat) : Int)).natAbs
        (2 ^ j) := by
  rw [ofNat_one]
  have h1 : (e - min e (-52)).toNat = d := by omega
  have h2 : (min e (-52)).toNat = 0 := by
    have : min e (-52) ≤ -52 := min_le_right _ _
    omega
  have h3 : (-(min e (-52))).toNat = j := by omega
  have h4 : 2 ^ 52 * 2 ^ ((-52 : Int) - min e (-52)).toNat = 2 ^ j := by
    rw [← pow_add]
    congr 1
    omega
  simp only [Num.sub, roundDyadic, h1, h2, h3, h4, pow_zero, Nat.mul_one, Bool.not_false,
    Bool.and_true, Bool.false_eq_true, if_false, one_mul]

/-- Array index denoted by `idx - 1` for a finite binary64 `idx`: `n - 1` when
`idx` is a positive integer `n ≤ 2^53`, nothing below `2^53` when `idx` is a
larger integer, and nothing at all when `idx` is not a positive integer. -/
theorem sub_one_arrayIndex (a : Bool) (m : Nat) (e : Int) (hdbl : (Num.fin a m e).IsDouble) :
    (∀ n : Nat, 1 ≤ n → (Num.fin a m e).toInt? = some (n : Int) →
      (n - 1 < 2 ^ 53 → ((Num.fin a m e).sub (Num.ofNat 1)).arrayIndex? = some (n - 1)) ∧
      (2 ^ 53 ≤ n - 1 → ((Num.fin a m e).sub (Num.ofNat 1)).arrayIndex? = none ∨
        ∃ K, ((Num.fin a m e).sub (Num.ofNat 1)).arrayIndex? = some K ∧ 2 ^ 53 ≤ K)) ∧
    ((∀ n : Nat, 1 ≤ n → (Num.fin a m e).toInt? ≠ some (n : Int)) →
      ((Num.fin a m e).sub (Num.ofNat 1)).arrayIndex? = none) := by
  obtain ⟨hm53, he⟩ := hdbl
  -- the common unit 2^-j and the shift d of the significand
  obtain ⟨j, hj⟩ : ∃ j : Nat, (j : Int) = -(min e (-52)) :=
    ⟨(-(min e (-52))).toNat, by
      have : min e (-52) ≤ -52 := min_le_right _ _
      omega⟩
  have hj52 : 52 ≤ j := by
    have : min e (-52) ≤ -52 := min_le_right _ _
    omega
  have hj1074 : j ≤ 1074 := by
    have : -1074 ≤ min e (-52) := le_min he (by decide)
    omega
  have hje : -e ≤ (j : Int) := by
    have : min e (-52) ≤ e := min_le_left _ _
    omega
  obtain ⟨d, hd⟩ : ∃ d : Nat, (d : Int) = e + j := ⟨(e + j).toNat, by omega⟩
  have hsub := sub_one_eq a m e j d hj hd
  have hjpos : 0 < 2 ^ j := by positivity
  -- value of an integer `idx` in units of 2^-j
  have hint : ∀ n : Nat, (Num.fin a m e).toInt? = some (n : Int) → 1 ≤ n →
      a = false ∧ m * 2 ^ d = n * 2 ^ j := by
    intro n hn hn1
    cases a with
    | true =>
      exfalso
      simp only [Num.toInt?, if_true] at hn
      split at hn
      · simp only [Option.some.injEq] at hn
        generalize m * 2 ^ e.toNat = t at hn
        omega
      · split at hn
        · simp only [Option.some.injEq] at hn
          generalize m / 2 ^ (-e).toNat = t at hn
          omega
        · exact absurd hn (by simp)
    | false =>
      refine ⟨rfl, ?_⟩
      simp only [Num.toInt?, Bool.false_eq_true, if_false, one_mul] at hn
      split at hn
      · rename_i h0
        simp only [Option.some.injEq, Nat.cast_inj] at hn
        have hde : d = e.toNat + j := by omega
        rw [hde, pow_add, ← hn]; ring
      · rename_i h0
        split at hn
        · rename_i hmod
          simp only [Option.some.injEq, Nat.cast_inj] at hn
          have hm : m = 2 ^ (-e).toNat * n := by
            rw [← hn]; exact (Nat.mul_div_cancel' (Nat.dvd_of_mod_eq_zero hmod)).symm
          have hjd : j = (-e).toNat + d := by omega
          rw [hm, hjd, pow_add]; ring
        · exact absurd hn (by simp)
  constructor
  · intro n hn1 hn
    obtain ⟨ha, hval⟩ := hint n hn hn1
    subst ha
    simp only [Bool.false_eq_true, if_false, one_mul] at hsub
    have hD : ((m * 2 ^ d : Nat) : Int) - ((2 ^ j : Nat) : Int) = (((n - 1) * 2 ^ j : Nat) : Int) := by
      rw [hval]
      have : n * 2 ^ j = (n - 1) * 2 ^ j + 2 ^ j := by
        rw [← Nat.succ_mul]; congr 1; omega
      rw [this]; push_cast; ring
    rw [hD] at hsub
    by_cases hn2 : n = 1
    · subst hn2
      simp only [Nat.sub_self, Nat.zero_mul, Nat.cast_zero, if_true] at hsub
      rw [hsub]
      exact ⟨fun _ => by decide, fun h => absurd h (by decide)⟩
    · have hk : 1 ≤ n - 1 := by omega
      have hpos : 0 < (n - 1) * 2 ^ j := Nat.mul_pos hk hjpos
      have hne : ¬ ((((n - 1) * 2 ^ j : Nat) : Int) = 0) := by omega
      have hnot : ¬ ((((n - 1) * 2 ^ j : Nat) : Int) < 0) := by omega
      rw [if_neg hne, decide_eq_false hnot, Int.natAbs_ofNat] at hsub
      rw [hsub]
      constructor
      · intro hlt
        obtain ⟨M, E, hr, hE, _, hME⟩ := roundRat_exact false ((n - 1) * 2 ^ j) (2 ^ j)
          (n - 1) 0 hjpos hk hlt (by decide) (by ring)
        rw [hr]
        apply arrayIndex?_of_toInt?_nat
        rw [toInt?_of_value false M (n - 1) 0 E hE hME]
        simp [Nat.mod_one]
      · intro hbig
        exact roundRat_large_arrayIndex _ _ hjpos (Nat.mul_le_mul_right _ hbig)
  · intro hnot
    rw [hsub]
    -- sign of the difference
    rcases Nat.lt_trichotomy (m * 2 ^ d) (2 ^ j) with hlt | heq | hgt
    · -- idx < 1 (or negative)
      have hDneg : (if a then -1 else 1) * ((m * 2 ^ d : Nat) : Int) - ((2 ^ j : Nat) : Int) < 0 := by
        cases a <;> simp only [Bool.false_eq_true, if_false, if_true] <;> omega
      have hDabs : 1 ≤ ((if a then -1 else 1) * ((m * 2 ^ d : Nat) : Int) -
          ((2 ^ j : Nat) : Int)).natAbs := by omega
      rw [if_neg (by omega), decide_eq_true hDneg]
      apply roundRat_neg_arrayIndex _ _ hDabs hjpos
      calc 2 ^ j ≤ 2 ^ 1074 := Nat.pow_le_pow_right (by decide) hj1074
        _ = 1 * 2 ^ 1074 := (Nat.one_mul _).symm
        _ ≤ _ := Nat.mul_le_mul_right _ hDabs
    · cases a with
      | true =>
        have hDneg : (if true then -1 else 1) * ((m * 2 ^ d : Nat) : Int) - ((2 ^ j : Nat) : Int) < 0 := by
          simp only [if_true]; omega
        have hDabs : 1 ≤ ((if true then -1 else 1) * ((m * 2 ^ d : Nat) : Int) -
            ((2 ^ j : Nat) : Int)).natAbs := by omega
        rw [if_neg (by omega), decide_eq_true hDneg]
        apply roundRat_neg_arrayIndex _ _ hDabs hjpos
        calc 2 ^ j ≤ 2 ^ 1074 := Nat.pow_le_pow_right (by decide) hj1074
          _ = 1 * 2 ^ 1074 := (Nat.one_mul _).symm
          _ ≤ _ := Nat.mul_le_mul_right _ hDabs
      | false =>
        -- idx = 1, excluded
        exfalso
        apply hnot 1 (le_refl _)
        simp only [Num.toInt?, Bool.false_eq_true, if_false, one_mul]
        by_cases h0 : 0 ≤ e
        · rw [if_pos h0]
          have hde : d = e.toNat + j := by omega
          rw [hde, pow_add, ← Nat.mul_assoc] at heq
          have : m * 2 ^ e.toNat = 1 := by
            have h1 : m * 2 ^ e.toNat * 2 ^ j = 1 * 2 ^ j := by rw [heq, Nat.one_mul]
            exact Nat.eq_of_mul_eq_mul_right hjpos h1
          rw [this]
        · rw [if_neg h0]
          have hjd : j = (-e).toNat + d := by omega
          have hdpos : 0 < 2 ^ d := by positivity
          have hm : m = 2 ^ (-e).toNat := by
            rw [hjd, pow_add] at heq
            exact Nat.eq_of_mul_eq_mul_right hdpos heq
          have hspos : 0 < 2 ^ (-e).toNat := by positivity
          rw [hm, Nat.mod_self, if_pos rfl, Nat.div_self hspos]
    · cases a with
      | true =>
        have hDneg : (if true then -1 else 1) * ((m * 2 ^ d : Nat) : Int) - ((2 ^ j : Nat) : Int) < 0 := by
          simp only [if_true]; omega
        have hDabs : 1 ≤ ((if true then -1 else 1) * ((m * 2 ^ d : Nat) : Int) -
            ((2 ^ j : Nat) : Int)).natAbs := by omega
        rw [if_neg (by omega), decide_eq_true hDneg]
        apply roundRat_neg_arrayIndex _ _ hDabs hjpos
        calc 2 ^ j ≤ 2 ^ 1074 := Nat.pow_le_pow_right (by decide) hj1074
          _ = 1 * 2 ^ 1074 := (Nat.one_mul _).symm
          _ ≤ _ := Nat.mul_le_mul_right _ hDabs
      | false =>
        -- idx > 1 and not an integer: the difference is exact and not an integer
        simp only [Bool.false_eq_true, if_false, one_mul]
        have he0 : e < 0 := by
          by_contra h0
          have h0 : 0 ≤ e := not_lt.1 h0
          have hpos : 1 ≤ m * 2 ^ e.toNat := by
            rcases Nat.eq_zero_or_pos (m * 2 ^ e.toNat) with h | h
            · have hm0 : m = 0 := by
                rcases Nat.mul_eq_zero.1 h with h | h
                · exact h
                · exact absurd h (by positivity)
              rw [hm0, Nat.zero_mul] at hgt
              omega
            · exact h
          apply hnot (m * 2 ^ e.toNat) hpos
          simp only [Num.toInt?, Bool.false_eq_true, if_false, one_mul, if_pos h0]
        have hjd : j = (-e).toNat + d := by omega
        have hdpos : 0 < 2 ^ d := by positivity
        have hmgt : 2 ^ (-e).toNat < m := by
          rw [hjd, pow_add] at hgt
          exact Nat.lt_of_mul_lt_mul_right hgt
        have hmod : m % 2 ^ (-e).toNat ≠ 0 := by
          intro hmod
          have hpos : 1 ≤ m / 2 ^ (-e).toNat :=
            (Nat.le_div_iff_mul_le (by positivity)).2 (by omega)
          apply hnot (m / 2 ^ (-e).toNat) hpos
          simp only [Num.toInt?, Bool.false_eq_true, if_false, one_mul,
            if_neg (not_le.2 he0), if_pos hmod]
        have hDeq : ((m * 2 ^ d : Nat) : Int) - ((2 ^ j : Nat) : Int) =
            (((m - 2 ^ (-e).toNat) * 2 ^ d : Nat) : Int) := by
          have h1 : m * 2 ^ d = (m - 2 ^ (-e).toNat) * 2 ^ d + 2 ^ j := by
            rw [hjd, pow_add, ← Nat.add_mul]; congr 1; omega
          rw [h1]; push_cast; ring
        rw [hDeq]
        have hk : 1 ≤ m - 2 ^ (-e).toNat := by omega
        have hpos : 0 < (m - 2 ^ (-e).toNat) * 2 ^ d := Nat.mul_pos hk hdpos
        rw [if_neg (by omega), decide_eq_false (by omega), Int.natAbs_ofNat]
        obtain ⟨M, E, hr, hE, _, hME⟩ := roundRat_exact false ((m - 2 ^ (-e).toNat) * 2 ^ d)
          (2 ^ j) (m - 2 ^ (-e).toNat) (-e).toNat hjpos hk (by omega) (by omega)
          (by rw [hjd, pow_add]; ring)
        rw [hr]
        apply arrayIndex?_of_toInt?_none
        rw [toInt?_of_value false M (m - 2 ^ (-e).toNat) (-e).toNat E hE hME]
        apply if_neg
        intro hk0
        apply hmod
        have hle : 2 ^ (-e).toNat ≤ m := le_of_lt hmgt
        have : m = (m - 2 ^ (-e).toNat) + 2 ^ (-e).toNat := by omega
        rw [this, Nat.add_mod, hk0, Nat.mod_self]
        simp

/-! ## Item resolution -/

theorem decimalValue_isDouble (neg : Bool) (ip fp : List Char) (ex : Int) :
    (decimalValue neg ip fp ex).IsDouble := by
  unfold decimalValue
  split
  · trivial
  · exact roundRat_isDouble _ _ _ (Nat.one_le_pow _ _ (by decide))

theorem unsignedDecimal_isDouble (neg : Bool) (cs : List Char) :
    (unsignedDecimal neg cs).IsDouble := by
  unfold unsignedDecimal
  dsimp only
  repeat' split
  all_goals first
    | trivial
    | exact decimalValue_isDouble _ _ _ _

theorem ofNat_isDouble (n : Nat) : (Num.ofNat n).IsDouble :=
  roundRat_isDouble false n 1 (le_refl 1)

theorem getD_ofNat_isDouble (o : Option Nat) : ((o.map Num.ofNat).getD Num.nan).IsDouble := by
  cases o with
  | none => trivial
  | some n => exact ofNat_isDouble n

/-- Every result of `Number` is a NaN, an infinity or a binary64 value. -/
theorem Number_isDouble (s : String) : (Number s).IsDouble := by
  unfold Number
  repeat' split
  all_goals first
    | exact ⟨by decide, by decide⟩
    | exact unsignedDecimal_isDouble _ _
    | exact getD_ofNat_isDouble _

/-- C9, as the code has it. For a listing `L` of at most `2^53` items and any
token: when `Number(token)` is NaN the handler resolves the first item whose
name equals the token after `toLowerCase` (none when there is none); when
`Number(token)` is a positive integer `n` it resolves the `n`-th item of `L`
(none when `n > length L`); and when `Number(token)` is any other number (zero,
negative, not an integer, infinite) it resolves no item, whatever the names. -/
theorem resolve_by_number_or_name (env : Env) (L : List Item) (token : String)
    (hlen : L.length ≤ 2 ^ 53) :
    (isNaN (Number token) = true →
      resolveItem env L token =
        L.find? (fun i => env.toLowerCase i.name = env.toLowerCase token)) ∧
    (∀ n : Nat, 1 ≤ n → (Number token).toInt? = some (n : Int) →
      resolveItem env L token = L[n - 1]?) ∧
    (isNaN (Number token) = false →
      (∀ n : Nat, 1 ≤ n → (Number token).toInt? ≠ some (n : Int)) →
      resolveItem env L token = none) := by
  have hdbl := Number_isDouble token
  refine ⟨fun hnan => ?_, fun n hn1 hn => ?_, fun hnum hnot => ?_⟩
  · simp only [resolveItem, hnan, Bool.not_true, Bool.false_eq_true, if_false]
  · cases hx : Number token with
    | nan => rw [hx] at hn; exact absurd hn (by simp [Num.toInt?])
    | inf b => rw [hx] at hn; exact absurd hn (by simp [Num.toInt?])
    | fin a m e =>
      rw [hx] at hn hdbl
      obtain ⟨hsmall, hbig⟩ := (sub_one_arrayIndex a m e hdbl).1 n hn1 hn
      simp only [resolveItem, hx, isNaN, Bool.not_false, if_true, arrayAt]
      by_cases hlt : n - 1 < 2 ^ 53
      · rw [hsmall hlt]
        rfl
      · have hge : 2 ^ 53 ≤ n - 1 := not_lt.1 hlt
        have hnone : L[n - 1]? = none := List.getElem?_eq_none_iff.2 (le_trans hlen hge)
        rw [hnone]
        rcases hbig hge with h | ⟨K, h, hK⟩
        · rw [h]; rfl
        · rw [h]
          exact List.getElem?_eq_none_iff.2 (le_trans hlen hK)
  · cases hx : Number token with
    | nan => rw [hx] at hnum; exact absurd hnum (by simp [isNaN])
    | inf b =>
      simp only [resolveItem, hx, isNaN, Bool.not_false, if_true, arrayAt]
      rw [ofNat_one]
      rfl
    | fin a m e =>
      rw [hx] at hnot hdbl
      have h := (sub_one_arrayIndex a m e hdbl).2 hnot
      simp only [resolveItem, hx, isNaN, Bool.not_false, if_true, arrayAt, h]
      rfl

/-- Witness of C9 as amended: the token "2" in a two-item listing. -/
theorem resolve_by_number_or_name_witness :
    [widget, gadget].length ≤ 2 ^ 53 ∧ (Number "2").toInt? = some ((2 : Nat) : Int) ∧
    resolveItem demoEnv [widget, gadget] "2" = [widget, gadget][2 - 1]? :=
  ⟨by decide, by decide,
   (resolve_by_number_or_name demoEnv [widget, gadget] "2" (by decide)).2.1 2 (by decide)
     (by decide)⟩

/-- C9 as stated fails: the tokens "0" and "Infinity" do not parse as positive
integers and an item of the listing has exactly that name, yet the handler
resolves no item. -/
theorem resolve_numeric_name_counterexample :
    ((∀ n : Nat, 1 ≤ n → (Number "0").toInt? ≠ some (n : Int)) ∧
      oddNames.find? (fun i => asciiLower i.name = asciiLower "0") =
        some ⟨"n0", "A", "0", "zero.png", 100, 1, 5, [0], 10⟩ ∧
      resolveItem demoEnv oddNames "0" = none) ∧
    ((∀ n : Nat, 1 ≤ n → (Number "Infinity").toInt? ≠ some (n : Int)) ∧
      oddNames.find? (fun i => asciiLower i.name = asciiLower "Infinity") =
        some ⟨"n1", "A", "Infinity", "inf.png", 100, 1, 5, [8], 20⟩ ∧
      resolveItem demoEnv oddNames "Infinity" = none) := by
  have h0 : (Number "0").toInt? = some 0 := by decide
  have hinf : (Number "Infinity").toInt? = none := by decide
  refine ⟨⟨fun n hn h => ?_, by decide, by decide⟩, ⟨fun n hn h => ?_, by decide, by decide⟩⟩
  · rw [h0] at h
    simp only [Option.some.injEq] at h
    omega
  · rw [hinf] at h
    exact absurd h (by simp)

/-! ## The ledger client -/

/-- A request that is answered with a 2xx status ends the call. -/
theorem processPayment_resolved (isoNow cardCode toId amountCoins : String)
    (ledger : Nat → Outcome) (retryCount : Nat) (res : HttpResponse)
    (h : ledger 0 = Outcome.resolved res) :
    ∃ r, (∀ fuel, processPayment isoNow cardCode toId amountCoins (fuel + 1) ledger retryCount =
        some (r, [Effect.post cardCode toId
          ((Math.floor ((Number amountCoins).mul oneE8)).div oneE8) 15000])) ∧
      r.success = (res.data.map (fun d => d.success)).getD false := by
  cases hd : res.data with
  | none =>
    refine ⟨⟨false, none, none, none, some "Payment failed", none, none⟩, fun fuel => ?_, rfl⟩
    simp only [processPayment, h, hd]
  | some data =>
    cases hs : data.success
    · refine ⟨⟨false, none, none, none, some (orText data.error "Payment failed"), some data,
        none⟩, fun fuel => ?_, by simp [hs]⟩
      simp only [processPayment, h, hd, hs, Bool.false_eq_true, if_false]
    · refine ⟨⟨true, data.txId, some (orText data.date isoNow), some "api/transfer/card",
        none, none, none⟩, fun fuel => ?_, by simp [hs]⟩
      simp only [processPayment, h, hd, hs, if_true]

/-- A rejected request that is not retried ends the call with `success: false`. -/
theorem processPayment_final (isoNow cardCode toId amountCoins : String)
    (ledger : Nat → Outcome) (retryCount : Nat) (error : AxiosError)
    (h : ledger 0 = Outcome.rejected error)
    (hno : ¬ (retryCount < 2 ∧ isNetworkError error = true)) :
    ∃ r, (∀ fuel, processPayment isoNow cardCode toId amountCoins (fuel + 1) ledger retryCount =
        some (r, [Effect.post cardCode toId
          ((Math.floor ((Number amountCoins).mul oneE8)).div oneE8) 15000])) ∧
      r.success = false ∧
      (error.response.map (fun r => r.status) = some 404 →
        r.error = some "API endpoint not found. Please contact admin.") ∧
      (error.response.map (fun r => r.status) ≠ some 404 →
        r.error = some (orText ((error.response.bind (fun r => r.data)).bind (fun d => d.error))
          (orText (some error.message) "Network error"))) := by
  by_cases h404 : error.response.map (fun r => r.status) = some 404
  · refine ⟨⟨false, none, none, none, some "API endpoint not found. Please contact admin.",
      none, some 404⟩, fun fuel => ?_, rfl, fun _ => rfl, fun hne => absurd h404 hne⟩
    simp only [processPayment, h, if_neg hno, if_pos h404]
  · refine ⟨⟨false, none, none, none,
      some (orText ((error.response.bind (fun r => r.data)).bind (fun d => d.error))
        (orText (some error.message) "Network error")),
      none, error.response.map (fun r => r.status)⟩, fun fuel => ?_, rfl,
      fun h => absurd h h404, fun _ => rfl⟩
    simp only [processPayment, h, if_neg hno, if_neg h404]

/-- A rejected request that is retried: a wait, then the call again. -/
theorem processPayment_retry (isoNow cardCode toId amountCoins : String) (fuel : Nat)
    (ledger : Nat → Outcome) (retryCount : Nat) (error : AxiosError)
    (h : ledger 0 = Outcome.rejected error)
    (hyes : retryCount < 2 ∧ isNetworkError error = true) :
    processPayment isoNow cardCode toId amountCoins (fuel + 1) ledger retryCount =
      (processPayment isoNow cardCode toId amountCoins fuel (fun k => ledger (k + 1))
          (retryCount + 1)).map
        (fun r => (r.1, Effect.post cardCode toId
          ((Math.floor ((Number amountCoins).mul oneE8)).div oneE8) 15000 ::
          Effect.sleep (1000 * (retryCount + 1)) :: r.2)) := by
  simp only [processPayment, h, if_pos hyes]

/-- A non-empty text is truthy. -/
theorem orText_some (e d : String) (h : e ≠ "") : orText (some e) d = e := by
  simp [orText, Option.filter, h]

/-- The empty text is falsy. -/
theorem orText_empty (d : String) : orText (some "") d = d := by
  simp [orText, Option.filter]

/-- C11, as the code has it. For every call of `processPayment` (any
`retryCount`) whose request the ledger answers with an error response (a
status outside 200..299, so that axios rejects) carrying a body with the
field `error = e`, the request not having timed out: the call makes this one
request and no other, and returns `success: false`; the returned `error` is `e`
when the status is not 404 and `e` is not empty; for the status 404 it is the
fixed text 'API endpoint not found. Please contact admin.', and for an empty
`e` (status not 404) it is the message of the axios error. -/
theorem error_response_not_retried (isoNow cardCode toId amountCoins : String) (fuel : Nat)
    (ledger : Nat → Outcome) (retryCount : Nat) (message : String) (code : Option String)
    (status : Nat) (body : LedgerBody) (e : String)
    (hanswer : ledger 0 = Outcome.rejected ⟨message, code, some ⟨status, some body⟩⟩)
    (herror : body.error = some e) (hcode : code ≠ some "ECONNABORTED") :
    ∃ r, processPayment isoNow cardCode toId amountCoins (fuel + 1) ledger retryCount =
        some (r, [Effect.post cardCode toId
          ((Math.floor ((Number amountCoins).mul oneE8)).div oneE8) 15000]) ∧
      r.success = false ∧
      (status ≠ 404 → e ≠ "" → r.error = some e) ∧
      (status = 404 → r.error = some "API endpoint not found. Please contact admin.") ∧
      (status ≠ 404 → e = "" → r.error = some (orText (some message) "Network error")) := by
  have hno : ¬ (retryCount < 2 ∧
      isNetworkError ⟨message, code, some ⟨status, some body⟩⟩ = true) := by
    simp [isNetworkError, hcode]
  obtain ⟨r, hr, hs, h404, hother⟩ :=
    processPayment_final isoNow cardCode toId amountCoins ledger retryCount _ hanswer hno
  refine ⟨r, hr fuel, hs, fun hst he => ?_, fun hst => ?_, fun hst he => ?_⟩
  · rw [hother (by simpa using hst)]
    simp only [Option.some_bind, herror, orText_some e _ he]
  · exact h404 (by simp [hst])
  · rw [hother (by simpa using hst)]
    simp only [Option.some_bind, herror, he, orText_empty]

/-- Witness of C11 as amended: the ledger answers 400 with
`error: 'Insufficient funds'`. -/
theorem error_response_not_retried_witness :
    ∃ r, processPayment "2026-01-01T00:00:00.000Z" "CARD-B" "A" "2.50000000" 1
        (fun _ => Outcome.rejected ⟨"Request failed with status code 400",
          some "ERR_BAD_REQUEST", some ⟨400, some ⟨false, none, none, some "Insufficient funds"⟩⟩⟩)
        0 =
        some (r, [Effect.post "CARD-B" "A"
          ((Math.floor ((Number "2.50000000").mul oneE8)).div oneE8) 15000]) ∧
      r.success = false ∧
      ((400 : Nat) ≠ 404 → "Insufficient funds" ≠ "" → r.error = some "Insufficient funds") ∧
      ((400 : Nat) = 404 → r.error = some "API endpoint not found. Please contact admin.") ∧
      ((400 : Nat) ≠ 404 → "Insufficient funds" = "" →
        r.error = some (orText (some "Request failed with status code 400") "Network error")) :=
  error_response_not_retried "2026-01-01T00:00:00.000Z" "CARD-B" "A" "2.50000000" 0
    (fun _ => Outcome.rejected ⟨"Request failed with status code 400",
      some "ERR_BAD_REQUEST", some ⟨400, some ⟨false, none, none, some "Insufficient funds"⟩⟩⟩)
    0 "Request failed with status code 400" (some "ERR_BAD_REQUEST") 400
    ⟨false, none, none, some "Insufficient funds"⟩ "Insufficient funds" rfl rfl (by decide)

/-- C11 as stated fails for the status 404 and for an empty error text: the
ledger answers 404 with `error: 'Card not found'` (no timeout) and the call
returns the error 'API endpoint not found. Please contact admin.'; it answers
400 with `error: ''` and the call returns the message of the axios error. -/
theorem error_not_verbatim_counterexample :
    (processPayment "2026-01-01T00:00:00.000Z" "CARD-B" "A" "2.50000000" 1
        (fun _ => Outcome.rejected ⟨"Request failed with status code 404",
          some "ERR_BAD_REQUEST", some ⟨404, some ⟨false, none, none, some "Card not found"⟩⟩⟩)
        0).map (fun r => (r.1.success, r.1.error, r.2.length)) =
      some (false, some "API endpoint not found. Please contact admin.", 1) ∧
    some "API endpoint not found. Please contact admin." ≠ some "Card not found" ∧
    (processPayment "2026-01-01T00:00:00.000Z" "CARD-B" "A" "2.50000000" 1
        (fun _ => Outcome.rejected ⟨"Request failed with status code 400",
          some "ERR_BAD_REQUEST", some ⟨400, some ⟨false, none, none, some ""⟩⟩⟩)
        0).map (fun r => (r.1.success, r.1.error, r.2.length)) =
      some (false, some "Request failed with status code 400", 1) ∧
    some "Request failed with status code 400" ≠ some "" := by
  refine ⟨by decide, by decide, by decide, by decide⟩

/-- A request that is not retried ends the call: one request, and
`success: false` when it was rejected. -/
theorem processPayment_single (isoNow cardCode toId amountCoins : String)
    (ledger : Nat → Outcome) (retryCount : Nat)
    (hno : ¬ (retryCount < 2 ∧ (ledger 0).isNetworkFailure = true)) :
    ∃ r, (∀ fuel, processPayment isoNow cardCode toId amountCoins (fuel + 1) ledger retryCount =
        some (r, [Effect.post cardCode toId
          ((Math.floor ((Number amountCoins).mul oneE8)).div oneE8) 15000])) ∧
      ((ledger 0).isNetworkFailure = true → r.success = false) := by
  cases h : ledger 0 with
  | resolved res =>
    obtain ⟨r, hr, _⟩ :=
      processPayment_resolved isoNow cardCode toId amountCoins ledger retryCount res h
    exact ⟨r, hr, fun hf => by simp [Outcome.isNetworkFailure] at hf⟩
  | rejected error =>
    rw [h] at hno
    obtain ⟨r, hr, hs, _⟩ :=
      processPayment_final isoNow cardCode toId amountCoins ledger retryCount error h hno
    exact ⟨r, hr, fun _ => hs⟩

/-- A network failure with retries left: a wait of `1000 * (retryCount + 1)` ms,
then the call again with `retryCount + 1`. -/
theorem processPayment_again (isoNow cardCode toId amountCoins : String) (fuel : Nat)
    (ledger : Nat → Outcome) (retryCount : Nat)
    (hyes : retryCount < 2 ∧ (ledger 0).isNetworkFailure = true) :
    processPayment isoNow cardCode toId amountCoins (fuel + 1) ledger retryCount =
      (processPayment isoNow cardCode toId amountCoins fuel (fun k => ledger (k + 1))
          (retryCount + 1)).map
        (fun r => (r.1, Effect.post cardCode toId
          ((Math.floor ((Number amountCoins).mul oneE8)).div oneE8) 15000 ::
          Effect.sleep (1000 * (retryCount + 1)) :: r.2)) := by
  cases h : ledger 0 with
  | resolved res => rw [h] at hyes; simp [Outcome.isNetworkFailure] at hyes
  | rejected error =>
    rw [h] at hyes
    exact processPayment_retry isoNow cardCode toId amountCoins fuel ledger retryCount error h hyes

/-- C12. A top-level call of `processPayment` (`retryCount = 0`, through
`coinPayByCard`) returns for every sequence of ledger outcomes (fuel 3 is
enough, and more changes nothing). It sends one, two or three requests, with a
wait of 1000 ms before the second and of 2000 ms before the third and no other
wait. The second request is sent exactly when the first one ended in a network
failure (no response received, or a timeout), the third exactly when the first
two did; and when all three end so, the call returns `success: false`. -/
theorem at_most_three_requests (isoNow cardCode toId amountCoins : String)
    (ledger : Nat → Outcome) (fuel : Nat) (hfuel : 3 ≤ fuel) :
    ∃ r effects, coinPayByCard isoNow cardCode toId amountCoins fuel ledger = some (r, effects) ∧
      coinPayByCard isoNow cardCode toId amountCoins 3 ledger = some (r, effects) ∧
      (effects.filter Effect.isPost).length ≤ 3 ∧
      (effects = [Effect.post cardCode toId
          ((Math.floor ((Number amountCoins).mul oneE8)).div oneE8) 15000] ∨
        effects = [Effect.post cardCode toId
          ((Math.floor ((Number amountCoins).mul oneE8)).div oneE8) 15000, Effect.sleep 1000,
          Effect.post cardCode toId
          ((Math.floor ((Number amountCoins).mul oneE8)).div oneE8) 15000] ∨
        effects = [Effect.post cardCode toId
          ((Math.floor ((Number amountCoins).mul oneE8)).div oneE8) 15000, Effect.sleep 1000,
          Effect.post cardCode toId
          ((Math.floor ((Number amountCoins).mul oneE8)).div oneE8) 15000, Effect.sleep 2000,
          Effect.post cardCode toId
          ((Math.floor ((Number amountCoins).mul oneE8)).div oneE8) 15000]) ∧
      (2 ≤ (effects.filter Effect.isPost).length ↔ (ledger 0).isNetworkFailure = true) ∧
      (3 ≤ (effects.filter Effect.isPost).length ↔
        (ledger 0).isNetworkFailure = true ∧ (ledger 1).isNetworkFailure = true) ∧
      ((ledger 0).isNetworkFailure = true → (ledger 1).isNetworkFailure = true →
        (ledger 2).isNetworkFailure = true → r.success = false) := by
  obtain ⟨n, rfl⟩ : ∃ n, fuel = n + 3 := ⟨fuel - 3, by omega⟩
  unfold coinPayByCard
  by_cases h0 : (ledger 0).isNetworkFailure = true
  · rw [processPayment_again isoNow cardCode toId amountCoins (n + 2) ledger 0 ⟨by decide, h0⟩,
      processPayment_again isoNow cardCode toId amountCoins 2 ledger 0 ⟨by decide, h0⟩]
    by_cases h1 : (ledger 1).isNetworkFailure = true
    · rw [processPayment_again isoNow cardCode toId amountCoins (n + 1) _ 1 ⟨by decide, h1⟩,
        processPayment_again isoNow cardCode toId amountCoins 1 _ 1 ⟨by decide, h1⟩]
      obtain ⟨r, hr, hs⟩ := processPayment_single isoNow cardCode toId amountCoins
        (fun k => ledger (k + 1 + 1)) 2 (by simp)
      rw [hr n, hr 0]
      refine ⟨r, _, rfl, rfl, by simp [Effect.isPost], Or.inr (Or.inr rfl),
        by simp [Effect.isPost, h0], by simp [Effect.isPost, h0, h1], fun _ _ h2 => hs h2⟩
    · obtain ⟨r, hr, _⟩ := processPayment_single isoNow cardCode toId amountCoins
        (fun k => ledger (k + 1)) 1 (by simp [h1])
      rw [hr (n + 1), hr 1]
      refine ⟨r, _, rfl, rfl, by simp [Effect.isPost], Or.inr (Or.inl rfl),
        by simp [Effect.isPost, h0], by simp [Effect.isPost, h0, h1],
        fun _ h => absurd h h1⟩
  · obtain ⟨r, hr, _⟩ := processPayment_single isoNow cardCode toId amountCoins
      ledger 0 (by simp [h0])
    rw [hr (n + 2), hr 2]
    exact ⟨r, _, rfl, rfl, by simp [Effect.isPost], Or.inl rfl, by simp [Effect.isPost, h0],
      by simp [Effect.isPost, h0], fun h => absurd h h0⟩

set_option maxRecDepth 10000 in
/-- Witness of C12: a timeout, then no response, then a success: three
requests with waits of 1000 ms and 2000 ms between them. -/
theorem at_most_three_requests_witness :
    3 ≤ 5 ∧
    coinPayByCard "2026-01-01T00:00:00.000Z" "CARD-B" "A" "2.50000000" 5 flakyLedger =
      some (⟨true, some "tx9", some "2026-01-01T00:00:00.000Z", some "api/transfer/card", none,
        none, none⟩,
        [Effect.post "CARD-B" "A" (Num.fin false 5629499534213120 (-51)) 15000, Effect.sleep 1000,
         Effect.post "CARD-B" "A" (Num.fin false 5629499534213120 (-51)) 15000, Effect.sleep 2000,
         Effect.post "CARD-B" "A" (Num.fin false 5629499534213120 (-51)) 15000]) ∧
    ∃ r effects,
      coinPayByCard "2026-01-01T00:00:00.000Z" "CARD-B" "A" "2.50000000" 5 flakyLedger =
        some (r, effects) ∧
      coinPayByCard "2026-01-01T00:00:00.000Z" "CARD-B" "A" "2.50000000" 3 flakyLedger =
        some (r, effects) ∧
      (effects.filter Effect.isPost).length ≤ 3 :=
  ⟨by decide, by decide,
    (at_most_three_requests "2026-01-01T00:00:00.000Z" "CARD-B" "A" "2.50000000" flakyLedger 5
      (by decide)).imp fun _ h => h.imp fun _ h => ⟨h.1, h.2.1, h.2.2.1⟩⟩

/-! ## `/additem`, uploads and the stock -/

/-- The `/additem` listener, case by case: it stores a pending upload exactly
when neither `priceSats <= 0` nor `amount <= 0` holds. -/
theorem additemCommand_cases (userId name priceCoins : String) (amount : Int) (now : Nat)
    (b : Bot) :
    (((toSats priceCoins).leZero = true ∨ amount ≤ 0) ∧
      additemCommand userId name priceCoins amount now b = (b, AddItemReply.invalid)) ∨
    ((toSats priceCoins).leZero = false ∧ 0 < amount ∧
      additemCommand userId name priceCoins amount now b =
        ({ b with
            db := ensureUser userId now b.db
            pendingItemUploads := b.pendingItemUploads.set userId
              ⟨name, toSats priceCoins, amount, now + ADD_ITEM_TIMEOUT_MS⟩ },
          AddItemReply.sendFile)) := by
  unfold additemCommand
  by_cases h : (toSats priceCoins).leZero = true ∨ amount ≤ 0
  · left
    refine ⟨h, ?_⟩
    rw [if_pos]
    simpa using h
  · right
    have h1 : (toSats priceCoins).leZero = false := by
      cases hz : (toSats priceCoins).leZero
      · rfl
      · exact absurd (Or.inl hz) h
    have h2 : 0 < amount := by
      by_contra hc
      exact h (Or.inr (not_lt.1 hc))
    refine ⟨h1, h2, ?_⟩
    rw [if_neg]
    simpa using h

theorem ensureUser_items (id : String) (now : Nat) (db : Db) :
    (ensureUser id now db).items = db.items := rfl

/-- The upload listener either leaves the state as it is or appends one row,
made from the author's pending upload, and forgets that pending upload. -/
theorem uploadHandler_cases (m : Message) (b : Bot) :
    (uploadHandler m b).1 = b ∨
    ∃ pending file buffer, b.pendingItemUploads m.authorId = some pending ∧
      m.attachments.head? = some file ∧ m.download = some buffer ∧
      (uploadHandler m b).2 = UploadReply.added pending.name ∧
      (uploadHandler m b).1 =
        { b with
          db := { b.db with items := b.db.items ++ [uploadRow m pending file buffer] }
          pendingItemUploads := b.pendingItemUploads.delete m.authorId } := by
  unfold uploadHandler
  split
  · exact Or.inl rfl
  · split
    · rename_i pending file hp hf
      split
      · exact Or.inl rfl
      · split
        · exact Or.inl rfl
        · split
          · exact Or.inl rfl
          · rename_i buffer hb
            by_cases hany : b.db.items.any (fun j => j.id = (uploadRow m pending file buffer).id)
            · left
              have hins : insertItem b.db.items (uploadRow m pending file buffer) =
                  (b.db.items, false) := by
                unfold insertItem
                rw [if_pos hany]
              simp only [hins, Bool.false_eq_true, if_false]
            · right
              have hins : insertItem b.db.items (uploadRow m pending file buffer) =
                  (b.db.items ++ [uploadRow m pending file buffer], true) := by
                unfold insertItem
                rw [if_neg hany]
              refine ⟨pending, file, buffer, hp, hf, hb, ?_, ?_⟩ <;> simp only [hins, if_true]
    · exact Or.inl rfl

/-- After a commit that found a unit, a row of the sold item is gone when it
held the last unit and has one unit less otherwise. -/
theorem sold_rows (items : List Item) (id : String) (h : ∀ i ∈ items, 1 ≤ i.amount) :
    deleteSoldOut (updateDecrementStock items id).1 id =
      items.filterMap (fun i =>
        if i.id = id then (if i.amount = 1 then none else some { i with amount := i.amount - 1 })
        else some i) := by
  induction items with
  | nil => rfl
  | cons i rest ih =>
    have hi : 1 ≤ i.amount := h i (List.mem_cons_self _ _)
    have ih2 := ih (fun j hj => h j (List.mem_cons_of_mem _ hj))
    simp only [deleteSoldOut, updateDecrementStock, List.map_cons] at ih2 ⊢
    by_cases hid : i.id = id
    · have hpos : 0 < i.amount := by omega
      by_cases h1 : i.amount = 1
      · simp only [hid, hpos, and_self, if_true, h1, List.filterMap_cons]
        rw [List.filter_cons_of_neg (by simp [hid, h1])]
        exact ih2
      · simp only [hid, hpos, and_self, if_true, h1, if_false, List.filterMap_cons]
        rw [List.filter_cons_of_pos (by simp [hid]; omega)]
        rw [ih2]
    · simp only [hid, false_and, if_false, List.filterMap_cons]
      rw [List.filter_cons_of_pos (by simp [hid])]
      rw [ih2]

set_option maxRecDepth 10000 in
/-- C13 fails on the code. The `/additem` listener rejects an input exactly
when `priceSats <= 0` or `amount <= 0` holds, and `NaN <= 0` is false: for the
price "abc" (`toSats` gives NaN, not a positive integer) and the amount 1 it
answers 'Send the file now' and stores a pending upload with `priceSats = NaN`,
and the upload that follows creates an item whose `price_sats` is NULL. The
price "Infinity" (`toSats` gives `Infinity`) is accepted in the same way, and the
item created has the price `Infinity`. -/
theorem additem_nan_price_accepted :
    (∀ (userId name priceCoins : String) (amount : Int) (now : Nat) (b : Bot),
      (additemCommand userId name priceCoins amount now b).2 = AddItemReply.invalid ↔
        ((toSats priceCoins).leZero = true ∨ amount ≤ 0)) ∧
    (toSats "abc" = Num.nan ∧ Num.leZero Num.nan = false ∧
      (additemCommand "A" "Widget" "abc" 1 1000 emptyBot).2 = AddItemReply.sendFile ∧
      (additemCommand "A" "Widget" "abc" 1 1000 emptyBot).1.pendingItemUploads "A" =
        some ⟨"Widget", Num.nan, 1, 1000 + ADD_ITEM_TIMEOUT_MS⟩ ∧
      uploadHandler widgetUpload (additemCommand "A" "Widget" "abc" 1 1000 emptyBot).1 =
        ({ (additemCommand "A" "Widget" "abc" 1 1000 emptyBot).1 with
            db := ⟨[⟨"A", none, 1000⟩], [⟨"A", 0, 0, 0⟩],
              [⟨"i9", "A", "Widget", "w.png", SqlNum.null, 3, 1, [1, 2, 3], 2001⟩], [], []⟩
            pendingItemUploads :=
              (additemCommand "A" "Widget" "abc" 1 1000 emptyBot).1.pendingItemUploads.delete
                "A" },
          UploadReply.added "Widget")) ∧
    (toSats "Infinity" = Num.inf false ∧
      (additemCommand "A" "Widget" "Infinity" 1 1000 emptyBot).2 = AddItemReply.sendFile ∧
      (additemCommand "A" "Widget" "Infinity" 1 1000 emptyBot).1.pendingItemUploads "A" =
        some ⟨"Widget", Num.inf false, 1, 1000 + ADD_ITEM_TIMEOUT_MS⟩ ∧
      ((uploadHandler widgetUpload
        (additemCommand "A" "Widget" "Infinity" 1 1000 emptyBot).1).1.db.items.map
          (fun i => i.price_sats)) = [SqlNum.real (Num.inf false)]) := by
  refine ⟨fun userId name priceCoins amount now b => ?_, ?_, ?_⟩
  · rcases additemCommand_cases userId name priceCoins amount now b with
      ⟨h, heq⟩ | ⟨h1, h2, heq⟩
    · rw [heq]; exact ⟨fun _ => h, fun _ => rfl⟩
    · rw [heq]
      refine ⟨fun hc => absurd hc (by simp), fun hc => ?_⟩
      rcases hc with hc | hc
      · rw [h1] at hc; exact absurd hc (by simp)
      · omega
  · have hnan : toSats "abc" = Num.nan := by decide
    refine ⟨hnan, rfl, by decide, by decide, ?_⟩
    simp only [additemCommand, hnan]
    rfl
  · have hinf : toSats "Infinity" = Num.inf false := by decide
    refine ⟨hinf, by decide, by decide, ?_⟩
    simp only [additemCommand, hinf]
    rfl

/-- The rows left by `/remove` are rows of the table before. -/
theorem removeCommand_items (userId : String) (number : Int) (db : Db) :
    ∀ i ∈ (removeCommand userId number db).1.items, i ∈ db.items := by
  intro i hi
  unfold removeCommand at hi
  split at hi
  · exact hi
  · dsimp only at hi
    split at hi
    · exact hi
    · split at hi
      · exact hi
      · split at hi <;> exact List.mem_of_mem_filter hi

/-- The end of a purchase attempt whose payment went through, for a store in
which every row has a unit: either a sale is recorded and the rows of the sold
item lose a unit (the row is gone when that was its last), or 'Item sold out'
is answered and the rows are as before. -/
theorem finishSale_items (s : State) (sale : Sale) (charges : List Charge)
    (h : StockPositive s.db) :
    ((finishSale s sale charges).sale = some sale ∧
      (finishSale s sale charges).reply = receipt sale ∧
      (finishSale s sale charges).state.db.items = s.db.items.filterMap (fun i =>
        if i.id = sale.item.id then
          (if i.amount = 1 then none else some { i with amount := i.amount - 1 })
        else some i)) ∨
    ((finishSale s sale charges).sale = none ∧
      (finishSale s sale charges).reply = Reply.soldOut ∧
      (finishSale s sale charges).state.db.items = s.db.items) := by
  by_cases hit : ∃ i ∈ s.db.items, i.id = sale.item.id ∧ 0 < i.amount
  · left
    simp only [finishSale, commitSale_hit sale s.db hit, receipt_ne_soldOut, if_false,
      sold_rows s.db.items sale.item.id h, and_self]
  · right
    simp only [finishSale, commitSale_miss sale s.db hit, if_true, and_self]

/-- A purchase attempt, for a store in which every row has a unit: either a
sale is recorded and the rows of the sold item lose a unit (the row is gone when
that was its last), or no sale is recorded and the rows are as before. -/
theorem buyModal_items (env : Env) (f : BuyForm) (s : State) (h : StockPositive s.db) :
    (∃ sale, (buyModal env f s).sale = some sale ∧
      (buyModal env f s).state.db.items = s.db.items.filterMap (fun i =>
        if i.id = sale.item.id then
          (if i.amount = 1 then none else some { i with amount := i.amount - 1 })
        else some i)) ∨
    ((buyModal env f s).sale = none ∧ (buyModal env f s).state.db.items = s.db.items) := by
  rcases buyModal_cases env f s with ⟨_, heq⟩ | ⟨_, _, _, _, _, heq⟩ |
    ⟨_, _, _, _, _, _, _, _, _, _, heq⟩
  · right; rw [heq]; exact ⟨rfl, rfl⟩
  · right; rw [heq]; exact ⟨rfl, rfl⟩
  · rw [heq]
    rcases finishSale_items s _ _ h with ⟨h1, _, h3⟩ | ⟨h1, _, h3⟩
    · exact Or.inl ⟨_, h1, h3⟩
    · exact Or.inr ⟨h1, h3⟩

/-- Rows that lose a unit, the last-unit rows being dropped, still have a unit. -/
theorem stockPositive_filterMap (items : List Item) (id : String)
    (h : ∀ i ∈ items, 1 ≤ i.amount) :
    ∀ j ∈ items.filterMap (fun i =>
        if i.id = id then
          (if i.amount = 1 then none else some { i with amount := i.amount - 1 })
        else some i), 1 ≤ j.amount := by
  intro j hj
  obtain ⟨i, hi, hij⟩ := List.mem_filterMap.1 hj
  have h1 := h i hi
  by_cases hid : i.id = id
  · by_cases ha : i.amount = 1
    · simp [hid, ha] at hij
    · simp only [hid, if_true, ha, if_false, Option.some.injEq] at hij
      rw [← hij]
      show 1 ≤ i.amount - 1
      omega
  · simp only [hid, if_false, Option.some.injEq] at hij
    rw [← hij]
    exact h1

/-- Every operation keeps the stock and the pending uploads positive. -/
theorem positive_run (b : Bot) (op : Op) (h : StockPositive b.db)
    (hp : PendingPositive b.pendingItemUploads) :
    StockPositive (Op.run b op).db ∧ PendingPositive (Op.run b op).pendingItemUploads := by
  cases op with
  | additem userId name priceCoins amount now =>
    simp only [Op.run]
    rcases additemCommand_cases userId name priceCoins amount now b with ⟨_, heq⟩ | ⟨_, hamt, heq⟩
    · rw [heq]; exact ⟨h, hp⟩
    · rw [heq]
      refine ⟨h, fun u p hu => ?_⟩
      simp only [Uploads.set] at hu
      split at hu
      · simp only [Option.some.injEq] at hu
        rw [← hu]
        show 1 ≤ amount
        omega
      · exact hp u p hu
  | upload m =>
    simp only [Op.run]
    rcases uploadHandler_cases m b with heq | ⟨pending, file, buffer, hpend, _, _, _, heq⟩
    · rw [heq]; exact ⟨h, hp⟩
    · rw [heq]
      refine ⟨fun i hi => ?_, fun u p hu => ?_⟩
      · rcases List.mem_append.1 hi with hi | hi
        · exact h i hi
        · rw [List.mem_singleton.1 hi]
          exact hp _ _ hpend
      · simp only [Uploads.delete] at hu
        split at hu
        · exact absurd hu (by simp)
        · exact hp u p hu
  | remove userId number =>
    exact ⟨fun i hi => h i (removeCommand_items userId number b.db i hi), hp⟩
  | buy env f =>
    refine ⟨?_, hp⟩
    show StockPositive (buyModal env f b.toState).state.db
    rcases buyModal_items env f b.toState h with ⟨sale, _, heq⟩ | ⟨_, heq⟩
    · intro i hi
      rw [heq] at hi
      exact stockPositive_filterMap _ _ h i hi
    · intro i hi
      rw [heq] at hi
      exact h i hi
  | commit sale charges =>
    refine ⟨?_, hp⟩
    show StockPositive (finishSale b.toState sale charges).state.db
    rcases finishSale_items b.toState sale charges h with ⟨_, _, heq⟩ | ⟨_, _, heq⟩
    · intro i hi
      rw [heq] at hi
      exact stockPositive_filterMap _ _ h i hi
    · intro i hi
      rw [heq] at hi
      exact h i hi
  | sweep now =>
    refine ⟨h, fun u p hu => ?_⟩
    simp only [Op.run, sweepUploads] at hu
    cases hm : b.pendingItemUploads u with
    | none => rw [hm] at hu; exact absurd hu (by simp)
    | some q =>
      rw [hm] at hu
      have hq : p = q := by
        simp only [Option.filter] at hu
        split at hu
        · exact (Option.some.inj hu).symm
        · exact absurd hu (by simp)
      rw [hq]
      exact hp u q hm

/-- Every sequence of operations keeps the stock and the pending uploads positive. -/
theorem positive_runOps (ops : List Op) :
    ∀ b : Bot, StockPositive b.db → PendingPositive b.pendingItemUploads →
      StockPositive (runOps b ops).db ∧ PendingPositive (runOps b ops).pendingItemUploads := by
  induction ops with
  | nil => exact fun b h hp => ⟨h, hp⟩
  | cons op rest ih =>
    intro b h hp
    exact ih (Op.run b op) (positive_run b op h hp).1 (positive_run b op h hp).2

/-- C14. Start from a store in which every item row has `amount >= 1` (and
every pending upload, if any, is for at least one unit: the map is empty when
the bot starts). After any sequence of completed operations (`/additem`, file
uploads, `/remove`, purchase attempts, commits of attempts paid earlier, sweeps
of the pending uploads) every item row has `amount >= 1`. In the state reached,
a purchase attempt that records a sale leaves the rows of the sold item with
one unit less and deletes the row that held its last unit, every other row
being kept as it was; an attempt that records no sale leaves the rows as they
were. -/
theorem stock_stays_positive (b : Bot) (ops : List Op)
    (hitems : ∀ i ∈ b.db.items, 1 ≤ i.amount)
    (hpending : ∀ u p, b.pendingItemUploads u = some p → 1 ≤ p.amount) :
    (∀ i ∈ (runOps b ops).db.items, 1 ≤ i.amount) ∧
    (∀ env f,
      (∃ sale, (buyModal env f (runOps b ops).toState).sale = some sale ∧
        (buyModal env f (runOps b ops).toState).state.db.items =
          (runOps b ops).db.items.filterMap (fun i =>
            if i.id = sale.item.id then
              (if i.amount = 1 then none else some { i with amount := i.amount - 1 })
            else some i)) ∨
      ((buyModal env f (runOps b ops).toState).sale = none ∧
        (buyModal env f (runOps b ops).toState).state.db.items = (runOps b ops).db.items)) ∧
    (∀ sale charges,
      ((finishSale (runOps b ops).toState sale charges).sale = some sale ∧
        (finishSale (runOps b ops).toState sale charges).state.db.items =
          (runOps b ops).db.items.filterMap (fun i =>
            if i.id = sale.item.id then
              (if i.amount = 1 then none else some { i with amount := i.amount - 1 })
            else some i)) ∨
      ((finishSale (runOps b ops).toState sale charges).sale = none ∧
        (finishSale (runOps b ops).toState sale charges).state.db.items =
          (runOps b ops).db.items)) := by
  have hpos := (positive_runOps ops b hitems hpending).1
  refine ⟨hpos, fun env f => buyModal_items env f _ hpos, fun sale charges => ?_⟩
  rcases finishSale_items (runOps b ops).toState sale charges hpos with ⟨h1, _, h3⟩ | ⟨h1, _, h3⟩
  · exact Or.inl ⟨h1, h3⟩
  · exact Or.inr ⟨h1, h3⟩

set_option maxRecDepth 10000 in
/-- Witness of C14: an item is announced and uploaded, the last `gadget` is
sold (its row goes), the first item is removed and an announcement with no unit
is refused; the rows left have a unit each. -/
theorem stock_stays_positive_witness :
    (∀ i ∈ shopBot.db.items, 1 ≤ i.amount) ∧
    (∀ i ∈ (runOps shopBot shopOps).db.items, 1 ≤ i.amount) ∧
    (runOps shopBot (shopOps.take 3)).db.items =
      [widget, ⟨"i9", "A", "Gizmo", "gizmo.bin", 50000000, 3, 2, [4, 5, 6], 1601⟩] ∧
    (runOps shopBot shopOps).db.items =
      [⟨"i9", "A", "Gizmo", "gizmo.bin", 50000000, 3, 2, [4, 5, 6], 1601⟩] :=
  ⟨by decide,
    (stock_stays_positive shopBot shopOps (by decide) (fun _ _ h => by simp [shopBot] at h)).1,
    by decide, by decide⟩

/-! ## Page clicks -/

/-- A view that has just been refreshed is live. -/
theorem liveView_set_self (m : Views) (k : String) (v : View) (now : Nat)
    (h : ¬ v.expires < now) : liveView (m.set k v) k now = some v := by
  simp [liveView, Views.set, Option.filter, h]

/-- The listener `buttonHandler` on a page click with a live session: the page
moves by one (not below 0) and the session expires `SHOP_CONTEXT_TTL` later. -/
theorem buttonHandler_page (env : Env) (c : Click) (s : State) (v : View)
    (hid : c.customId = "shop_prev" ∨ c.customId = "shop_next")
    (h : liveView s.shopViews c.userId c.now = some v) :
    (buttonHandler env c s).1 =
      { s with shopViews := (s.shopViews.set c.userId
          ⟨v.ownerId, if c.customId = "shop_prev" then max 0 (v.page - 1) else v.page + 1,
            c.now + SHOP_CONTEXT_TTL⟩) } := by
  have hp : ("open_shop_".toList.isPrefixOf c.customId.toList) = false := by
    rcases hid with h | h <;> rw [h] <;> decide
  unfold buttonHandler
  rw [h]
  simp only [hp, Bool.false_eq_true, if_false]
  rcases hid with hc | hc
  · simp only [hc, if_true]
  · have hne : ¬ ("shop_next" = "shop_prev") := by decide
    simp only [hc, hne, if_false, if_true]

/-- The listener `paginationHandler` on a page click with a live session. -/
theorem paginationHandler_page (c : Click) (s : State) (v : View)
    (hid : c.customId = "shop_prev" ∨ c.customId = "shop_next")
    (h : liveView s.shopViews c.userId c.now = some v) :
    (paginationHandler c s).1 =
      { s with shopViews := (s.shopViews.set c.userId
          ⟨v.ownerId, if c.customId = "shop_prev" then max 0 (v.page - 1) else v.page + 1,
            c.now + SHOP_CONTEXT_TTL⟩) } := by
  unfold paginationHandler
  rw [h]
  rcases hid with hc | hc
  · simp only [hc, if_true]
  · have hne : ¬ ("shop_next" = "shop_prev") := by decide
    simp only [hc, hne, if_false, if_true]

/-- On a page click the `shop_buy` listener and the second `open_shop_`
listener return at once: the click goes through `buttonHandler`, then through
`paginationHandler`. -/
theorem dispatchButton_page (env : Env) (c : Click) (s : State)
    (hid : c.customId = "shop_prev" ∨ c.customId = "shop_next") :
    dispatchButton env c s = (paginationHandler c (buttonHandler env c s).1).1 := by
  have hp : ("open_shop_".toList.isPrefixOf c.customId.toList) = false := by
    rcases hid with h | h <;> rw [h] <;> decide
  have hb : c.customId ≠ "shop_buy" := by
    rcases hid with h | h <;> rw [h] <;> decide
  simp only [dispatchButton, openShopListener, buyButtonHandler, hp, Bool.false_eq_true,
    if_false, hb, ne_eq, not_false_eq_true, if_true]

theorem Views.set_set (m : Views) (k : String) (v w : View) : (m.set k v).set k w = m.set k w := by
  funext k2
  simp only [Views.set]
  split <;> rfl

/-- A page click with a live session, through every listener: both page
listeners move the page. -/
theorem dispatchButton_live (env : Env) (c : Click) (s : State) (v : View)
    (hid : c.customId = "shop_prev" ∨ c.customId = "shop_next")
    (h : liveView s.shopViews c.userId c.now = some v) :
    dispatchButton env c s =
      { s with shopViews := (s.shopViews.set c.userId
          ⟨v.ownerId,
            if c.customId = "shop_prev" then max 0 (max 0 (v.page - 1) - 1) else v.page + 1 + 1,
            c.now + SHOP_CONTEXT_TTL⟩) } := by
  rw [dispatchButton_page env c s hid, buttonHandler_page env c s v hid h]
  have hlive : liveView
      ({ s with shopViews := (s.shopViews.set c.userId
          ⟨v.ownerId, if c.customId = "shop_prev" then max 0 (v.page - 1) else v.page + 1,
            c.now + SHOP_CONTEXT_TTL⟩) } : State).shopViews c.userId c.now =
      some ⟨v.ownerId, if c.customId = "shop_prev" then max 0 (v.page - 1) else v.page + 1,
        c.now + SHOP_CONTEXT_TTL⟩ :=
    liveView_set_self _ _ _ _ (by simp)
  rw [paginationHandler_page c _ _ hid hlive]
  simp only [Views.set_set]
  rcases hid with hc | hc
  · simp only [hc, if_true]
  · have hne : ¬ ("shop_next" = "shop_prev") := by decide
    simp only [hc, hne, if_false]

theorem Views.delete_delete (m : Views) (k : String) : (m.delete k).delete k = m.delete k := by
  funext k2
  simp only [Views.delete]
  split <;> rfl

theorem liveView_delete_self (m : Views) (k : String) (now : Nat) :
    liveView (m.delete k) k now = none := by
  simp [liveView, Views.delete]

/-- A page click on a missing or expired session, through every listener: the
session is removed and nothing else changes. -/
theorem dispatchButton_expired (env : Env) (c : Click) (s : State)
    (hid : c.customId = "shop_prev" ∨ c.customId = "shop_next")
    (h : liveView s.shopViews c.userId c.now = none) :
    dispatchButton env c s = { s with shopViews := s.shopViews.delete c.userId } := by
  rw [dispatchButton_page env c s hid,
    buttonHandler_expired env c s (by rcases hid with h | h; exact Or.inl h; exact Or.inr (Or.inl h)) h,
    paginationHandler_expired c _ (liveView_delete_self _ _ _)]
  simp only [Views.delete_delete]

theorem liveView_of_ne_none (m : Views) (k : String) (v : View) (now : Nat)
    (hv : m k = some v) (h : liveView m k now ≠ none) : liveView m k now = some v := by
  simp only [liveView, hv, Option.filter] at h ⊢
  split
  · rfl
  · rename_i hc
    rw [if_neg hc] at h
    exact absurd rfl h

/-- A sequence of page clicks made while the session is live keeps the session,
its owner and a page that is not negative. -/
theorem runButtons_page (clicks : List (Env × Click)) :
    ∀ (s : State) (u : String) (v : View), s.shopViews u = some v → 0 ≤ v.page →
      PageClicks u s clicks →
      ∃ w, (runButtons s clicks).shopViews u = some w ∧ w.ownerId = v.ownerId ∧ 0 ≤ w.page ∧
        ∀ a, clicks.getLast? = some a → w.expires = a.2.now + SHOP_CONTEXT_TTL := by
  induction clicks with
  | nil =>
    intro s u v hv hp _
    exact ⟨v, hv, rfl, hp, fun a ha => by simp at ha⟩
  | cons a rest ih =>
    intro s u v hv hp hc
    obtain ⟨hu, hid, hlive, hrest⟩ := hc
    have hl : liveView s.shopViews a.2.userId a.2.now = some v := by
      rw [hu]
      exact liveView_of_ne_none _ _ _ _ hv hlive
    have hd := dispatchButton_live a.1 a.2 s v hid hl
    have hv1 : (dispatchButton a.1 a.2 s).shopViews u =
        some ⟨v.ownerId, if a.2.customId = "shop_prev" then max 0 (max 0 (v.page - 1) - 1)
          else v.page + 1 + 1, a.2.now + SHOP_CONTEXT_TTL⟩ := by
      rw [hd, ← hu]
      exact Views.set_self _ _ _
    have hp1 : (0 : Int) ≤ (if a.2.customId = "shop_prev" then max 0 (max 0 (v.page - 1) - 1)
        else v.page + 1 + 1) := by
      split
      · exact le_max_left _ _
      · omega
    obtain ⟨w, hw, howner, hpage, hexp⟩ := ih (dispatchButton a.1 a.2 s) u _ hv1 hp1 hrest
    refine ⟨w, hw, howner, hpage, fun b hb => ?_⟩
    cases rest with
    | nil =>
      simp only [List.getLast?_singleton, Option.some.injEq] at hb
      simp only [runButtons] at hw
      rw [hv1] at hw
      rw [← hb, ← Option.some.inj hw]
    | cons r rest2 =>
      rw [List.getLast?_cons_cons] at hb
      exact hexp b hb

/-- C15. For a browse session with a page that is not negative (sessions start
at page 0) and every finite sequence of `shop_prev` / `shop_next` clicks of its
viewer, each made while the session is live and each dispatched to every
listener: after the sequence the session is still there, for the same shop,
with a page `>= 0` and, when there was a click, with `expires` equal to the time
of the last click plus `SHOP_CONTEXT_TTL` (15 min). For one such click on a
live session at page `p`, handled at time `t`: each of the two page listeners
stores the page `max 0 (p - 1)` for `shop_prev` and `p + 1` for `shop_next`
(whatever `p` is: there is no upper clamp) with `expires = t + 15 min`; after
all listeners `expires` is `t + 15 min`, a `shop_prev` at page 0 leaves the page
at 0 and a `shop_next` leaves it above `p`. A click on a missing or expired
session removes the session (each page listener does) and changes no other
session, hence no page. -/
theorem page_clicks_session (s : State) (u : String) (v : View) (clicks : List (Env × Click))
    (hview : s.shopViews u = some v) (hpage : 0 ≤ v.page) (hclicks : PageClicks u s clicks) :
    (∃ w, (runButtons s clicks).shopViews u = some w ∧ w.ownerId = v.ownerId ∧ 0 ≤ w.page ∧
      ∀ a, clicks.getLast? = some a → w.expires = a.2.now + SHOP_CONTEXT_TTL) ∧
    (∀ (env : Env) (c : Click) (t : State) (w : View),
      c.customId = "shop_prev" ∨ c.customId = "shop_next" →
      liveView t.shopViews c.userId c.now = some w →
      (buttonHandler env c t).1.shopViews c.userId =
        some ⟨w.ownerId, if c.customId = "shop_prev" then max 0 (w.page - 1) else w.page + 1,
          c.now + SHOP_CONTEXT_TTL⟩ ∧
      (paginationHandler c t).1.shopViews c.userId =
        some ⟨w.ownerId, if c.customId = "shop_prev" then max 0 (w.page - 1) else w.page + 1,
          c.now + SHOP_CONTEXT_TTL⟩ ∧
      ∃ w2, (dispatchButton env c t).shopViews c.userId = some w2 ∧ w2.ownerId = w.ownerId ∧
        w2.expires = c.now + SHOP_CONTEXT_TTL ∧ (0 ≤ w.page → 0 ≤ w2.page) ∧
        (c.customId = "shop_prev" → w.page = 0 → w2.page = 0) ∧
        (c.customId = "shop_next" → w.page < w2.page)) ∧
    (∀ (env : Env) (c : Click) (t : State),
      c.customId = "shop_prev" ∨ c.customId = "shop_next" →
      liveView t.shopViews c.userId c.now = none →
      (buttonHandler env c t).1 = { t with shopViews := t.shopViews.delete c.userId } ∧
      (paginationHandler c t).1 = { t with shopViews := t.shopViews.delete c.userId } ∧
      (dispatchButton env c t).shopViews c.userId = none ∧
      (∀ k, k ≠ c.userId → (dispatchButton env c t).shopViews k = t.shopViews k) ∧
      (dispatchButton env c t).db = t.db) := by
  refine ⟨runButtons_page clicks s u v hview hpage hclicks, fun env c t w hid hl => ?_,
    fun env c t hid hl => ?_⟩
  · refine ⟨?_, ?_, ?_⟩
    · rw [buttonHandler_page env c t w hid hl]
      exact Views.set_self _ _ _
    · rw [paginationHandler_page c t w hid hl]
      exact Views.set_self _ _ _
    · rw [dispatchButton_live env c t w hid hl]
      refine ⟨_, Views.set_self _ _ _, rfl, rfl, fun h0 => ?_, fun hprev h0 => ?_,
        fun hnext => ?_⟩
      · show (0 : Int) ≤ (if c.customId = "shop_prev" then max 0 (max 0 (w.page - 1) - 1)
          else w.page + 1 + 1)
        split
        · exact le_max_left _ _
        · omega
      · show (if c.customId = "shop_prev" then max 0 (max 0 (w.page - 1) - 1)
          else w.page + 1 + 1) = 0
        rw [if_pos hprev, h0]
        decide
      · show w.page < (if c.customId = "shop_prev" then max 0 (max 0 (w.page - 1) - 1)
          else w.page + 1 + 1)
        have hne : ¬ ("shop_next" = "shop_prev") := by decide
        rw [hnext, if_neg hne]
        omega
  · have hb := buttonHandler_expired env c t
      (by rcases hid with h | h; exact Or.inl h; exact Or.inr (Or.inl h)) hl
    refine ⟨by rw [hb], by rw [paginationHandler_expired c t hl], ?_, fun k hk => ?_, ?_⟩
    · rw [dispatchButton_expired env c t hid hl]
      exact Views.delete_self _ _
    · rw [dispatchButton_expired env c t hid hl]
      simp [Views.delete, hk]
    · rw [dispatchButton_expired env c t hid hl]

/-- Witness of C15: from page 0, next then previous twice: the session stays,
at page 0, and expires 15 min after the last click. -/
theorem page_clicks_session_witness :
    (demoState.shopViews "B" = some ⟨"A", 0, 1000 + SHOP_CONTEXT_TTL⟩ ∧ (0 : Int) ≤ 0 ∧
      PageClicks "B" demoState pageClicks) ∧
    (runButtons demoState pageClicks).shopViews "B" = some ⟨"A", 0, 4000 + SHOP_CONTEXT_TTL⟩ ∧
    ∃ w, (runButtons demoState pageClicks).shopViews "B" = some w ∧ w.ownerId = "A" ∧
      0 ≤ w.page ∧
      ∀ a, pageClicks.getLast? = some a → w.expires = a.2.now + SHOP_CONTEXT_TTL :=
  ⟨⟨by decide, by decide, ⟨rfl, Or.inr rfl, by decide, rfl, Or.inl rfl, by decide, rfl,
      Or.inl rfl, by decide, trivial⟩⟩,
    by decide,
    (page_clicks_session demoState "B" ⟨"A", 0, 1000 + SHOP_CONTEXT_TTL⟩ pageClicks (by decide)
      (by decide) ⟨rfl, Or.inr rfl, by decide, rfl, Or.inl rfl, by decide, rfl, Or.inl rfl,
        by decide, trivial⟩).1⟩

/-- C16 fails on the code. Two of the registered listeners turn the page on a
`shop_prev` / `shop_next` click, and both receive every click: on a live
session at page `p` one `shop_next` click leaves the page `p + 2` (not `p + 1`)
and one `shop_prev` click leaves `max 0 (max 0 (p - 1) - 1)`, which is `p - 2`
from page 2 on (not `p - 1`). From page 0 a click on next leaves the session at
page 2, and from page 3 a click on previous leaves it at page 1. -/
theorem one_click_two_pages :
    (∀ (env : Env) (c : Click) (t : State) (w : View), c.customId = "shop_next" →
      liveView t.shopViews c.userId c.now = some w →
      (dispatchButton env c t).shopViews c.userId =
        some ⟨w.ownerId, w.page + 2, c.now + SHOP_CONTEXT_TTL⟩) ∧
    (∀ (env : Env) (c : Click) (t : State) (w : View), c.customId = "shop_prev" →
      liveView t.shopViews c.userId c.now = some w →
      (dispatchButton env c t).shopViews c.userId =
        some ⟨w.ownerId, max 0 (max 0 (w.page - 1) - 1), c.now + SHOP_CONTEXT_TTL⟩) ∧
    (liveView demoState.shopViews "B" 2000 = some ⟨"A", 0, 1000 + SHOP_CONTEXT_TTL⟩ ∧
      (dispatchButton demoEnv ⟨"B", "shop_next", 2000⟩ demoState).shopViews "B" =
        some ⟨"A", 2, 2000 + SHOP_CONTEXT_TTL⟩ ∧
      (buttonHandler demoEnv ⟨"B", "shop_next", 2000⟩ demoState).1.shopViews "B" =
        some ⟨"A", 1, 2000 + SHOP_CONTEXT_TTL⟩ ∧
      (paginationHandler ⟨"B", "shop_next", 2000⟩ demoState).1.shopViews "B" =
        some ⟨"A", 1, 2000 + SHOP_CONTEXT_TTL⟩) ∧
    (liveView pageThreeState.shopViews "B" 2000 = some ⟨"A", 3, 1000 + SHOP_CONTEXT_TTL⟩ ∧
      (dispatchButton demoEnv ⟨"B", "shop_prev", 2000⟩ pageThreeState).shopViews "B" =
        some ⟨"A", 1, 2000 + SHOP_CONTEXT_TTL⟩ ∧
      max (0 : Int) (3 - 1) = 2) := by
  refine ⟨fun env c t w hid hl => ?_, fun env c t w hid hl => ?_,
    ⟨by decide, by decide, by decide, by decide⟩, ⟨by decide, by decide, by decide⟩⟩
  · rw [dispatchButton_live env c t w (Or.inr hid) hl]
    have hne : ¬ ("shop_next" = "shop_prev") := by decide
    simp only [hid, hne, if_false, Views.set_self, Option.some.injEq, View.mk.injEq, true_and,
      and_true]
    omega
  · rw [dispatchButton_live env c t w (Or.inl hid) hl]
    simp only [hid, if_true, Views.set_self]

/-! ## Sums of prices -/

/-- The number value of an integer that binary64 holds exactly. -/
theorem ofInt_repr (n : Int) (h : SafeInt n) :
    ∃ (M : Nat) (E : Int), Num.ofInt n = Num.fin (decide (n < 0)) M E ∧ E ≤ 0 ∧
      M = n.natAbs * 2 ^ (-E).toNat := by
  obtain ⟨h1, h2⟩ := h
  by_cases h0 : n = 0
  · subst h0
    exact ⟨0, 0, by decide, le_refl _, by simp⟩
  · have hk : 1 ≤ n.natAbs := Int.natAbs_pos.2 h0
    have hk53 : n.natAbs < 2 ^ 53 := by omega
    obtain ⟨M, E, hr, hE, _, hM⟩ :=
      roundRat_exact (decide (n < 0)) n.natAbs 1 n.natAbs 0 (le_refl _) hk hk53 (by omega)
        (by simp)
    exact ⟨M, E, hr, hE, by simpa using hM⟩

/-- Sign times absolute value. -/
theorem sign_mul_natAbs (n : Int) :
    (if decide (n < 0) = true then (-1 : Int) else 1) * (n.natAbs : Int) = n := by
  by_cases h : n < 0
  · simp only [h, decide_True, if_true]
    omega
  · simp only [h, decide_False, Bool.false_eq_true, if_false]
    omega

/-- The integer a number of the form `M * 2^E`, `E <= 0`, `M = k * 2^(-E)`, is
equal to. -/
theorem toInt?_scaled (neg : Bool) (M k : Nat) (E : Int) (hE : E ≤ 0)
    (hM : M = k * 2 ^ (-E).toNat) :
    (Num.fin neg M E).toInt? = some ((if neg then -1 else 1) * (k : Int)) := by
  have h := toInt?_of_value neg M k 0 E hE (by simpa using hM)
  rw [h]
  simp [Nat.mod_one]

/-- Reading back an integer that binary64 holds exactly gives that integer. -/
theorem ofInt_toInt? (n : Int) (h : SafeInt n) : (Num.ofInt n).toInt? = some n := by
  obtain ⟨M, E, hr, hE, hM⟩ := ofInt_repr n h
  rw [hr, toInt?_scaled _ M n.natAbs E hE hM, sign_mul_natAbs]

/-- The sum of two integers, formed in binary64, is exact when the operands and
the sum are held exactly. -/
theorem add_ofInt (a b : Int) (ha : SafeInt a) (hb : SafeInt b) (hab : SafeInt (a + b)) :
    ((Num.ofInt a).add (Num.ofInt b)).toInt? = some (a + b) := by
  obtain ⟨M1, E1, hr1, hE1, hM1⟩ := ofInt_repr a ha
  obtain ⟨M2, E2, hr2, hE2, hM2⟩ := ofInt_repr b hb
  rw [hr1, hr2]
  have he : min E1 E2 ≤ 0 := le_trans (min_le_left _ _) hE1
  obtain ⟨d, hd⟩ : ∃ d : Nat, (d : Int) = -(min E1 E2) := ⟨(-(min E1 E2)).toNat, by omega⟩
  have hd1 : (-E1).toNat + (E1 - min E1 E2).toNat = d := by
    have := min_le_left E1 E2
    omega
  have hd2 : (-E2).toNat + (E2 - min E1 E2).toNat = d := by
    have := min_le_right E1 E2
    omega
  have hx : (if decide (a < 0) = true then (-1 : Int) else 1) *
      ((M1 * 2 ^ (E1 - min E1 E2).toNat : Nat) : Int) = a * ((2 ^ d : Nat) : Int) := by
    rw [hM1, Nat.mul_assoc, ← pow_add, hd1, Nat.cast_mul, ← mul_assoc, sign_mul_natAbs]
  have hy : (if decide (b < 0) = true then (-1 : Int) else 1) *
      ((M2 * 2 ^ (E2 - min E1 E2).toNat : Nat) : Int) = b * ((2 ^ d : Nat) : Int) := by
    rw [hM2, Nat.mul_assoc, ← pow_add, hd2, Nat.cast_mul, ← mul_assoc, sign_mul_natAbs]
  have hD : (0 : Int) < ((2 ^ d : Nat) : Int) := by positivity
  have hsum : a * ((2 ^ d : Nat) : Int) + b * ((2 ^ d : Nat) : Int) =
      (a + b) * ((2 ^ d : Nat) : Int) := by ring
  simp only [Num.add, hx, hy, hsum]
  by_cases h0 : a + b = 0
  · rw [if_pos (by rw [h0, zero_mul])]
    rw [h0]
    simp [Num.toInt?]
  · have hne : (a + b) * ((2 ^ d : Nat) : Int) ≠ 0 := mul_ne_zero h0 (ne_of_gt hD)
    rw [if_neg hne]
    have hneg : decide ((a + b) * ((2 ^ d : Nat) : Int) < 0) = decide (a + b < 0) := by
      congr 1
      exact propext ⟨fun h => by
          by_contra hc
          exact absurd h (not_lt.2 (mul_nonneg (not_lt.1 hc) (le_of_lt hD))),
        fun h => mul_neg_of_neg_of_pos h hD⟩
    have habs : ((a + b) * ((2 ^ d : Nat) : Int)).natAbs = (a + b).natAbs * 2 ^ d := by
      rw [Int.natAbs_mul, Int.natAbs_ofNat]
    have hk : 1 ≤ (a + b).natAbs := Int.natAbs_pos.2 h0
    have hk53 : (a + b).natAbs < 2 ^ 53 := by
      obtain ⟨h1, h2⟩ := hab
      omega
    have htn : (min E1 E2).toNat = 0 := by omega
    have hntn : (-(min E1 E2)).toNat = d := by omega
    obtain ⟨M, E, hr, hE, _, hM⟩ :=
      roundRat_exact (decide (a + b < 0)) ((a + b).natAbs * 2 ^ d) (2 ^ d) (a + b).natAbs 0
        (Nat.one_le_two_pow) hk hk53 (by omega) (by simp)
    rw [hneg, habs]
    unfold roundDyadic
    rw [htn, hntn, pow_zero, Nat.mul_one, hr,
      toInt?_scaled _ M (a + b).natAbs E hE (by simpa using hM), sign_mul_natAbs]

/-- The value bound when the program passes on an integer price it has read:
the integer itself when it has 32 bits, the `REAL` equal to it otherwise. -/
theorem rebound_int (p : Int) (h : SafeInt p) :
    (SqlNum.int p).rebound =
      if -2 ^ 31 ≤ p ∧ p < 2 ^ 31 then SqlNum.int p else SqlNum.real (Num.ofInt p) := by
  simp only [SqlNum.rebound, SqlNum.toJs, SqlNum.paramJs, SqlNum.param, ofInt_toInt? p h]

/-- Stored again, an integer price that binary64 holds exactly is itself. -/
theorem rebound_store_int (p : Int) (h : SafeInt p) :
    (SqlNum.int p).rebound.store = SqlNum.int p := by
  rw [rebound_int p h]
  obtain ⟨h1, h2⟩ := h
  split
  · rfl
  · have hr : -2 ^ 63 < p ∧ p < 2 ^ 63 := by constructor <;> omega
    simp only [SqlNum.store, ofInt_toInt? p ⟨h1, h2⟩, if_pos hr]

/-- One `UPDATE shops` on an integer total with an integer price, all held
exactly by binary64, adds the price. -/
theorem add_rebound_int (t p : Int) (ht : SafeInt t) (hp : SafeInt p) (htp : SafeInt (t + p)) :
    (SqlNum.int t + (SqlNum.int p).rebound).store = SqlNum.int (t + p) := by
  rw [rebound_int p hp]
  have hr : -2 ^ 63 < t + p ∧ t + p < 2 ^ 63 := by
    obtain ⟨h1, h2⟩ := htp
    constructor <;> omega
  split
  · show (SqlNum.add (SqlNum.int t) (SqlNum.int p)).store = _
    have hr2 : -2 ^ 63 ≤ t + p ∧ t + p < 2 ^ 63 := ⟨le_of_lt hr.1, hr.2⟩
    simp only [SqlNum.add, if_pos hr2, SqlNum.store]
  · show (SqlNum.add (SqlNum.int t) (SqlNum.real (Num.ofInt p))).store = _
    have hsum := add_ofInt t p ht hp htp
    have hnan : isNaN ((Num.ofInt t).add (Num.ofInt p)) = false := by
      cases hz : (Num.ofInt t).add (Num.ofInt p) with
      | nan => rw [hz] at hsum; simp [Num.toInt?] at hsum
      | inf b => rfl
      | fin b m e => rfl
    simp only [SqlNum.add, SqlNum.ofReal, hnan, Bool.false_eq_true, if_false, SqlNum.store, hsum,
      if_pos hr]

/-- The sum `t + j * p` lies between `t` and `t + k * p` for `j <= k`. -/
theorem safeInt_between (t p : Int) (j k : Nat) (hjk : j ≤ k) (ht : SafeInt t)
    (htk : SafeInt (t + k * p)) : SafeInt (t + j * p) := by
  obtain ⟨h1, h2⟩ := ht
  obtain ⟨h3, h4⟩ := htk
  have hj : (0 : Int) ≤ j := Int.ofNat_nonneg j
  have hkj : (0 : Int) ≤ (k : Int) - j := by
    have : (j : Int) ≤ k := by exact_mod_cast hjk
    omega
  rcases le_or_lt 0 p with hp | hp
  · have ha : 0 ≤ (j : Int) * p := mul_nonneg hj hp
    have hb : 0 ≤ ((k : Int) - j) * p := mul_nonneg hkj hp
    have hc : (k : Int) * p = j * p + (k - j) * p := by ring
    constructor <;> omega
  · have ha : (j : Int) * p ≤ 0 := mul_nonpos_of_nonneg_of_nonpos hj (le_of_lt hp)
    have hb : ((k : Int) - j) * p ≤ 0 := mul_nonpos_of_nonneg_of_nonpos hkj (le_of_lt hp)
    have hc : (k : Int) * p = j * p + (k - j) * p := by ring
    constructor <;> omega

/-- An integer price added `k` times to an integer total, the price, the total
and the final sum being held exactly by binary64, adds `k * p`. -/
theorem addTimes_rebound_int (k : Nat) :
    ∀ t p : Int, SafeInt t → SafeInt p → SafeInt (t + k * p) →
      (SqlNum.int t).addTimes k (SqlNum.int p).rebound = SqlNum.int (t + k * p) := by
  induction k with
  | zero =>
    intro t p _ _ _
    simp [SqlNum.addTimes]
  | succ n ih =>
    intro t p ht hp htk
    have h1 : SafeInt (t + p) := by
      have := safeInt_between t p 1 (n + 1) (by omega) ht htk
      simpa using this
    have hstep : (SqlNum.int t).addTimes (n + 1) (SqlNum.int p).rebound =
        (SqlNum.int (t + p)).addTimes n (SqlNum.int p).rebound := by
      simp only [SqlNum.addTimes, Function.iterate_succ_apply]
      rw [add_rebound_int t p ht hp h1]
    have h2 : SafeInt (t + p + n * p) := by
      have he : t + p + (n : Int) * p = t + ((n + 1 : Nat) : Int) * p := by
        push_cast
        ring
      rw [he]
      exact htk
    rw [hstep, ih (t + p) p h1 hp h2]
    congr 1
    push_cast
    ring

/-- The sum `t + j * p` lies between `t` and `t + k * p` for `j <= k`. -/
theorem int64_between (t p : Int) (j k : Nat) (hjk : j ≤ k) (ht : IsInt64 t)
    (htk : IsInt64 (t + k * p)) : IsInt64 (t + j * p) := by
  obtain ⟨h1, h2⟩ := ht
  obtain ⟨h3, h4⟩ := htk
  have hj : (0 : Int) ≤ j := Int.ofNat_nonneg j
  have hkj : (0 : Int) ≤ (k : Int) - j := by
    have : (j : Int) ≤ k := by exact_mod_cast hjk
    omega
  rcases le_or_lt 0 p with hp | hp
  · have ha : 0 ≤ (j : Int) * p := mul_nonneg hj hp
    have hb : 0 ≤ ((k : Int) - j) * p := mul_nonneg hkj hp
    have hc : (k : Int) * p = j * p + (k - j) * p := by ring
    constructor <;> omega
  · have ha : (j : Int) * p ≤ 0 := mul_nonpos_of_nonneg_of_nonpos hj (le_of_lt hp)
    have hb : ((k : Int) - j) * p ≤ 0 := mul_nonpos_of_nonneg_of_nonpos hkj (le_of_lt hp)
    have hc : (k : Int) * p = j * p + (k - j) * p := by ring
    constructor <;> omega

/-- A 32-bit price added `k` times to a 64-bit total adds `k * p` when the final
sum has 64 bits: the additions are integer additions. -/
theorem addTimes_rebound_int32 (k : Nat) :
    ∀ t p : Int, IsInt32 p → IsInt64 t → IsInt64 (t + k * p) →
      (SqlNum.int t).addTimes k (SqlNum.int p).rebound = SqlNum.int (t + k * p) := by
  induction k with
  | zero =>
    intro t p _ _ _
    simp [SqlNum.addTimes]
  | succ n ih =>
    intro t p hp ht htk
    have hsafe : SafeInt p := by
      obtain ⟨h1, h2⟩ := hp
      constructor <;> omega
    have hreb : (SqlNum.int p).rebound = SqlNum.int p := by
      have hp2 : -2 ^ 31 ≤ p ∧ p < 2 ^ 31 := hp
      rw [rebound_int p hsafe, if_pos hp2]
    have h1 : IsInt64 (t + p) := by
      have := int64_between t p 1 (n + 1) (by omega) ht htk
      simpa using this
    have hadd : (SqlNum.int t + SqlNum.int p).store = SqlNum.int (t + p) := by
      show (SqlNum.add (SqlNum.int t) (SqlNum.int p)).store = _
      have h64 : -2 ^ 63 ≤ t + p ∧ t + p < 2 ^ 63 := h1
      simp only [SqlNum.add, if_pos h64, SqlNum.store]
    have hstep : (SqlNum.int t).addTimes (n + 1) (SqlNum.int p).rebound =
        (SqlNum.int (t + p)).addTimes n (SqlNum.int p).rebound := by
      simp only [SqlNum.addTimes, Function.iterate_succ_apply]
      rw [hreb, hadd]
    have h2 : IsInt64 (t + p + n * p) := by
      have he : t + p + (n : Int) * p = t + ((n + 1 : Nat) : Int) * p := by
        push_cast
        ring
      rw [he]
      exact htk
    rw [hstep, ih (t + p) p hp h1 h2]
    congr 1
    push_cast
    ring

/-- C6, as the code has it. In a store where `id` is the key of `items` and
purchase ids are fresh, `k` successful purchases of an item with price `p` and
amount `a`, `k < a`, run one after the other, leave the item's row with amount
`a - k` (every other row as it was), add exactly `k` purchase rows, each with
that item's id, the item's owner as seller and the price as the handler binds
it again, raise the owner's `total_sales` by `k` and add the bound price to
`total_earned_sats` `k` times with SQLite's `+`. When `p` is an integer that
binary64 holds exactly (`|p| < 2^53`) the purchase rows hold `price_sats = p`,
and a total `t` that is such an integer, with `t + k * p` such an integer too,
grows by exactly `k * p`; so does every 64-bit total `t` with `t + k * p` in 64
bits when `p` is a 32-bit integer. -/
theorem k_purchases (s : State) (attempts : List (Env × BuyForm)) (item : Item)
    (hpk : (s.db.items.map (fun i => i.id)).Nodup) (hitem : item ∈ s.db.items)
    (hk : (attempts.length : Int) < item.amount) (hsold : AllSold item.id s attempts)
    (hfresh : (s.db.purchases.map (fun q => q.id) ++
      attempts.map (fun a => a.2.uuid)).Nodup) :
    (runBuys s attempts).db.items = s.db.items.map
      (fun i => if i.id = item.id then { i with amount := i.amount - attempts.length }
        else i) ∧
    (∃ rows : List Purchase, (runBuys s attempts).db.purchases = s.db.purchases ++ rows ∧
      rows.length = attempts.length ∧
      ∀ r ∈ rows, r.price_sats = item.price_sats.rebound.store ∧ r.item_id = item.id ∧
        r.seller_id = item.owner_id) ∧
    (runBuys s attempts).db.shops = s.db.shops.map
      (fun sh => if sh.user_id = item.owner_id then
        { sh with total_sales := sh.total_sales + attempts.length,
                  total_earned_sats :=
                    sh.total_earned_sats.addTimes attempts.length item.price_sats.rebound }
        else sh) ∧
    (∀ p : Int, item.price_sats = SqlNum.int p → SafeInt p →
      item.price_sats.rebound.store = SqlNum.int p ∧
      ∀ t : Int, SafeInt t → SafeInt (t + attempts.length * p) →
        (SqlNum.int t).addTimes attempts.length item.price_sats.rebound =
          SqlNum.int (t + attempts.length * p)) ∧
    (∀ p : Int, item.price_sats = SqlNum.int p → IsInt32 p →
      ∀ t : Int, IsInt64 t → IsInt64 (t + attempts.length * p) →
        (SqlNum.int t).addTimes attempts.length item.price_sats.rebound =
          SqlNum.int (t + attempts.length * p)) := by
  obtain ⟨hitems, ⟨rows, hrows, hids, hall⟩, hshops⟩ :=
    sold_run attempts s item hpk hitem hk hsold hfresh
  refine ⟨hitems, ⟨rows, hrows, ?_, hall⟩, hshops, fun p hprice hp => ?_,
    fun p hprice hp t ht htk => ?_⟩
  · have := congrArg List.length hids
    simpa using this
  · rw [hprice]
    exact ⟨rebound_store_int p hp, fun t ht htk => addTimes_rebound_int _ t p ht hp htk⟩
  · rw [hprice]
    exact addTimes_rebound_int32 _ t p hp ht htk

set_option maxRecDepth 10000 in
/-- Witness of C6 as amended: "2.5" coins are 250000000 sats, the price of
`widget`; two purchases out of a stock of three leave one unit, two purchase
rows with that price and the totals 2 and 500000000. -/
theorem k_purchases_witness :
    SqlNum.bind (toSats "2.5") = widget.price_sats ∧
    ((demoState.db.items.map (fun i => i.id)).Nodup ∧ widget ∈ demoState.db.items ∧
      (([(demoEnv, demoForm "p1" 2000), (demoEnv, demoForm "p2" 3000)].length : Nat) : Int) <
        widget.amount ∧
      AllSold widget.id demoState [(demoEnv, demoForm "p1" 2000), (demoEnv, demoForm "p2" 3000)] ∧
      (demoState.db.purchases.map (fun q => q.id) ++
        [(demoEnv, demoForm "p1" 2000), (demoEnv, demoForm "p2" 3000)].map
          (fun a => a.2.uuid)).Nodup) ∧
    (runBuys demoState [(demoEnv, demoForm "p1" 2000), (demoEnv, demoForm "p2" 3000)]).db.items =
      demoState.db.items.map (fun i => if i.id = widget.id then
        { i with amount := i.amount -
            ([(demoEnv, demoForm "p1" 2000), (demoEnv, demoForm "p2" 3000)].length : Nat) }
        else i) ∧
    (runBuys demoState [(demoEnv, demoForm "p1" 2000), (demoEnv, demoForm "p2" 3000)]).db.items =
      [{ widget with amount := 1 }] ∧
    (runBuys demoState [(demoEnv, demoForm "p1" 2000),
      (demoEnv, demoForm "p2" 3000)]).db.purchases =
      [⟨"p1", "B", "A", "i1", 250000000, some "tx", 2000⟩,
       ⟨"p2", "B", "A", "i1", 250000000, some "tx", 3000⟩] ∧
    (runBuys demoState [(demoEnv, demoForm "p1" 2000), (demoEnv, demoForm "p2" 3000)]).db.shops =
      [⟨"A", 0, 2, 500000000⟩, ⟨"B", 0, 0, 0⟩] :=
  ⟨by decide, ⟨by decide, by decide, by decide, ⟨by decide, by decide, trivial⟩, by decide⟩,
    (k_purchases demoState [(demoEnv, demoForm "p1" 2000), (demoEnv, demoForm "p2" 3000)] widget
      (by decide) (by decide) (by decide) ⟨by decide, by decide, trivial⟩ (by decide)).1,
    by decide, by decide, by decide⟩

set_option maxRecDepth 10000 in
/-- C6 as stated fails for a price above `2^53`. The item `jewel` has the price
`p = 2^53 + 2` sats (accepted by `/additem` as "90071992.54740994") and 4 units;
three purchases succeed, and the owner's `total_earned_sats`, which was 0, is
27021597764222984 afterwards, not `3 * p = 27021597764222982`: the third
addition is done in binary64 and rounds. -/
theorem total_earned_rounds_counterexample :
    SqlNum.bind (toSats "90071992.54740994") = jewel.price_sats ∧
    jewel.price_sats = SqlNum.int 9007199254740994 ∧
    ((jewelState.db.items.map (fun i => i.id)).Nodup ∧ jewel ∈ jewelState.db.items ∧
      ((jewelBuys.length : Nat) : Int) < jewel.amount ∧ AllSold jewel.id jewelState jewelBuys ∧
      (jewelState.db.purchases.map (fun q => q.id) ++
        jewelBuys.map (fun a => a.2.uuid)).Nodup) ∧
    (runBuys jewelState jewelBuys).db.items = [{ jewel with amount := 1 }] ∧
    (runBuys jewelState jewelBuys).db.shops =
      [⟨"A", 0, 3, 27021597764222984⟩, ⟨"B", 0, 0, 0⟩] ∧
    (27021597764222984 : Int) ≠ 0 + 3 * 9007199254740994 :=
  ⟨by decide, rfl, ⟨by decide, by decide, by decide, ⟨by decide, by decide, by decide, trivial⟩,
    by decide⟩, by decide, by decide, by decide⟩

end NFTsShop
